import Mathlib

/-!
# agent-escrow: the two front doors over one escrow ledger

A shallow embedding of `src/api-server/server.js` (the REST front door) and
`src/mcp-server/index.js` (the tool server).  JavaScript strings are Lean
`String`s handled through their character lists, `bigint` values are `Int`,
`undefined` is an explicit value, and a thrown exception is `none` / `Except.error`.
-/

namespace AgentEscrow

/-! ## Decimal digits, `BigInt.prototype.toString` and `BigInt(string)` -/

/-- The character of one decimal digit. -/
def digitChar : Nat → Char
  | 0 => '0' | 1 => '1' | 2 => '2' | 3 => '3' | 4 => '4'
  | 5 => '5' | 6 => '6' | 7 => '7' | 8 => '8' | _ => '9'

/-- The value of a digit character in base 36 (`0-9`, `a-z`, `A-Z`), if it is one. -/
def charValue (c : Char) : Option Nat :=
  if '0'.toNat ≤ c.toNat ∧ c.toNat ≤ '9'.toNat then some (c.toNat - '0'.toNat)
  else if 'a'.toNat ≤ c.toNat ∧ c.toNat ≤ 'z'.toNat then some (c.toNat - 'a'.toNat + 10)
  else if 'A'.toNat ≤ c.toNat ∧ c.toNat ≤ 'Z'.toNat then some (c.toNat - 'A'.toNat + 10)
  else none

/-- The value of a digit character of the given radix, if it is one. -/
def digitValue (radix : Nat) (c : Char) : Option Nat :=
  match charValue c with
  | some d => if d < radix then some d else none
  | none => none

/-- True for the characters `0` to `9` (the regular expression class `[0-9]`). -/
def isDecimalDigit (c : Char) : Bool := (digitValue 10 c).isSome

/-- Most significant digit first; `fuel` bounds the number of digits written. -/
def toDecimalAux : Nat → Nat → List Char → List Char
  | 0, _, acc => acc
  | fuel + 1, n, acc =>
    if n < 10 then digitChar n :: acc
    else toDecimalAux fuel (n / 10) (digitChar (n % 10) :: acc)

/-- The decimal numeral of a natural number, without leading zeros (`"0"` for zero). -/
def toDecimal (n : Nat) : List Char := toDecimalAux (n + 1) n []

/-- `BigInt.prototype.toString()`: a minus sign for a negative value, then the numeral. -/
def bigIntToString (v : Int) : String :=
  ⟨(if v < 0 then ['-'] else []) ++ toDecimal v.natAbs⟩

/-- The number written by a list of digits of the given radix, continuing from `acc`;
`none` when a character is not a digit of that radix. -/
def digitsValue (radix : Nat) : List Char → Nat → Option Nat
  | [], acc => some acc
  | c :: cs, acc =>
    match digitValue radix c with
    | some d => digitsValue radix cs (acc * radix + d)
    | none => none

/-- A non-empty list of digits read as a number; `none` for the empty list. -/
def digitsValue1 (radix : Nat) (cs : List Char) : Option Nat :=
  if cs.isEmpty then none else digitsValue radix cs 0

/-- ECMAScript `StrWhiteSpaceChar`: white space and line terminators. -/
def isStrWhiteSpace (c : Char) : Bool :=
  let n := c.toNat
  n = 0x09 || n = 0x0A || n = 0x0B || n = 0x0C || n = 0x0D || n = 0x20 || n = 0xA0 ||
  n = 0x1680 || (0x2000 ≤ n && n ≤ 0x200A) || n = 0x2028 || n = 0x2029 || n = 0x202F ||
  n = 0x205F || n = 0x3000 || n = 0xFEFF

/-- Drop the characters satisfying `p` from the end of a list. -/
def dropWhileEnd (p : Char → Bool) (cs : List Char) : List Char :=
  (cs.reverse.dropWhile p).reverse

/-- ECMAScript `StringToBigInt`, the conversion `BigInt(s)` applies to a string: white
space is trimmed, the empty string is `0n`, a decimal numeral may carry a sign, a
numeral with prefix `0x`, `0o` or `0b` may not; `none` is the thrown `SyntaxError`. -/
def stringToBigInt (s : String) : Option Int :=
  match dropWhileEnd isStrWhiteSpace (s.data.dropWhile isStrWhiteSpace) with
  | [] => some 0
  | '0' :: 'x' :: cs => (digitsValue1 16 cs).map Int.ofNat
  | '0' :: 'X' :: cs => (digitsValue1 16 cs).map Int.ofNat
  | '0' :: 'o' :: cs => (digitsValue1 8 cs).map Int.ofNat
  | '0' :: 'O' :: cs => (digitsValue1 8 cs).map Int.ofNat
  | '0' :: 'b' :: cs => (digitsValue1 2 cs).map Int.ofNat
  | '0' :: 'B' :: cs => (digitsValue1 2 cs).map Int.ofNat
  | '-' :: cs => (digitsValue1 10 cs).map (fun n => - Int.ofNat n)
  | '+' :: cs => (digitsValue1 10 cs).map Int.ofNat
  | cs => (digitsValue1 10 cs).map Int.ofNat

/-! ## viem unit conversion: `formatEther` and `parseEther` -/

/-- `String.prototype.padStart(n, c)` on a character list. -/
def padStart (cs : List Char) (n : Nat) (c : Char) : List Char :=
  List.replicate (n - cs.length) c ++ cs

/-- `String.prototype.padEnd(n, c)` on a character list. -/
def padEnd (cs : List Char) (n : Nat) (c : Char) : List Char :=
  cs ++ List.replicate (n - cs.length) c

/-- The replacement `.replace(/(0+)$/, '')`: trailing zeros removed. -/
def stripTrailingZeros (cs : List Char) : List Char :=
  dropWhileEnd (fun c => c == '0') cs

/-- Modelled from the spec: `formatEther` is imported from the viem package, whose
source is not part of this repository; the spec names it the "numeric unit conversion
(native smallest unit ↔ display value)" and shows 0.01 displayed as "0.01".  This is
viem's `formatUnits(value, decimals)`: the numeral is left-padded with zeros to
`decimals` digits, split `decimals` digits from the end, the fraction loses its
trailing zeros, an empty integer part reads `0`, and an empty fraction is omitted
together with the point. -/
def formatUnits (value : Int) (decimals : Nat) : String :=
  let negative := decide (value < 0)
  let display := padStart (toDecimal value.natAbs) decimals '0'
  let integer := display.take (display.length - decimals)
  let fraction := stripTrailingZeros (display.drop (display.length - decimals))
  ⟨(if negative then ['-'] else []) ++ (if integer.isEmpty then ['0'] else integer) ++
    (if fraction.isEmpty then [] else '.' :: fraction)⟩

/-- Modelled from the spec: viem's `formatEther(wei)`, which is `formatUnits(wei, 18)`. -/
def formatEther (wei : Int) : String := formatUnits wei 18

/-- The test `/^(-?)([0-9]*)\.?([0-9]*)$/`: an optional minus sign, digits, an optional
point, digits. -/
def isDecimalNumber (cs : List Char) : Bool :=
  let body := match cs with
    | '-' :: rest => rest
    | _ => cs
  match body.dropWhile isDecimalDigit with
  | [] => true
  | '.' :: rest => rest.all isDecimalDigit
  | _ => false

/-- The first two parts of `value.split('.')`: the text before the first point and,
when there is a point, the text after it up to the next one. -/
def splitDot (cs : List Char) : List Char × Option (List Char) :=
  match cs.span (fun c => c != '.') with
  | (before, []) => (before, none)
  | (before, _ :: after) => (before, some (after.takeWhile (fun c => c != '.')))

/-- Modelled from the spec: `parseEther` is imported from the viem package, whose source
is not part of this repository; the spec names it the "numeric unit conversion (native
smallest unit ↔ display value)".  This is viem's `parseUnits(value, decimals)`: the text
must be a decimal number, it is split at the point, the fraction loses its trailing
zeros and is right-padded with zeros to `decimals` digits, or rounded to `decimals`
digits when it is longer, and integer and fraction are read together as one `BigInt`.
The rounding goes through floating point, `Math.round(Number(text))`, which is the
parameter `roundNumber`.  `none` is a thrown error. -/
def parseUnits (roundNumber : String → Int) (value : String) (decimals : Nat) : Option Int :=
  if !isDecimalNumber value.data then none
  else
    let (integer0, fraction0) := splitDot value.data
    let negative := integer0.head? == some '-'
    let integer1 := if negative then integer0.drop 1 else integer0
    let fraction1 := stripTrailingZeros (fraction0.getD ['0'])
    let parts : Option (List Char × List Char) :=
      if decimals = 0 then
        if roundNumber ⟨'.' :: fraction1⟩ = 1 then
          (stringToBigInt ⟨integer1⟩).map (fun i => ((bigIntToString (i + 1)).data, []))
        else some (integer1, [])
      else if fraction1.length > decimals then
        let left := fraction1.take (decimals - 1)
        let unit := (fraction1.drop (decimals - 1)).take 1
        let right := fraction1.drop decimals
        let rounded := roundNumber ⟨unit ++ '.' :: right⟩
        let fraction2 : Option (List Char) :=
          if rounded > 9 then
            (stringToBigInt ⟨left⟩).map (fun l =>
              padStart ((bigIntToString (l + 1)).data ++ ['0']) (left.length + 1) '0')
          else some (left ++ (bigIntToString rounded).data)
        fraction2.bind (fun f =>
          if f.length > decimals then
            (stringToBigInt ⟨integer1⟩).map (fun i =>
              ((bigIntToString (i + 1)).data, ((f.drop 1).take decimals)))
          else some (integer1, f.take decimals))
      else some (integer1, padEnd fraction1 decimals '0')
    parts.bind (fun p => stringToBigInt ⟨(if negative then ['-'] else []) ++ p.1 ++ p.2⟩)

/-- Modelled from the spec: viem's `parseEther(ether)`, which is `parseUnits(ether, 18)`. -/
def parseEther (roundNumber : String → Int) (ether : String) : Option Int :=
  parseUnits roundNumber ether 18

/-! ## ECMAScript `Date`: time values, `toISOString` and the ISO form of `Date.parse`

A `Date` holds a time value, an integral number of milliseconds since the epoch with
absolute value at most 8.64e15, or `NaN` (an invalid date), which is `none` here. -/

/-- The largest absolute time value of a valid `Date`, in milliseconds. -/
def maxTimeValue : Int := 8640000000000000

/-- The number of milliseconds of a day. -/
def msPerDay : Int := 86400000

/-- ECMAScript `TimeClip`: a time beyond ±8.64e15 ms is `NaN`. -/
def timeClip (t : Int) : Option Int :=
  if t.natAbs > maxTimeValue.natAbs then none else some t

/-- ECMAScript `DaysInYear(y)`. -/
def daysInYear (y : Int) : Int :=
  if y % 4 ≠ 0 then 365 else if y % 100 ≠ 0 then 366 else if y % 400 ≠ 0 then 365 else 366

/-- ECMAScript `InLeapYear`, as 0 or 1. -/
def inLeapYear (y : Int) : Nat := if daysInYear y = 366 then 1 else 0

/-- ECMAScript `DayFromYear(y)`: the day number of the first day of year `y`. -/
def dayFromYear (y : Int) : Int :=
  365 * (y - 1970) + (y - 1969) / 4 - (y - 1901) / 100 + (y - 1601) / 400

/-- ECMAScript `YearFromTime` on a day number: the largest year whose first day is not
after `day`, found from an estimate that is off by at most one. -/
def yearFromDay (day : Int) : Int :=
  let y0 := 1970 + day * 400 / 146097
  if dayFromYear (y0 + 1) ≤ day then y0 + 1
  else if dayFromYear y0 ≤ day then y0
  else y0 - 1

/-- The day within the year on which month `m` (0 to 11) starts; the length of the
year for `m = 12`. -/
def monthStart (leap : Nat) : Nat → Nat
  | 0 => 0 | 1 => 31 | 2 => 59 + leap | 3 => 90 + leap | 4 => 120 + leap
  | 5 => 151 + leap | 6 => 181 + leap | 7 => 212 + leap | 8 => 243 + leap
  | 9 => 273 + leap | 10 => 304 + leap | 11 => 334 + leap | _ => 365 + leap

/-- ECMAScript `MonthFromTime` on the day within the year: the month, 0 to 11. -/
def monthFromDay (leap : Nat) (dayWithinYear : Nat) : Nat :=
  if dayWithinYear < 31 then 0 else if dayWithinYear < 59 + leap then 1
  else if dayWithinYear < 90 + leap then 2 else if dayWithinYear < 120 + leap then 3
  else if dayWithinYear < 151 + leap then 4 else if dayWithinYear < 181 + leap then 5
  else if dayWithinYear < 212 + leap then 6 else if dayWithinYear < 243 + leap then 7
  else if dayWithinYear < 273 + leap then 8 else if dayWithinYear < 304 + leap then 9
  else if dayWithinYear < 334 + leap then 10 else 11

/-- The calendar fields of a time value, all in UTC; the month is 1 to 12. -/
structure DateFields where
  year : Int
  month : Nat
  date : Nat
  hours : Nat
  minutes : Nat
  seconds : Nat
  ms : Nat
  deriving DecidableEq, Repr

/-- The fields of a time value: `YearFromTime`, `MonthFromTime` + 1, `DateFromTime`,
`HourFromTime`, `MinFromTime`, `SecFromTime`, `msFromTime`. -/
def dateFields (t : Int) : DateFields :=
  let day := t / msPerDay
  let timeInDay := (t % msPerDay).toNat
  let year := yearFromDay day
  let dayWithinYear := (day - dayFromYear year).toNat
  let month := monthFromDay (inLeapYear year) dayWithinYear
  { year := year
    month := month + 1
    date := dayWithinYear - monthStart (inLeapYear year) month + 1
    hours := timeInDay / 3600000
    minutes := timeInDay / 60000 % 60
    seconds := timeInDay / 1000 % 60
    ms := timeInDay % 1000 }

/-- A number written with exactly `width` decimal digits (its low digits). -/
def fixedDigits : Nat → Nat → List Char
  | 0, _ => []
  | width + 1, n => fixedDigits width (n / 10) ++ [digitChar (n % 10)]

/-- The year of an ISO string: four digits for 0 to 9999, else a sign and six digits. -/
def isoYear (y : Int) : List Char :=
  if 0 ≤ y ∧ y ≤ 9999 then fixedDigits 4 y.natAbs
  else (if y < 0 then '-' else '+') :: fixedDigits 6 y.natAbs

/-- The ISO string `YYYY-MM-DDTHH:mm:ss.sssZ` of calendar fields. -/
def isoString (f : DateFields) : String :=
  ⟨isoYear f.year ++ '-' :: fixedDigits 2 f.month ++ '-' :: fixedDigits 2 f.date ++
    'T' :: fixedDigits 2 f.hours ++ ':' :: fixedDigits 2 f.minutes ++
    ':' :: fixedDigits 2 f.seconds ++ '.' :: fixedDigits 3 f.ms ++ ['Z']⟩

/-- `Date.prototype.toISOString()`: the ISO string of a valid date; an invalid date
throws a `RangeError`, which is `none`. -/
def toISOString (date : Option Int) : Option String :=
  date.map (fun t => isoString (dateFields t))

/-- Read exactly `width` decimal digits from the front of a list. -/
def readDigits (width : Nat) (cs : List Char) : Option (Nat × List Char) :=
  if cs.length < width then none
  else (digitsValue1 10 (cs.take width)).map (fun v => (v, cs.drop width))

/-- Read one given character from the front of a list. -/
def expectChar (c : Char) : List Char → Option (List Char)
  | [] => none
  | d :: cs => if d = c then some cs else none

/-- Read the year of an ISO string: four digits, or a sign and six digits other than
`-000000`. -/
def readIsoYear : List Char → Option (Int × List Char)
  | '+' :: cs => (readDigits 6 cs).map (fun p => (Int.ofNat p.1, p.2))
  | '-' :: cs => (readDigits 6 cs).bind (fun p => if p.1 = 0 then none else some (- Int.ofNat p.1, p.2))
  | cs => (readDigits 4 cs).map (fun p => (Int.ofNat p.1, p.2))

/-- ECMAScript `MakeDay`, `MakeTime` and `MakeDate` on calendar fields with the month in
1 to 12: the time value of the fields. -/
def makeDate (f : DateFields) : Int :=
  (dayFromYear f.year + monthStart (inLeapYear f.year) (f.month - 1) + f.date - 1) * msPerDay +
    (f.hours * 3600000 + f.minutes * 60000 + f.seconds * 1000 + f.ms : Nat)

/-- True when the fields name a day of the calendar and a time of the day. -/
def validFields (f : DateFields) : Bool :=
  decide (1 ≤ f.month ∧ f.month ≤ 12 ∧ 1 ≤ f.date ∧
    f.date ≤ monthStart (inLeapYear f.year) f.month - monthStart (inLeapYear f.year) (f.month - 1) ∧
    f.hours ≤ 23 ∧ f.minutes ≤ 59 ∧ f.seconds ≤ 59)

/-- One item of a fixed-width format: a number of so many digits, or a given character. -/
inductive FormatItem where
  | digits (width : Nat)
  | lit (c : Char)

/-- Read a list of characters against a format, to the end of the list; the numbers
read, in order, or `none` when the text does not have the format. -/
def readFormat : List FormatItem → List Char → Option (List Nat)
  | [], cs => if cs.isEmpty then some [] else none
  | FormatItem.lit c :: items, cs => (expectChar c cs).bind (readFormat items)
  | FormatItem.digits width :: items, cs =>
    (readDigits width cs).bind (fun p => (readFormat items p.2).map (fun vs => p.1 :: vs))

/-- What follows the year in an ISO string: `-MM-DDTHH:mm:ss.sssZ`. -/
def isoFormat : List FormatItem :=
  [.lit '-', .digits 2, .lit '-', .digits 2, .lit 'T', .digits 2, .lit ':', .digits 2,
   .lit ':', .digits 2, .lit '.', .digits 3, .lit 'Z']

/-- Read the fields of a string of the form `YYYY-MM-DDTHH:mm:ss.sssZ` (the year may
also be a sign and six digits); `none` for any other text. -/
def readIsoFields (cs : List Char) : Option DateFields :=
  (readIsoYear cs).bind fun year =>
    match readFormat isoFormat year.2 with
    | some [month, date, hours, minutes, seconds, ms] =>
      some { year := year.1, month := month, date := date, hours := hours,
             minutes := minutes, seconds := seconds, ms := ms }
    | _ => none

/-- `Date.parse(s)`, the time value of `new Date(s)` for a string.  A string of the form
`toISOString` writes, naming a day of the calendar and a time of the day in UTC, has
the time value of its fields (`NaN` beyond the range of `Date`).  How any other text
is read depends on the engine and the time zone: that is the parameter `parseOther`. -/
def dateParse (parseOther : String → Option Int) (s : String) : Option Int :=
  match readIsoFields s.data with
  | some f => if validFields f then timeClip (makeDate f) else parseOther s
  | none => parseOther s

/-! ## JavaScript values, the ledger client and the effects of a handler -/

/-- A JavaScript value of the kinds a request or the ledger client can hand to a
handler.  A `num` is a number with an integral value, whose arithmetic here is exact,
as IEEE doubles are below 2^53.  A `fraction` is a finite number given by its exact
value; it stands for the numbers that are not integers.  An `object` is an object or
an array of a JSON text, given by the string its conversion to a primitive yields,
which is also what its `toString()` returns; `none` is an object on which both throw a
`TypeError` (it has a property `toString` of its own, which is not a function). -/
inductive JsVal where
  | undefined
  | null
  | bool (b : Bool)
  | num (n : Int)
  | fraction (q : ℚ)
  | bigint (v : Int)
  | str (s : String)
  | object (text : Option String)
  deriving DecidableEq, Repr

/-- An object literal: its properties in order. -/
abbrev JsObject := List (String × JsVal)

/-- Property access `o.key`: `undefined` for a missing property. -/
def JsObject.get (o : JsObject) (key : String) : JsVal :=
  (o.lookup key).getD JsVal.undefined

/-- What `JSON.stringify` keeps of an object: a property whose value is `undefined` is
left out. -/
def jsonProperties (o : JsObject) : JsObject :=
  o.filter (fun p => p.2 != JsVal.undefined)

/-- The truthiness `!!v` of a value. -/
def truthy : JsVal → Bool
  | JsVal.undefined => false
  | JsVal.null => false
  | JsVal.bool b => b
  | JsVal.num n => n != 0
  | JsVal.fraction q => q != 0
  | JsVal.bigint v => v != 0
  | JsVal.str s => s != ""
  | JsVal.object _ => true

/-- The largest integer up to which every integer is an IEEE double, 2^53: up to it
`Number.prototype.toString` writes the decimal numeral of the value. -/
def maxExactInteger : Nat := 9007199254740992

/-- The method call `v.toString()`; `none` is the `TypeError` on `undefined`, on `null`
and on an object whose `toString` is not a function.  `Number.prototype.toString` writes
an integer of at most 2^53 as its decimal numeral; what it writes for any other number
(the shortest digits that identify the double, an exponent from 1e21 on) depends on
floating point and is the parameter `numberToString`. -/
def jsToString (numberToString : ℚ → String) : JsVal → Option String
  | JsVal.undefined => none
  | JsVal.null => none
  | JsVal.bool b => some (if b then "true" else "false")
  | JsVal.num n =>
    some (if n.natAbs ≤ maxExactInteger then bigIntToString n else numberToString n)
  | JsVal.fraction q => some (numberToString q)
  | JsVal.bigint v => some (bigIntToString v)
  | JsVal.str s => some s
  | JsVal.object text => text

/-- The conversion to a string `String(v)`, which `v + ' ETH'` and a regular
expression's `test(v)` apply; `none` is a thrown `TypeError`. -/
def coerceToString (numberToString : ℚ → String) : JsVal → Option String
  | JsVal.undefined => some "undefined"
  | JsVal.null => some "null"
  | v => jsToString numberToString v

/-- A thrown exception, by the place it comes from; `external` is an error thrown by
the ledger client, with its message. -/
inductive JsError where
  | syntaxError
  | rangeError
  | typeError
  | invalidDecimalNumber
  | unknownTool (name : String)
  | external (message : String)
  deriving DecidableEq, Repr

/-- The conversion `BigInt(v)`: a `TypeError` on `undefined` and `null`, a `RangeError`
on a number that is not an integer, a `SyntaxError` on text that is not an integer
literal; an object is converted to a primitive, its string, first. -/
def toBigInt : JsVal → Except JsError Int
  | JsVal.undefined => .error .typeError
  | JsVal.null => .error .typeError
  | JsVal.bool b => .ok (if b then 1 else 0)
  | JsVal.num n => .ok n
  | JsVal.fraction q => if q.den = 1 then .ok q.num else .error .rangeError
  | JsVal.bigint v => .ok v
  | JsVal.str s => match stringToBigInt s with
    | some v => .ok v
    | none => .error .syntaxError
  | JsVal.object none => .error .typeError
  | JsVal.object (some s) => match stringToBigInt s with
    | some v => .ok v
    | none => .error .syntaxError

/-- ECMAScript `TimeClip` on a number that need not be an integer: beyond ±8.64e15 ms
it is `NaN`, within it is truncated towards zero. -/
def timeClipFraction (q : ℚ) : Option Int :=
  if q.num.natAbs > maxTimeValue.natAbs * q.den then none
  else some (Int.sign q.num * ((q.num.natAbs / q.den : Nat) : Int))

/-- The time value of `new Date(v)`; `none` is an invalid date. -/
def newDate (parseOther : String → Option Int) : JsVal → Except JsError (Option Int)
  | JsVal.undefined => .ok none
  | JsVal.null => .ok (timeClip 0)
  | JsVal.bool b => .ok (timeClip (if b then 1 else 0))
  | JsVal.num n => .ok (timeClip n)
  | JsVal.fraction q => .ok (timeClipFraction q)
  | JsVal.bigint _ => .error .typeError
  | JsVal.str s => .ok (dateParse parseOther s)
  | JsVal.object none => .error .typeError
  | JsVal.object (some s) => .ok (dateParse parseOther s)

/-- The status of a transaction receipt. -/
inductive ReceiptStatus where
  | success
  | reverted
  deriving DecidableEq, Repr

/-- One log of a receipt: its data, when it has any, and its topics. -/
structure Log where
  data : Option String
  topics : List String
  deriving DecidableEq, Repr

/-- The receipt `waitForTransactionReceipt` resolves to. -/
structure Receipt where
  status : ReceiptStatus
  logs : List Log
  deriving DecidableEq, Repr

/-- The parameters of a contract call: the function name, its arguments and the value
attached (`undefined` is `none`). -/
structure ContractCall where
  functionName : String
  args : List JsVal
  value : Option Int
  deriving DecidableEq, Repr

/-- The data the ledger returns for a job, in the order of the ABI; the REST front
door receives it as the array `job[0]` to `job[6]`.  The last item is named
`disputeTime` by the REST front door and `createdAt` by the tool server. -/
structure RawJob where
  employer : String
  worker : String
  amount : Nat
  deadline : Nat
  status : Nat
  deliverable : String
  disputeTime : Nat
  deriving DecidableEq, Repr

/-- The ledger as the client sees it (`publicClient` and `walletClient`): every call
may resolve or throw, and may change the ledger's state `σ`. -/
structure Ledger (σ : Type) where
  readJob : σ → ContractCall → Except JsError RawJob × σ
  readCount : σ → ContractCall → Except JsError Nat × σ
  simulateContract : σ → ContractCall → Except JsError ContractCall × σ
  writeContract : σ → ContractCall → Except JsError String × σ
  waitForTransactionReceipt : σ → String → Except JsError Receipt × σ

instance {ε α : Type} [DecidableEq ε] [DecidableEq α] : DecidableEq (Except ε α) :=
  fun a b => match a, b with
    | .ok x, .ok y => if h : x = y then isTrue (by rw [h]) else isFalse (by
        intro h2
        cases h2
        exact h rfl)
    | .error x, .error y => if h : x = y then isTrue (by rw [h]) else isFalse (by
        intro h2
        cases h2
        exact h rfl)
    | .ok _, .error _ => isFalse (by intro h; cases h)
    | .error _, .ok _ => isFalse (by intro h; cases h)

/-- A call a handler makes to the ledger client, with what the ledger answered. -/
inductive Event where
  | read (call : ContractCall)
  | simulate (call : ContractCall) (reply : Except JsError ContractCall)
  | write (call : ContractCall) (reply : Except JsError String)
  | wait (hash : String) (reply : Except JsError Receipt)
  deriving DecidableEq

/-- The outcome of running a piece of a handler: its result or the exception thrown,
the ledger's state after it, and the ledger calls made, in order. -/
structure Run (σ α : Type) where
  result : Except JsError α
  state : σ
  trace : List Event

/-- A piece of a handler: a computation that calls the ledger and may throw. -/
def Eff (σ α : Type) : Type := σ → Run σ α

/-- A computation that returns without calling the ledger. -/
def Eff.pure {σ α : Type} (a : α) : Eff σ α := fun s => ⟨.ok a, s, []⟩

/-- Sequencing: an exception ends the computation. -/
def Eff.bind {σ α β : Type} (m : Eff σ α) (f : α → Eff σ β) : Eff σ β := fun s =>
  match m s with
  | ⟨.error e, s1, t1⟩ => ⟨.error e, s1, t1⟩
  | ⟨.ok a, s1, t1⟩ =>
    match f a s1 with
    | ⟨r, s2, t2⟩ => ⟨r, s2, t1 ++ t2⟩

instance {σ : Type} : Monad (Eff σ) where
  pure := Eff.pure
  bind := Eff.bind

/-- A pure step that may throw. -/
def Eff.ofExcept {σ α : Type} (r : Except JsError α) : Eff σ α := fun s => ⟨r, s, []⟩

/-- A pure step that throws `e` when there is no value. -/
def Eff.ofOption {σ α : Type} (e : JsError) (r : Option α) : Eff σ α :=
  Eff.ofExcept (match r with
    | some a => .ok a
    | none => .error e)

/-- The call `publicClient.readContract` for a job. -/
def readJob {σ : Type} (L : Ledger σ) (call : ContractCall) : Eff σ RawJob := fun s =>
  ⟨(L.readJob s call).1, (L.readJob s call).2, [Event.read call]⟩

/-- The call `publicClient.readContract` for the job count. -/
def readCount {σ : Type} (L : Ledger σ) (call : ContractCall) : Eff σ Nat := fun s =>
  ⟨(L.readCount s call).1, (L.readCount s call).2, [Event.read call]⟩

/-- The call `publicClient.simulateContract`, which resolves to the `request` that
`create_escrow` passes on to `writeContract`. -/
def simulateContract {σ : Type} (L : Ledger σ) (call : ContractCall) : Eff σ ContractCall :=
  fun s => ⟨(L.simulateContract s call).1, (L.simulateContract s call).2,
    [Event.simulate call (L.simulateContract s call).1]⟩

/-- The call `walletClient.writeContract`: the submit operation. -/
def writeContract {σ : Type} (L : Ledger σ) (call : ContractCall) : Eff σ String := fun s =>
  ⟨(L.writeContract s call).1, (L.writeContract s call).2,
    [Event.write call (L.writeContract s call).1]⟩

/-- The call `publicClient.waitForTransactionReceipt`. -/
def waitForTransactionReceipt {σ : Type} (L : Ledger σ) (hash : String) : Eff σ Receipt :=
  fun s => ⟨(L.waitForTransactionReceipt s hash).1, (L.waitForTransactionReceipt s hash).2,
    [Event.wait hash (L.waitForTransactionReceipt s hash).1]⟩

/-- What a handler leaves behind: its response, the ledger's state, the calls made. -/
structure Outcome (σ ρ : Type) where
  response : ρ
  state : σ
  trace : List Event

/-- The statement `try { body } catch (error) { onError(error) }` around a handler. -/
def tryCatch {σ ρ : Type} (body : Eff σ ρ) (onError : JsError → ρ) (s : σ) : Outcome σ ρ :=
  match body s with
  | ⟨.ok r, s1, t⟩ => ⟨r, s1, t⟩
  | ⟨.error e, s1, t⟩ => ⟨onError e, s1, t⟩

/-- The number of submit operations (`writeContract`) among the calls made. -/
def submissions (trace : List Event) : Nat :=
  trace.countP (fun e => match e with
    | Event.write _ _ => true
    | _ => false)

/-! ## What both front doors share -/

/-- The parts of the JavaScript runtime that depend on floating point, on the engine or
on the time zone, left open: `Math.round(Number(text))` inside `parseEther`, `Date.parse`
on text that is not of the form `toISOString` writes, `Number(text)` on text that is
not an integer literal of at most 2^53, `Number.prototype.toString` on a number that is
not an integer of at most 2^53, and the deadline
`BigInt(Math.floor(now / 1000) + hours * 3600)` of `create_escrow` for `hours` that are
not an integer or lead beyond 2^53 (`none` is the `RangeError` of `BigInt` on a sum
that is not an integer). -/
structure Runtime where
  roundNumber : String → Int
  parseOther : String → Option Int
  numberOther : String → JsVal
  numberToString : ℚ → String
  deadlineOther : Nat → JsVal → Option Int

/-- The expression `new Date(Number(seconds) * 1000).toISOString()`; the `RangeError`
of an invalid date is thrown.  `Number(seconds) * 1000` is exact up to 2^53, which is
above the largest time value, and beyond it stays above it. -/
def isoOfSeconds (seconds : Int) : Except JsError String :=
  match toISOString (timeClip (seconds * 1000)) with
  | some iso => .ok iso
  | none => .error .rangeError

/-- The expression `a || b`. -/
def jsOr (a b : JsVal) : JsVal := if truthy a then a else b

/-- The link to the block explorer, `https://basescan.org/tx/${hash}`. -/
def explorer (hash : String) : String := "https://basescan.org/tx/" ++ hash

/-! ## The REST front door, `src/api-server/server.js` -/

/-- The body of an HTTP or tool response: the properties `JSON.stringify` writes, or,
for a caught exception, the object made of `error.message`. -/
inductive Body where
  | json (properties : JsObject)
  | caught (error : JsError)
  deriving DecidableEq, Repr

/-- An HTTP response: `res.status(status).json(body)`, with status 200 by default. -/
structure HttpResponse where
  status : Nat
  body : Body
  deriving DecidableEq, Repr

/-- The `catch` block of every REST handler: `res.status(500).json({ error: error.message })`. -/
def internalError (e : JsError) : HttpResponse := ⟨500, Body.caught e⟩

/-- The table `statusMap` of `GET /job/:id`. -/
def statusMap : List String := ["Created", "WorkSubmitted", "Completed", "Cancelled", "Disputed"]

/-- The indexing `statusMap[code]`: `undefined` outside the table. -/
def statusMapAt (code : Nat) : JsVal :=
  match statusMap.get? code with
  | some name => JsVal.str name
  | none => JsVal.undefined

/-- The object `GET /job/:id` passes to `res.json`. -/
def getJobObject (jobId : Int) (job : RawJob) : Except JsError JsObject := do
  let deadline ← isoOfSeconds job.deadline
  let disputeTime ←
    if job.disputeTime > 0 then (isoOfSeconds job.disputeTime).map JsVal.str
    else pure JsVal.null
  pure [("jobId", JsVal.str (bigIntToString jobId)),
        ("employer", JsVal.str job.employer),
        ("worker", JsVal.str job.worker),
        ("amount", JsVal.str (formatEther job.amount)),
        ("deadline", JsVal.str deadline),
        ("status", statusMapAt job.status),
        ("deliverable", JsVal.str job.deliverable),
        ("disputeTime", disputeTime)]

/-- The handler of `GET /job/:id`. -/
def getJob {σ : Type} (L : Ledger σ) (id : String) : σ → Outcome σ HttpResponse :=
  tryCatch (do
    let jobId ← Eff.ofExcept (toBigInt (JsVal.str id))
    let job ← readJob L ⟨"jobs", [JsVal.bigint jobId], none⟩
    let object ← Eff.ofExcept (getJobObject jobId job)
    pure ⟨200, Body.json (jsonProperties object)⟩) internalError

/-- The handler of `GET /jobs/count`. -/
def getJobsCount {σ : Type} (L : Ledger σ) : σ → Outcome σ HttpResponse :=
  tryCatch (do
    let count ← readCount L ⟨"jobCount", [], none⟩
    pure ⟨200, Body.json (jsonProperties [("count", JsVal.str (bigIntToString count))])⟩)
    internalError

/-- The expression `BigInt(Math.floor(new Date(deadline).getTime() / 1000))` of
`POST /job/create`; `BigInt(NaN)` throws a `RangeError`. -/
def deadlineTimestamp (parseOther : String → Option Int) (deadline : JsVal) :
    Except JsError Int :=
  match newDate parseOther deadline with
  | .error e => .error e
  | .ok none => .error .rangeError
  | .ok (some t) => .ok (t / 1000)

/-- The expression `receipt.logs[0]?.data ? BigInt(receipt.logs[0].data) : null`
followed by `jobId?.toString()`, of `POST /job/create`. -/
def createdJobId (receipt : Receipt) : Except JsError JsVal :=
  match receipt.logs.head? with
  | none => .ok JsVal.undefined
  | some log =>
    match log.data with
    | none => .ok JsVal.undefined
    | some data =>
      if data = "" then .ok JsVal.undefined
      else (toBigInt (JsVal.str data)).map (fun v => JsVal.str (bigIntToString v))

/-- The object every REST handler but `create` answers a confirmed transaction with. -/
def successObject (hash : String) : JsObject :=
  [("success", JsVal.bool true), ("txHash", JsVal.str hash),
   ("explorer", JsVal.str (explorer hash))]

/-- The handler of `POST /job/create`.  The body of the request is `req.body`: the
properties of the object the JSON parser made of it, or `none` when the request has no
parsed body and `req.body` is `undefined`, on which the destructuring throws a
`TypeError`. -/
def postJobCreate {σ : Type} (R : Runtime) (L : Ledger σ) (body : Option JsObject) :
    σ → Outcome σ HttpResponse :=
  tryCatch (do
    let fields ← Eff.ofOption JsError.typeError body
    let worker := fields.get "worker"
    let deadline := fields.get "deadline"
    let amount := fields.get "amount"
    if !truthy worker || !truthy deadline || !truthy amount then
      pure ⟨400, Body.json
        [("error", JsVal.str "Missing required fields: worker, deadline, amount")]⟩
    else do
      let deadlineTimestamp ← Eff.ofExcept (deadlineTimestamp R.parseOther deadline)
      let amountText ← Eff.ofOption JsError.typeError (jsToString R.numberToString amount)
      let amountWei ← Eff.ofOption JsError.invalidDecimalNumber
        (parseEther R.roundNumber amountText)
      let hash ← writeContract L
        ⟨"createJob", [worker, JsVal.bigint deadlineTimestamp], some amountWei⟩
      let receipt ← waitForTransactionReceipt L hash
      let jobId ← Eff.ofExcept (createdJobId receipt)
      pure ⟨200, Body.json (jsonProperties
        [("success", JsVal.bool true), ("jobId", jobId), ("txHash", JsVal.str hash),
         ("explorer", JsVal.str (explorer hash))])⟩) internalError

/-- The handler of `POST /job/:id/submit`; the body is as for `POST /job/create`. -/
def postJobSubmit {σ : Type} (L : Ledger σ) (id : String) (body : Option JsObject) :
    σ → Outcome σ HttpResponse :=
  tryCatch (do
    let jobId ← Eff.ofExcept (toBigInt (JsVal.str id))
    let fields ← Eff.ofOption JsError.typeError body
    let deliverable := fields.get "deliverable"
    if !truthy deliverable then
      pure ⟨400, Body.json [("error", JsVal.str "Missing deliverable")]⟩
    else do
      let hash ← writeContract L ⟨"submitWork", [JsVal.bigint jobId, deliverable], none⟩
      let _ ← waitForTransactionReceipt L hash
      pure ⟨200, Body.json (jsonProperties (successObject hash))⟩) internalError

/-- The handler of `POST /job/:id/approve`. -/
def postJobApprove {σ : Type} (L : Ledger σ) (id : String) : σ → Outcome σ HttpResponse :=
  tryCatch (do
    let jobId ← Eff.ofExcept (toBigInt (JsVal.str id))
    let hash ← writeContract L ⟨"approveWork", [JsVal.bigint jobId], none⟩
    let _ ← waitForTransactionReceipt L hash
    pure ⟨200, Body.json (jsonProperties (successObject hash))⟩) internalError

/-- The handler of `POST /job/:id/cancel`. -/
def postJobCancel {σ : Type} (L : Ledger σ) (id : String) : σ → Outcome σ HttpResponse :=
  tryCatch (do
    let jobId ← Eff.ofExcept (toBigInt (JsVal.str id))
    let hash ← writeContract L ⟨"cancelJob", [JsVal.bigint jobId], none⟩
    let _ ← waitForTransactionReceipt L hash
    pure ⟨200, Body.json (jsonProperties (successObject hash))⟩) internalError

/-- The handler of `POST /job/:id/dispute`. -/
def postJobDispute {σ : Type} (L : Ledger σ) (id : String) : σ → Outcome σ HttpResponse :=
  tryCatch (do
    let jobId ← Eff.ofExcept (toBigInt (JsVal.str id))
    let hash ← writeContract L ⟨"disputeJob", [JsVal.bigint jobId], none⟩
    let _ ← waitForTransactionReceipt L hash
    pure ⟨200, Body.json (jsonProperties (successObject hash))⟩) internalError

/-- The handler of `POST /job/:id/resolve`. -/
def postJobResolve {σ : Type} (L : Ledger σ) (id : String) : σ → Outcome σ HttpResponse :=
  tryCatch (do
    let jobId ← Eff.ofExcept (toBigInt (JsVal.str id))
    let hash ← writeContract L ⟨"resolveDispute", [JsVal.bigint jobId], none⟩
    let _ ← waitForTransactionReceipt L hash
    pure ⟨200, Body.json (jsonProperties (successObject hash))⟩) internalError

/-- The contract the REST front door talks to. -/
def CONTRACT_ADDRESS : String := "0x9d249bB490348fAEd301a22Fe150959D21bC53eB"

/-- The handler of `GET /`, the health check. -/
def getHealth {σ : Type} (s : σ) : Outcome σ HttpResponse :=
  ⟨⟨200, Body.json (jsonProperties
    [("name", JsVal.str "agent-escrow API"), ("version", JsVal.str "1.0.0"),
     ("contract", JsVal.str CONTRACT_ADDRESS), ("network", JsVal.str "Base Mainnet"),
     ("x402", JsVal.str "v1.1"),
     ("docs", JsVal.str "https://github.com/0xImpossibleSolutions/agent-escrow")])⟩, s, []⟩

/-- A request to one of the routes of the REST front door, as it reaches the handler
of the route: the `:id` of the path and the body `req.body`, which is the properties of
the object `express.json()` parsed (an array has none of the properties a handler
reads), or `none` when nothing was parsed (the request has no JSON body) and the
framework leaves `req.body` `undefined`; a framework that puts an empty object there
instead never hands `none` to a handler. -/
inductive RestRequest where
  | health
  | job (id : String)
  | jobsCount
  | create (body : Option JsObject)
  | submit (id : String) (body : Option JsObject)
  | approve (id : String)
  | cancel (id : String)
  | dispute (id : String)
  | resolve (id : String)
  deriving DecidableEq, Repr

/-- The routes of the REST front door. -/
def restServer {σ : Type} (R : Runtime) (L : Ledger σ) : RestRequest → σ → Outcome σ HttpResponse
  | RestRequest.health => getHealth
  | RestRequest.job id => getJob L id
  | RestRequest.jobsCount => getJobsCount L
  | RestRequest.create body => postJobCreate R L body
  | RestRequest.submit id body => postJobSubmit L id body
  | RestRequest.approve id => postJobApprove L id
  | RestRequest.cancel id => postJobCancel L id
  | RestRequest.dispute id => postJobDispute L id
  | RestRequest.resolve id => postJobResolve L id

/-! ## The tool server, `src/mcp-server/index.js` -/

/-- The table `STATUS_NAMES`. -/
def STATUS_NAMES : List (Nat × String) :=
  [(0, "Created"), (1, "WorkSubmitted"), (2, "Completed"), (3, "Disputed"), (4, "Cancelled")]

/-- The property access `STATUS_NAMES[code]`: `undefined` for a missing key. -/
def statusNamesAt (code : Nat) : JsVal :=
  match STATUS_NAMES.lookup code with
  | some name => JsVal.str name
  | none => JsVal.undefined

/-- The result of a tool call: the object written as text into `content`, and `isError`. -/
structure ToolResult where
  payload : Body
  isError : Bool
  deriving DecidableEq, Repr

/-- The `catch` block of the tool handler: the error's message and details, `isError: true`. -/
def toolError (e : JsError) : ToolResult := ⟨Body.caught e, true⟩

/-- The arguments of `create_escrow`: the properties of `request.params.arguments`
the handler reads, `undefined` for one the call does not carry.  They are values of a
JSON text, so none is a `bigint`.  The `inputSchema` declares two strings and a number;
the handler does not check a call against it. -/
structure CreateEscrowArgs where
  worker_address : JsVal
  amount_eth : JsVal
  deadline_hours : JsVal
  deriving DecidableEq, Repr

/-- The arguments of `submit_work`: the properties the handler reads, values of a JSON
text, `undefined` for one the call does not carry. -/
structure SubmitWorkArgs where
  job_id : JsVal
  deliverable : JsVal
  deriving DecidableEq, Repr

/-- The arguments of the tools that take a job only: the property `job_id`, a value of
a JSON text, `undefined` when the call does not carry it.  The `inputSchema` declares a
number, which need not be an integer. -/
structure JobArgs where
  job_id : JsVal
  deriving DecidableEq, Repr

/-- The conversion `Number(text)`: the value of an integer literal of at most 2^53,
else what the runtime makes of the text. -/
def numberOfString (R : Runtime) (text : String) : JsVal :=
  match stringToBigInt text with
  | some v => if v.natAbs ≤ maxExactInteger then JsVal.num v else R.numberOther text
  | none => R.numberOther text

/-- The expression `receipt.logs[0]?.topics[1] ? Number(receipt.logs[0].topics[1]) : 'unknown'`
of `create_escrow`. -/
def escrowJobId (R : Runtime) (receipt : Receipt) : JsVal :=
  match receipt.logs.head? with
  | none => JsVal.str "unknown"
  | some log =>
    match log.topics.get? 1 with
    | none => JsVal.str "unknown"
    | some topic => if topic = "" then JsVal.str "unknown" else numberOfString R topic

/-- The deadline of `create_escrow` when the runtime decides it: `none` is the
`RangeError` of `BigInt` on a sum that is not an integer. -/
def deadlineByRuntime (R : Runtime) (now : Nat) (hours : JsVal) : Except JsError Int :=
  match R.deadlineOther now hours with
  | some deadline => .ok deadline
  | none => .error .rangeError

/-- The deadline `BigInt(Math.floor(now / 1000) + wholeHours * 3600)` for `hours` that
convert to the integer `wholeHours`: the product and the sum are exact as long as they
stay within 2^53, and are left to the runtime beyond. -/
def deadlineOfWholeHours (R : Runtime) (now : Nat) (hours : JsVal) (wholeHours : Int) :
    Except JsError Int :=
  if (wholeHours * 3600).natAbs ≤ maxExactInteger ∧
      ((now : Int) / 1000 + wholeHours * 3600).natAbs ≤ maxExactInteger then
    .ok ((now : Int) / 1000 + wholeHours * 3600)
  else deadlineByRuntime R now hours

/-- The deadline of `create_escrow` for `hours` that are converted to a number from
their text: exactly when the text is an integer literal. -/
def deadlineOfText (R : Runtime) (now : Nat) (hours : JsVal) (text : String) :
    Except JsError Int :=
  match stringToBigInt text with
  | some wholeHours => deadlineOfWholeHours R now hours wholeHours
  | none => deadlineByRuntime R now hours

/-- The expression `BigInt(Math.floor(Date.now() / 1000) + (args.deadline_hours * 3600))`
of `create_escrow`; `now` is `Date.now()`.  The product converts `deadline_hours` to a
number: `undefined` is `NaN`, on which `BigInt` throws a `RangeError`, `null` is 0, and a
`bigint` cannot be multiplied by a number, a `TypeError`.  Hours that are not an
integer are left to the runtime. -/
def deadlineOfHours (R : Runtime) (now : Nat) : JsVal → Except JsError Int
  | JsVal.undefined => .error .rangeError
  | JsVal.null => deadlineOfWholeHours R now JsVal.null 0
  | JsVal.bool b => deadlineOfWholeHours R now (JsVal.bool b) (if b then 1 else 0)
  | JsVal.num hours => deadlineOfWholeHours R now (JsVal.num hours) hours
  | JsVal.fraction q => deadlineByRuntime R now (JsVal.fraction q)
  | JsVal.bigint _ => .error .typeError
  | JsVal.str s => deadlineOfText R now (JsVal.str s) s
  | JsVal.object none => .error .typeError
  | JsVal.object (some s) => deadlineOfText R now (JsVal.object (some s)) s

/-- The call `parseEther(v)` on an argument of a tool call.  A string is parsed; any
other value makes the call throw: the conversion to a string throws, or its string
fails the test for a decimal number, or it passes and `value.split` is not a function. -/
def parseEtherValue (R : Runtime) : JsVal → Except JsError Int
  | JsVal.str s =>
    match parseEther R.roundNumber s with
    | some wei => .ok wei
    | none => .error .invalidDecimalNumber
  | v =>
    match coerceToString R.numberToString v with
    | none => .error .typeError
    | some text =>
      if isDecimalNumber text.data then .error .typeError else .error .invalidDecimalNumber

/-- The tool `create_escrow`; `now` is `Date.now()`. -/
def create_escrow {σ : Type} (R : Runtime) (now : Nat) (L : Ledger σ) (args : CreateEscrowArgs) :
    Eff σ ToolResult := do
  let deadline ← Eff.ofExcept (deadlineOfHours R now args.deadline_hours)
  let value ← Eff.ofExcept (parseEtherValue R args.amount_eth)
  let txRequest ← simulateContract L
    ⟨"createJob", [args.worker_address, JsVal.bigint deadline], some value⟩
  let hash ← writeContract L txRequest
  let receipt ← waitForTransactionReceipt L hash
  let jobId := escrowJobId R receipt
  let amount ← Eff.ofOption JsError.typeError (coerceToString R.numberToString args.amount_eth)
  let deadlineText ← Eff.ofExcept (isoOfSeconds deadline)
  pure ⟨Body.json (jsonProperties
    [("success", JsVal.bool true), ("job_id", jobId), ("tx_hash", JsVal.str hash),
     ("worker", args.worker_address),
     ("amount", JsVal.str (amount ++ " ETH")),
     ("deadline", JsVal.str deadlineText),
     ("explorer", JsVal.str (explorer hash))]), false⟩

/-- The answer `create_escrow` builds once the receipt is there: the last three steps
of the handler, `args.amount_eth + ' ETH'`, the ISO text of the deadline and the object. -/
def createEscrowAnswer (R : Runtime) (args : CreateEscrowArgs) (deadline : Int) (hash : String)
    (receipt : Receipt) : Except JsError ToolResult :=
  match coerceToString R.numberToString args.amount_eth with
  | none => .error JsError.typeError
  | some amount =>
    (isoOfSeconds deadline).map (fun deadlineText => ⟨Body.json (jsonProperties
      [("success", JsVal.bool true), ("job_id", escrowJobId R receipt),
       ("tx_hash", JsVal.str hash), ("worker", args.worker_address),
       ("amount", JsVal.str (amount ++ " ETH")),
       ("deadline", JsVal.str deadlineText),
       ("explorer", JsVal.str (explorer hash))]), false⟩)

/-- The object `submit_work` answers a confirmed transaction with. -/
def submitWorkSuccess (args : SubmitWorkArgs) (hash : String) : ToolResult :=
  ⟨Body.json (jsonProperties
    [("success", JsVal.bool true), ("job_id", args.job_id),
     ("deliverable", args.deliverable), ("tx_hash", JsVal.str hash),
     ("explorer", JsVal.str (explorer hash))]), false⟩

/-- The tool `submit_work`. -/
def submit_work {σ : Type} (L : Ledger σ) (args : SubmitWorkArgs) : Eff σ ToolResult := do
  let jobId ← Eff.ofExcept (toBigInt args.job_id)
  let hash ← writeContract L ⟨"submitWork", [JsVal.bigint jobId, args.deliverable], none⟩
  let _ ← waitForTransactionReceipt L hash
  pure (submitWorkSuccess args hash)

/-- The object the tools that take a job only answer a confirmed transaction with. -/
def toolSuccess (args : JobArgs) (status hash : String) : ToolResult :=
  ⟨Body.json (jsonProperties
    [("success", JsVal.bool true), ("job_id", args.job_id),
     ("status", JsVal.str status), ("tx_hash", JsVal.str hash),
     ("explorer", JsVal.str (explorer hash))]), false⟩

/-- The tool `approve_work`. -/
def approve_work {σ : Type} (L : Ledger σ) (args : JobArgs) : Eff σ ToolResult := do
  let jobId ← Eff.ofExcept (toBigInt args.job_id)
  let hash ← writeContract L ⟨"approveWork", [JsVal.bigint jobId], none⟩
  let _ ← waitForTransactionReceipt L hash
  pure (toolSuccess args "Payment released to worker" hash)

/-- The tool `cancel_job`. -/
def cancel_job {σ : Type} (L : Ledger σ) (args : JobArgs) : Eff σ ToolResult := do
  let jobId ← Eff.ofExcept (toBigInt args.job_id)
  let hash ← writeContract L ⟨"cancelJob", [JsVal.bigint jobId], none⟩
  let _ ← waitForTransactionReceipt L hash
  pure (toolSuccess args "Job cancelled, refund issued" hash)

/-- The tool `dispute_job`. -/
def dispute_job {σ : Type} (L : Ledger σ) (args : JobArgs) : Eff σ ToolResult := do
  let jobId ← Eff.ofExcept (toBigInt args.job_id)
  let hash ← writeContract L ⟨"dispute", [JsVal.bigint jobId], none⟩
  let _ ← waitForTransactionReceipt L hash
  pure (toolSuccess args "Dispute raised - 7 day resolution period started" hash)

/-- The tool `resolve_dispute`. -/
def resolve_dispute {σ : Type} (L : Ledger σ) (args : JobArgs) : Eff σ ToolResult := do
  let jobId ← Eff.ofExcept (toBigInt args.job_id)
  let hash ← writeContract L ⟨"resolveDisputedJob", [JsVal.bigint jobId], none⟩
  let _ ← waitForTransactionReceipt L hash
  pure (toolSuccess args "Dispute resolved, funds returned to employer" hash)

/-- What `readContract` resolves to for `getJob`.  The ABI of the tool server gives
`getJob` one output, a tuple all of whose components are named (index.js:68-86), and
the ledger client, viem, decodes such a tuple to an object with one property for each
component.  (The REST front door reads `jobs`, whose seven outputs make an array.) -/
def getJobResult (job : RawJob) : JsObject :=
  [("employer", JsVal.str job.employer),
   ("worker", JsVal.str job.worker),
   ("amount", JsVal.bigint job.amount),
   ("deadline", JsVal.bigint job.deadline),
   ("status", JsVal.num job.status),
   ("deliverable", JsVal.str job.deliverable),
   ("createdAt", JsVal.bigint job.disputeTime)]

/-- The element `job[index]` of what `getJob` resolves to: the property whose name is
the numeral of the index, which that object does not have. -/
def getJobResultAt (job : RawJob) (index : Nat) : JsVal :=
  (getJobResult job).get (bigIntToString index)

/-- The call `formatEther(v)` on what `job[index]` can be, an integer of the ledger or
`undefined`: the function starts with `v.toString()`, a `TypeError` on `undefined`.
Values of another kind do not reach it. -/
def formatEtherOf : JsVal → Except JsError String
  | JsVal.bigint wei => .ok (formatEther wei)
  | JsVal.num wei => .ok (formatEther wei)
  | _ => .error .typeError

/-- The expression `new Date(Number(v) * 1000).toISOString()` on what `job[index]` can
be, an integer of the ledger or `undefined`: `Number(undefined)` is `NaN`, whose date is
invalid.  Values of another kind do not reach it. -/
def isoOfValue : JsVal → Except JsError String
  | JsVal.bigint seconds => isoOfSeconds seconds
  | JsVal.num seconds => isoOfSeconds seconds
  | _ => .error .rangeError

/-- The property access `STATUS_NAMES[v]` on what `job[index]` can be, an integer of
the ledger or `undefined`: the key is the string of the value, and `undefined` is not a
key of the table.  Values of another kind do not reach it. -/
def statusNamesOf : JsVal → JsVal
  | JsVal.num code => if code < 0 then JsVal.undefined else statusNamesAt code.toNat
  | JsVal.bigint code => if code < 0 then JsVal.undefined else statusNamesAt code.toNat
  | _ => JsVal.undefined

/-- The object `get_job_status` writes; its properties are evaluated in order, and
the first that throws ends the evaluation. -/
def jobStatusObject (args : JobArgs) (job : RawJob) : Except JsError JsObject := do
  let amount ← formatEtherOf (getJobResultAt job 2)
  let deadline ← isoOfValue (getJobResultAt job 3)
  let createdAt ← isoOfValue (getJobResultAt job 6)
  pure [("job_id", args.job_id),
        ("employer", getJobResultAt job 0),
        ("worker", getJobResultAt job 1),
        ("amount", JsVal.str (amount ++ " ETH")),
        ("deadline", JsVal.str deadline),
        ("status", jsOr (statusNamesOf (getJobResultAt job 4)) (JsVal.str "Unknown")),
        ("deliverable", jsOr (getJobResultAt job 5) (JsVal.str "(none)")),
        ("created_at", JsVal.str createdAt)]

/-- The tool `get_job_status`. -/
def get_job_status {σ : Type} (L : Ledger σ) (args : JobArgs) : Eff σ ToolResult := do
  let jobId ← Eff.ofExcept (toBigInt args.job_id)
  let job ← readJob L ⟨"getJob", [JsVal.bigint jobId], none⟩
  let object ← Eff.ofExcept (jobStatusObject args job)
  pure ⟨Body.json (jsonProperties object), false⟩

/-- A tool call: the tool's name with its arguments.  A call that carries no
`arguments` at all throws a `TypeError` at the first `args.` of its case, inside the
same `try`: like the call whose properties are all `undefined`, it is answered with
`isError` before any call to the ledger. -/
inductive ToolCall where
  | create_escrow (args : CreateEscrowArgs)
  | submit_work (args : SubmitWorkArgs)
  | approve_work (args : JobArgs)
  | cancel_job (args : JobArgs)
  | dispute_job (args : JobArgs)
  | resolve_dispute (args : JobArgs)
  | get_job_status (args : JobArgs)
  | other (name : String)
  deriving DecidableEq, Repr

/-- The handler of `CallToolRequestSchema`: the `switch` on the tool's name inside
`try`/`catch`; an unknown name throws. -/
def callTool {σ : Type} (R : Runtime) (now : Nat) (L : Ledger σ) (call : ToolCall) :
    σ → Outcome σ ToolResult :=
  tryCatch (match call with
    | ToolCall.create_escrow args => create_escrow R now L args
    | ToolCall.submit_work args => submit_work L args
    | ToolCall.approve_work args => approve_work L args
    | ToolCall.cancel_job args => cancel_job L args
    | ToolCall.dispute_job args => dispute_job L args
    | ToolCall.resolve_dispute args => resolve_dispute L args
    | ToolCall.get_job_status args => get_job_status L args
    | ToolCall.other name => Eff.ofExcept (.error (JsError.unknownTool name))) toolError

/-! ## Reading a response -/

/-- A property of a response body; `undefined` when the body does not have it. -/
def Body.property (b : Body) (key : String) : JsVal :=
  match b with
  | Body.json properties => JsObject.get properties key
  | Body.caught _ => JsVal.undefined

/-- True when a response body reports `success: true`. -/
def Body.reportsSuccess (b : Body) : Bool := b.property "success" == JsVal.bool true

/-- A ledger with one job, a clock and fixed answers: reading returns the job, a
simulation returns its request, a submission gets the hash `0xabc`, and the receipt
of that transaction has the given status and no logs.  Nothing changes its state. -/
def fixedLedger (status : ReceiptStatus) : Ledger (RawJob × Nat) where
  readJob := fun s _ => (.ok s.1, s)
  readCount := fun s _ => (.ok 1, s)
  simulateContract := fun s call => (.ok call, s)
  writeContract := fun s _ => (.ok "0xabc", s)
  waitForTransactionReceipt := fun s _ => (.ok ⟨status, []⟩, s)

/-- A runtime that rejects whatever is left open. -/
def strictRuntime : Runtime where
  roundNumber := fun _ => 0
  parseOther := fun _ => none
  numberOther := fun _ => JsVal.null
  numberToString := fun _ => "NaN"
  deadlineOther := fun _ _ => none

/-- A job that has just been created: status code 0, no deliverable, a deadline in
2033 and no dispute. -/
def freshJob : RawJob :=
  { employer := "0x1111111111111111111111111111111111111111"
    worker := "0x2222222222222222222222222222222222222222"
    amount := 10000000000000000
    deadline := 2000000000
    status := 0
    deliverable := ""
    disputeTime := 0 }

/-- What is left of a handler once it has submitted `call` in state `s`: either the
submission throws and the handler answers `onError`, or it returns a hash and the wait
for the receipt throws, or the wait returns a receipt and the handler answers with
`onReceipt` (or `onError`, when building that answer throws).  In each case the calls
made are the submission and, after a hash, the wait. -/
def SubmitOutcome {σ ρ : Type} (L : Ledger σ) (s : σ) (call : ContractCall)
    (onError : JsError → ρ) (onReceipt : String → Receipt → Except JsError ρ)
    (o : Outcome σ ρ) : Prop :=
  (∃ e s1, L.writeContract s call = (.error e, s1) ∧
    o = ⟨onError e, s1, [Event.write call (.error e)]⟩) ∨
  (∃ hash s1 e s2, L.writeContract s call = (.ok hash, s1) ∧
    L.waitForTransactionReceipt s1 hash = (.error e, s2) ∧
    o = ⟨onError e, s2, [Event.write call (.ok hash), Event.wait hash (.error e)]⟩) ∨
  (∃ hash s1 receipt s2, L.writeContract s call = (.ok hash, s1) ∧
    L.waitForTransactionReceipt s1 hash = (.ok receipt, s2) ∧
    o = ⟨(match onReceipt hash receipt with
          | .ok r => r
          | .error e => onError e), s2,
        [Event.write call (.ok hash), Event.wait hash (.ok receipt)]⟩)

/-- The calls made include a submission that returned a hash and a wait for that
hash that returned a receipt. -/
def Confirmed (trace : List Event) : Prop :=
  ∃ call hash receipt, Event.write call (.ok hash) ∈ trace ∧
    Event.wait hash (.ok receipt) ∈ trace

/-- The job id `:id` in the path of a request, for the routes that have one. -/
def RestRequest.jobId : RestRequest → Option String
  | RestRequest.job id => some id
  | RestRequest.submit id _ => some id
  | RestRequest.approve id => some id
  | RestRequest.cancel id => some id
  | RestRequest.dispute id => some id
  | RestRequest.resolve id => some id
  | _ => none

/-- True when the parsed body of a request lacks a field its handler requires (the
field is absent or falsy): `worker`, `deadline` or `amount` of `POST /job/create`, and
`deliverable` of `POST /job/:id/submit`, which is looked at once the job id has been
converted.  A request without a parsed body has no fields to look at. -/
def RestRequest.missingField : RestRequest → Bool
  | RestRequest.create (some fields) =>
    !(truthy (fields.get "worker") && truthy (fields.get "deadline") &&
      truthy (fields.get "amount"))
  | RestRequest.submit id (some fields) =>
    (stringToBigInt id).isSome && !truthy (fields.get "deliverable")
  | _ => false

/-- A response that is either the answer to a caught exception, with status 500, or a
JSON object with status 200. -/
def HttpResponse.CaughtOrOk (r : HttpResponse) : Prop :=
  (∃ e, r = internalError e) ∨ (r.status = 200 ∧ ∃ properties, r.body = Body.json properties)

/-! ## Concurrent requests: a handler as a process suspended at each `await`

Both front doors run on an event loop: a handler runs without interruption from one
`await` to the next, and while it is suspended at an `await` any other request may run.
Neither file holds a lock, a queue or any other state shared between two requests. -/

/-- A handler between two turns of the event loop: it has answered, or it is suspended
at the `await` of a call to the ledger client and resumes with what the call resolves
to or throws. -/
inductive Proc (ρ : Type) where
  | done (response : ρ)
  | readJob (call : ContractCall) (resume : Except JsError RawJob → Proc ρ)
  | readCount (call : ContractCall) (resume : Except JsError Nat → Proc ρ)
  | simulate (call : ContractCall) (resume : Except JsError ContractCall → Proc ρ)
  | write (call : ContractCall) (resume : Except JsError String → Proc ρ)
  | wait (hash : String) (resume : Except JsError Receipt → Proc ρ)

/-- The answer of a process changed by `f`, once it is there. -/
def Proc.map {α β : Type} (f : α → β) : Proc α → Proc β
  | Proc.done a => Proc.done (f a)
  | Proc.readJob call resume => Proc.readJob call (fun r => Proc.map f (resume r))
  | Proc.readCount call resume => Proc.readCount call (fun r => Proc.map f (resume r))
  | Proc.simulate call resume => Proc.simulate call (fun r => Proc.map f (resume r))
  | Proc.write call resume => Proc.write call (fun r => Proc.map f (resume r))
  | Proc.wait hash resume => Proc.wait hash (fun r => Proc.map f (resume r))

/-- Sequencing of two pieces of an `async` body: an exception ends it. -/
def Proc.andThen {α β : Type} (f : α → Proc (Except JsError β)) :
    Proc (Except JsError α) → Proc (Except JsError β)
  | Proc.done (.ok a) => f a
  | Proc.done (.error e) => Proc.done (.error e)
  | Proc.readJob call resume => Proc.readJob call (fun r => Proc.andThen f (resume r))
  | Proc.readCount call resume => Proc.readCount call (fun r => Proc.andThen f (resume r))
  | Proc.simulate call resume => Proc.simulate call (fun r => Proc.andThen f (resume r))
  | Proc.write call resume => Proc.write call (fun r => Proc.andThen f (resume r))
  | Proc.wait hash resume => Proc.wait hash (fun r => Proc.andThen f (resume r))

/-- The body of an `async` function: a process that ends with a value or an exception. -/
def Async (α : Type) : Type := Proc (Except JsError α)

instance : Monad Async where
  pure := fun a => Proc.done (.ok a)
  bind := fun m f => Proc.andThen f m

/-- A pure step that may throw, in an `async` body. -/
def Async.ofExcept {α : Type} (r : Except JsError α) : Async α := Proc.done r

/-- A pure step that throws `e` when there is no value, in an `async` body. -/
def Async.ofOption {α : Type} (e : JsError) (r : Option α) : Async α :=
  Async.ofExcept (match r with
    | some a => .ok a
    | none => .error e)

/-- The expression `await publicClient.readContract(...)` for a job. -/
def Async.readJob (call : ContractCall) : Async RawJob := Proc.readJob call Proc.done

/-- The expression `await publicClient.readContract(...)` for the job count. -/
def Async.readCount (call : ContractCall) : Async Nat := Proc.readCount call Proc.done

/-- The expression `await publicClient.simulateContract(...)`. -/
def Async.simulateContract (call : ContractCall) : Async ContractCall :=
  Proc.simulate call Proc.done

/-- The expression `await walletClient.writeContract(...)`. -/
def Async.writeContract (call : ContractCall) : Async String := Proc.write call Proc.done

/-- The expression `await publicClient.waitForTransactionReceipt({ hash })`. -/
def Async.waitForTransactionReceipt (hash : String) : Async Receipt := Proc.wait hash Proc.done

/-- The statement `try { body } catch (error) { onError(error) }` around an `async` body. -/
def Async.tryCatch {ρ : Type} (body : Async ρ) (onError : JsError → ρ) : Proc ρ :=
  Proc.map (fun r => match r with
    | .ok a => a
    | .error e => onError e) body

/-- A process run alone against the ledger, from its start to its answer. -/
def Proc.run {σ ρ : Type} (L : Ledger σ) : Proc ρ → σ → Outcome σ ρ
  | Proc.done r, s => ⟨r, s, []⟩
  | Proc.readJob call resume, s =>
    ⟨(Proc.run L (resume (L.readJob s call).1) (L.readJob s call).2).response,
     (Proc.run L (resume (L.readJob s call).1) (L.readJob s call).2).state,
     Event.read call :: (Proc.run L (resume (L.readJob s call).1) (L.readJob s call).2).trace⟩
  | Proc.readCount call resume, s =>
    ⟨(Proc.run L (resume (L.readCount s call).1) (L.readCount s call).2).response,
     (Proc.run L (resume (L.readCount s call).1) (L.readCount s call).2).state,
     Event.read call ::
       (Proc.run L (resume (L.readCount s call).1) (L.readCount s call).2).trace⟩
  | Proc.simulate call resume, s =>
    ⟨(Proc.run L (resume (L.simulateContract s call).1) (L.simulateContract s call).2).response,
     (Proc.run L (resume (L.simulateContract s call).1) (L.simulateContract s call).2).state,
     Event.simulate call (L.simulateContract s call).1 ::
       (Proc.run L (resume (L.simulateContract s call).1) (L.simulateContract s call).2).trace⟩
  | Proc.write call resume, s =>
    ⟨(Proc.run L (resume (L.writeContract s call).1) (L.writeContract s call).2).response,
     (Proc.run L (resume (L.writeContract s call).1) (L.writeContract s call).2).state,
     Event.write call (L.writeContract s call).1 ::
       (Proc.run L (resume (L.writeContract s call).1) (L.writeContract s call).2).trace⟩
  | Proc.wait hash resume, s =>
    ⟨(Proc.run L (resume (L.waitForTransactionReceipt s hash).1)
        (L.waitForTransactionReceipt s hash).2).response,
     (Proc.run L (resume (L.waitForTransactionReceipt s hash).1)
        (L.waitForTransactionReceipt s hash).2).state,
     Event.wait hash (L.waitForTransactionReceipt s hash).1 ::
       (Proc.run L (resume (L.waitForTransactionReceipt s hash).1)
        (L.waitForTransactionReceipt s hash).2).trace⟩

/-- The handler of `GET /job/:id`, as a process. -/
def getJobProcess (id : String) : Proc HttpResponse :=
  Async.tryCatch (do
    let jobId ← Async.ofExcept (toBigInt (JsVal.str id))
    let job ← Async.readJob ⟨"jobs", [JsVal.bigint jobId], none⟩
    let object ← Async.ofExcept (getJobObject jobId job)
    pure ⟨200, Body.json (jsonProperties object)⟩) internalError

/-- The handler of `GET /jobs/count`, as a process. -/
def getJobsCountProcess : Proc HttpResponse :=
  Async.tryCatch (do
    let count ← Async.readCount ⟨"jobCount", [], none⟩
    pure ⟨200, Body.json (jsonProperties [("count", JsVal.str (bigIntToString count))])⟩)
    internalError

/-- The handler of `POST /job/create`, as a process. -/
def postJobCreateProcess (R : Runtime) (body : Option JsObject) : Proc HttpResponse :=
  Async.tryCatch (do
    let fields ← Async.ofOption JsError.typeError body
    let worker := fields.get "worker"
    let deadline := fields.get "deadline"
    let amount := fields.get "amount"
    if !truthy worker || !truthy deadline || !truthy amount then
      pure ⟨400, Body.json
        [("error", JsVal.str "Missing required fields: worker, deadline, amount")]⟩
    else do
      let deadlineTimestamp ← Async.ofExcept (deadlineTimestamp R.parseOther deadline)
      let amountText ← Async.ofOption JsError.typeError (jsToString R.numberToString amount)
      let amountWei ← Async.ofOption JsError.invalidDecimalNumber
        (parseEther R.roundNumber amountText)
      let hash ← Async.writeContract
        ⟨"createJob", [worker, JsVal.bigint deadlineTimestamp], some amountWei⟩
      let receipt ← Async.waitForTransactionReceipt hash
      let jobId ← Async.ofExcept (createdJobId receipt)
      pure ⟨200, Body.json (jsonProperties
        [("success", JsVal.bool true), ("jobId", jobId), ("txHash", JsVal.str hash),
         ("explorer", JsVal.str (explorer hash))])⟩) internalError

/-- The handler of `POST /job/:id/submit`, as a process. -/
def postJobSubmitProcess (id : String) (body : Option JsObject) : Proc HttpResponse :=
  Async.tryCatch (do
    let jobId ← Async.ofExcept (toBigInt (JsVal.str id))
    let fields ← Async.ofOption JsError.typeError body
    let deliverable := fields.get "deliverable"
    if !truthy deliverable then
      pure ⟨400, Body.json [("error", JsVal.str "Missing deliverable")]⟩
    else do
      let hash ← Async.writeContract ⟨"submitWork", [JsVal.bigint jobId, deliverable], none⟩
      let _ ← Async.waitForTransactionReceipt hash
      pure ⟨200, Body.json (jsonProperties (successObject hash))⟩) internalError

/-- The handlers of `POST /job/:id/approve`, `cancel`, `dispute` and `resolve`, as a
process: they differ in the function name `fn` alone. -/
def postJobActionProcess (fn id : String) : Proc HttpResponse :=
  Async.tryCatch (do
    let jobId ← Async.ofExcept (toBigInt (JsVal.str id))
    let hash ← Async.writeContract ⟨fn, [JsVal.bigint jobId], none⟩
    let _ ← Async.waitForTransactionReceipt hash
    pure ⟨200, Body.json (jsonProperties (successObject hash))⟩) internalError

/-- The routes of the REST front door, as processes. -/
def restProcess (R : Runtime) : RestRequest → Proc HttpResponse
  | RestRequest.health => Proc.done (getHealth ()).response
  | RestRequest.job id => getJobProcess id
  | RestRequest.jobsCount => getJobsCountProcess
  | RestRequest.create body => postJobCreateProcess R body
  | RestRequest.submit id body => postJobSubmitProcess id body
  | RestRequest.approve id => postJobActionProcess "approveWork" id
  | RestRequest.cancel id => postJobActionProcess "cancelJob" id
  | RestRequest.dispute id => postJobActionProcess "disputeJob" id
  | RestRequest.resolve id => postJobActionProcess "resolveDispute" id

/-- The tool `create_escrow`, as an `async` body; `now` is `Date.now()`. -/
def createEscrowAsync (R : Runtime) (now : Nat) (args : CreateEscrowArgs) : Async ToolResult := do
  let deadline ← Async.ofExcept (deadlineOfHours R now args.deadline_hours)
  let value ← Async.ofExcept (parseEtherValue R args.amount_eth)
  let txRequest ← Async.simulateContract
    ⟨"createJob", [args.worker_address, JsVal.bigint deadline], some value⟩
  let hash ← Async.writeContract txRequest
  let receipt ← Async.waitForTransactionReceipt hash
  let jobId := escrowJobId R receipt
  let amount ← Async.ofOption JsError.typeError
    (coerceToString R.numberToString args.amount_eth)
  let deadlineText ← Async.ofExcept (isoOfSeconds deadline)
  pure ⟨Body.json (jsonProperties
    [("success", JsVal.bool true), ("job_id", jobId), ("tx_hash", JsVal.str hash),
     ("worker", args.worker_address),
     ("amount", JsVal.str (amount ++ " ETH")),
     ("deadline", JsVal.str deadlineText),
     ("explorer", JsVal.str (explorer hash))]), false⟩

/-- The tool `submit_work`, as an `async` body. -/
def submitWorkAsync (args : SubmitWorkArgs) : Async ToolResult := do
  let jobId ← Async.ofExcept (toBigInt args.job_id)
  let hash ← Async.writeContract
    ⟨"submitWork", [JsVal.bigint jobId, args.deliverable], none⟩
  let _ ← Async.waitForTransactionReceipt hash
  pure (submitWorkSuccess args hash)

/-- The tools `approve_work`, `cancel_job`, `dispute_job` and `resolve_dispute`, as an
`async` body: they differ in the function name and the status text alone. -/
def toolActionAsync (fn status : String) (args : JobArgs) : Async ToolResult := do
  let jobId ← Async.ofExcept (toBigInt args.job_id)
  let hash ← Async.writeContract ⟨fn, [JsVal.bigint jobId], none⟩
  let _ ← Async.waitForTransactionReceipt hash
  pure (toolSuccess args status hash)

/-- The tool `get_job_status`, as an `async` body. -/
def getJobStatusAsync (args : JobArgs) : Async ToolResult := do
  let jobId ← Async.ofExcept (toBigInt args.job_id)
  let job ← Async.readJob ⟨"getJob", [JsVal.bigint jobId], none⟩
  let object ← Async.ofExcept (jobStatusObject args job)
  pure ⟨Body.json (jsonProperties object), false⟩

/-- The handler of `CallToolRequestSchema`, as a process. -/
def toolProcess (R : Runtime) (now : Nat) (call : ToolCall) : Proc ToolResult :=
  Async.tryCatch (match call with
    | ToolCall.create_escrow args => createEscrowAsync R now args
    | ToolCall.submit_work args => submitWorkAsync args
    | ToolCall.approve_work args => toolActionAsync "approveWork" "Payment released to worker" args
    | ToolCall.cancel_job args => toolActionAsync "cancelJob" "Job cancelled, refund issued" args
    | ToolCall.dispute_job args =>
      toolActionAsync "dispute" "Dispute raised - 7 day resolution period started" args
    | ToolCall.resolve_dispute args =>
      toolActionAsync "resolveDisputedJob" "Dispute resolved, funds returned to employer" args
    | ToolCall.get_job_status args => getJobStatusAsync args
    | ToolCall.other name => Async.ofExcept (.error (JsError.unknownTool name))) toolError

/-- A request in progress: whether its handler has been started, and the process it
is then suspended at (or has ended with). -/
structure Thread (ρ : Type) where
  started : Bool
  proc : Proc ρ

/-- A request that has arrived and whose handler has not been run yet. -/
def Thread.arrived {ρ : Type} (p : Proc ρ) : Thread ρ := ⟨false, p⟩

/-- True for a process suspended at the `await` of its submission or of the wait for
the receipt of that submission: its submission is in flight. -/
def Proc.inFlight {ρ : Type} : Proc ρ → Bool
  | Proc.write _ _ => true
  | Proc.wait _ _ => true
  | _ => false

/-- True for a request whose handler has started a submission and has not yet come
back from the wait for its confirmation. -/
def Thread.inFlight {ρ : Type} (t : Thread ρ) : Bool := t.started && t.proc.inFlight

/-- True for a request whose handler has answered. -/
def Thread.ended {ρ : Type} (t : Thread ρ) : Bool :=
  t.started && (match t.proc with
    | Proc.done _ => true
    | _ => false)

/-- One turn of the event loop for a request: a handler that has not been started
runs up to its first `await`; a suspended handler resumes with what the ledger
answers to the call it awaits, and runs up to its next `await` or to its answer. -/
def Thread.step {σ ρ : Type} (L : Ledger σ) (t : Thread ρ) (s : σ) : Thread ρ × σ :=
  if !t.started then (⟨true, t.proc⟩, s)
  else match t.proc with
    | Proc.done r => (⟨true, Proc.done r⟩, s)
    | Proc.readJob call resume => (⟨true, resume (L.readJob s call).1⟩, (L.readJob s call).2)
    | Proc.readCount call resume =>
      (⟨true, resume (L.readCount s call).1⟩, (L.readCount s call).2)
    | Proc.simulate call resume =>
      (⟨true, resume (L.simulateContract s call).1⟩, (L.simulateContract s call).2)
    | Proc.write call resume =>
      (⟨true, resume (L.writeContract s call).1⟩, (L.writeContract s call).2)
    | Proc.wait hash resume =>
      (⟨true, resume (L.waitForTransactionReceipt s hash).1⟩,
        (L.waitForTransactionReceipt s hash).2)

/-- Two requests in progress against one ledger. -/
structure Config (σ ρ₁ ρ₂ : Type) where
  ledger : σ
  first : Thread ρ₁
  second : Thread ρ₂

/-- One turn of the event loop: it runs the second request when `second` is true, else
the first.  The other request is left as it is. -/
def Config.step {σ ρ₁ ρ₂ : Type} (L : Ledger σ) (c : Config σ ρ₁ ρ₂) (second : Bool) :
    Config σ ρ₁ ρ₂ :=
  if second then ⟨(c.second.step L c.ledger).2, c.first, (c.second.step L c.ledger).1⟩
  else ⟨(c.first.step L c.ledger).2, (c.first.step L c.ledger).1, c.second⟩

/-- The turns of a schedule, one after the other. -/
def Config.run {σ ρ₁ ρ₂ : Type} (L : Ledger σ) (c : Config σ ρ₁ ρ₂) (schedule : List Bool) :
    Config σ ρ₁ ρ₂ :=
  schedule.foldl (Config.step L) c

/-- True when both requests have a submission in flight. -/
def Config.bothInFlight {σ ρ₁ ρ₂ : Type} (c : Config σ ρ₁ ρ₂) : Bool :=
  c.first.inFlight && c.second.inFlight

/-- An `async` body run alone against the ledger, as a piece of a handler. -/
def Async.toEff {σ α : Type} (L : Ledger σ) (p : Async α) : Eff σ α := fun s =>
  ⟨(Proc.run L p s).response, (Proc.run L p s).state, (Proc.run L p s).trace⟩

/-- True for a request to a mutating route that passes the checks its handler makes
before it submits: the job id converts to an integer, the body was parsed and the
required fields are there, and for `POST /job/create` the deadline and the amount
convert. -/
def RestRequest.submits (R : Runtime) : RestRequest → Bool
  | RestRequest.create (some fields) =>
    truthy (fields.get "worker") && truthy (fields.get "deadline") &&
      truthy (fields.get "amount") &&
      (deadlineTimestamp R.parseOther (fields.get "deadline")).toOption.isSome &&
      ((jsToString R.numberToString (fields.get "amount")).bind
        (parseEther R.roundNumber)).isSome
  | RestRequest.submit id (some fields) =>
    (stringToBigInt id).isSome && truthy (fields.get "deliverable")
  | RestRequest.approve id => (stringToBigInt id).isSome
  | RestRequest.cancel id => (stringToBigInt id).isSome
  | RestRequest.dispute id => (stringToBigInt id).isSome
  | RestRequest.resolve id => (stringToBigInt id).isSome
  | _ => false

/-- True for a call of a tool whose first call to the ledger is the submission, when
its job id converts to an integer. -/
def ToolCall.submitsAtOnce : ToolCall → Bool
  | ToolCall.submit_work args => (toBigInt args.job_id).toOption.isSome
  | ToolCall.approve_work args => (toBigInt args.job_id).toOption.isSome
  | ToolCall.cancel_job args => (toBigInt args.job_id).toOption.isSome
  | ToolCall.dispute_job args => (toBigInt args.job_id).toOption.isSome
  | ToolCall.resolve_dispute args => (toBigInt args.job_id).toOption.isSome
  | _ => false

/-! ## Lemmas on numerals -/

theorem isDecimalDigit_digitChar (d : Nat) : isDecimalDigit (digitChar d) = true := by
  unfold digitChar
  split <;> decide

theorem digitValue_digitChar (d : Nat) (h : d < 10) : digitValue 10 (digitChar d) = some d := by
  interval_cases d <;> decide

theorem toDecimalAux_append (fuel n : Nat) (acc : List Char) :
    toDecimalAux fuel n acc = toDecimalAux fuel n [] ++ acc := by
  induction fuel generalizing n acc with
  | zero => simp [toDecimalAux]
  | succ fuel ih =>
    unfold toDecimalAux
    split
    · simp
    · rw [ih (n / 10) (digitChar (n % 10) :: acc), ih (n / 10) [digitChar (n % 10)]]
      simp

theorem toDecimalAux_digits (fuel n : Nat) :
    ∀ c ∈ toDecimalAux fuel n [], isDecimalDigit c = true := by
  induction fuel generalizing n with
  | zero => simp [toDecimalAux]
  | succ fuel ih =>
    intro c hc
    unfold toDecimalAux at hc
    split at hc
    · simp at hc
      subst hc
      exact isDecimalDigit_digitChar n
    · rw [toDecimalAux_append] at hc
      simp at hc
      rcases hc with hc | hc
      · exact ih _ c hc
      · subst hc
        exact isDecimalDigit_digitChar _

theorem toDecimalAux_ne_nil (fuel n : Nat) (acc : List Char) :
    toDecimalAux (fuel + 1) n acc ≠ [] := by
  unfold toDecimalAux
  split
  · simp
  · rw [toDecimalAux_append]
    simp

theorem digitsValue_append (radix : Nat) (xs ys : List Char) (acc : Nat) :
    digitsValue radix (xs ++ ys) acc = (digitsValue radix xs acc).bind (digitsValue radix ys) := by
  induction xs generalizing acc with
  | nil => simp [digitsValue]
  | cons c cs ih =>
    simp only [List.cons_append, digitsValue]
    cases digitValue radix c with
    | none => simp
    | some d => simpa using ih (acc * radix + d)

theorem toDecimalAux_value (fuel n : Nat) (h : n < fuel) :
    digitsValue 10 (toDecimalAux fuel n []) 0 = some n := by
  induction fuel generalizing n with
  | zero => omega
  | succ fuel ih =>
    unfold toDecimalAux
    split
    · rename_i hn
      simp [digitsValue, digitValue_digitChar n hn]
    · rename_i hn
      rw [toDecimalAux_append, digitsValue_append, ih (n / 10) (by omega)]
      simp [digitsValue, digitValue_digitChar (n % 10) (Nat.mod_lt _ (by decide))]
      omega

theorem toDecimal_value (n : Nat) : digitsValue 10 (toDecimal n) 0 = some n :=
  toDecimalAux_value (n + 1) n (Nat.lt_succ_self n)

theorem toDecimal_digits (n : Nat) : ∀ c ∈ toDecimal n, isDecimalDigit c = true :=
  toDecimalAux_digits (n + 1) n

theorem toDecimal_ne_nil (n : Nat) : toDecimal n ≠ [] :=
  toDecimalAux_ne_nil n n []

theorem digitsValue_zeros (m : Nat) : digitsValue 10 (List.replicate m '0') 0 = some 0 := by
  induction m with
  | zero => rfl
  | succ m ih =>
    rw [List.replicate_succ]
    simpa [digitsValue, show digitValue 10 '0' = some 0 by decide] using ih

theorem isDecimalDigit_iff (c : Char) :
    isDecimalDigit c = true ↔ 48 ≤ c.toNat ∧ c.toNat ≤ 57 := by
  have h0 : '0'.toNat = 48 := by decide
  have h9 : '9'.toNat = 57 := by decide
  have ha : 'a'.toNat = 97 := by decide
  have hz : 'z'.toNat = 122 := by decide
  have hA : 'A'.toNat = 65 := by decide
  have hZ : 'Z'.toNat = 90 := by decide
  unfold isDecimalDigit digitValue charValue
  rw [h0, h9, ha, hz, hA, hZ]
  split_ifs with h1 h2 h3
  · have : c.toNat - 48 < 10 := by omega
    simp [this, h1]
  · have : ¬ (c.toNat - 97 + 10 < 10) := by omega
    simp [this]
    omega
  · have : ¬ (c.toNat - 65 + 10 < 10) := by omega
    simp [this]
    omega
  · simp
    omega

theorem not_digit_of_toNat {c : Char} (n : Nat) (hn : c.toNat = n) (h : n < 48 ∨ 57 < n) :
    isDecimalDigit c = false := by
  cases hd : isDecimalDigit c with
  | false => rfl
  | true =>
    have := (isDecimalDigit_iff c).1 hd
    omega

theorem isStrWhiteSpace_of_digit {c : Char} (h : isDecimalDigit c = true) :
    isStrWhiteSpace c = false := by
  have := (isDecimalDigit_iff c).1 h
  unfold isStrWhiteSpace
  simp
  omega

/-! ## Lemmas on the string operations -/

theorem dropWhile_append_all (p : Char → Bool) (xs ys : List Char)
    (h : ∀ c ∈ xs, p c = true) : (xs ++ ys).dropWhile p = ys.dropWhile p := by
  induction xs with
  | nil => rfl
  | cons c cs ih =>
    have hc : p c = true := h c (List.mem_cons_self c cs)
    simp only [List.cons_append, List.dropWhile_cons, hc, if_true]
    exact ih (fun d hd => h d (List.mem_cons_of_mem c hd))

theorem span_append_all (p : Char → Bool) (xs ys : List Char)
    (h : ∀ c ∈ xs, p c = true) (hy : ys.head?.all (fun c => !p c) = true) :
    (xs ++ ys).span p = (xs, ys) := by
  rw [List.span_eq_take_drop]
  have h1 : (xs ++ ys).takeWhile p = xs := by
    induction xs with
    | nil =>
      cases ys with
      | nil => rfl
      | cons y t =>
        have : p y = false := by simpa using hy
        simp [List.takeWhile_cons, this]
    | cons c cs ih =>
      have hc : p c = true := h c (List.mem_cons_self c cs)
      simp only [List.cons_append, List.takeWhile_cons, hc, if_true]
      rw [ih (fun d hd => h d (List.mem_cons_of_mem c hd))]
  have h2 : (xs ++ ys).dropWhile p = ys := by
    rw [dropWhile_append_all p xs ys h]
    cases ys with
    | nil => rfl
    | cons y t =>
      have : p y = false := by simpa using hy
      simp [List.dropWhile_cons, this]
  rw [h1, h2]

theorem takeWhile_all (p : Char → Bool) (xs : List Char) (h : ∀ c ∈ xs, p c = true) :
    xs.takeWhile p = xs := by
  induction xs with
  | nil => rfl
  | cons c cs ih =>
    have hc : p c = true := h c (List.mem_cons_self c cs)
    simp only [List.takeWhile_cons, hc, if_true]
    rw [ih (fun d hd => h d (List.mem_cons_of_mem c hd))]

theorem dropWhileEnd_mem (p : Char → Bool) (cs : List Char) :
    ∀ c ∈ dropWhileEnd p cs, c ∈ cs := by
  intro c hc
  unfold dropWhileEnd at hc
  rw [List.mem_reverse] at hc
  exact List.mem_reverse.1 ((List.dropWhile_sublist p).mem hc)

theorem dropWhileEnd_idem (p : Char → Bool) (cs : List Char) :
    dropWhileEnd p (dropWhileEnd p cs) = dropWhileEnd p cs := by
  unfold dropWhileEnd
  rw [List.reverse_reverse, List.dropWhile_idempotent]

theorem stripTrailingZeros_pad (cs : List Char) :
    padEnd (stripTrailingZeros cs) cs.length '0' = cs := by
  unfold padEnd stripTrailingZeros dropWhileEnd
  have hsplit := List.takeWhile_append_dropWhile (fun c => c == '0') cs.reverse
  have hz : (cs.reverse.takeWhile (fun c => c == '0')) =
      List.replicate (cs.reverse.takeWhile (fun c => c == '0')).length '0' := by
    rw [List.eq_replicate_iff]
    refine ⟨rfl, fun b hb => ?_⟩
    simpa using List.mem_takeWhile_imp hb
  have hlen : cs.length = (cs.reverse.takeWhile (fun c => c == '0')).length +
      (cs.reverse.dropWhile (fun c => c == '0')).length := by
    rw [← List.length_append, hsplit, List.length_reverse]
  have hrev : cs = (cs.reverse.dropWhile (fun c => c == '0')).reverse ++
      (cs.reverse.takeWhile (fun c => c == '0')).reverse := by
    rw [← List.reverse_append, hsplit, List.reverse_reverse]
  rw [List.length_reverse]
  conv_rhs => rw [hrev, hz, List.reverse_replicate]
  congr 2
  omega

theorem dropWhileEnd_eq_self (p : Char → Bool) (cs : List Char)
    (h : ∀ hl : cs ≠ [], p (cs.getLast hl) = false) : dropWhileEnd p cs = cs := by
  show List.rdropWhile p cs = cs
  rw [List.rdropWhile_eq_self_iff]
  intro hl
  simp [h hl]

theorem stringToBigInt_digits (cs : List Char) (hne : cs ≠ [])
    (hd : ∀ c ∈ cs, isDecimalDigit c = true) :
    stringToBigInt ⟨cs⟩ = (digitsValue 10 cs 0).map Int.ofNat := by
  have hws : ∀ c ∈ cs, isStrWhiteSpace c = false :=
    fun c hc => isStrWhiteSpace_of_digit (hd c hc)
  have h1 : cs.dropWhile isStrWhiteSpace = cs := by
    cases cs with
    | nil => rfl
    | cons c t => simp [List.dropWhile_cons, hws c (List.mem_cons_self c t)]
  have h2 : dropWhileEnd isStrWhiteSpace cs = cs :=
    dropWhileEnd_eq_self _ _ (fun hl => hws _ (List.getLast_mem hl))
  have hx : ∀ c : Char, isDecimalDigit c = false → c ∉ cs := by
    intro c hc hmem
    rw [hd c hmem] at hc
    exact Bool.noConfusion hc
  unfold stringToBigInt
  simp only [h1, h2]
  split
  · exact absurd rfl hne
  · exact absurd (by simp) (hx 'x' (by decide))
  · exact absurd (by simp) (hx 'X' (by decide))
  · exact absurd (by simp) (hx 'o' (by decide))
  · exact absurd (by simp) (hx 'O' (by decide))
  · exact absurd (by simp) (hx 'b' (by decide))
  · exact absurd (by simp) (hx 'B' (by decide))
  · exact absurd (by simp) (hx '-' (by decide))
  · exact absurd (by simp) (hx '+' (by decide))
  · have : cs.isEmpty = false := by
      cases cs with
      | nil => exact absurd rfl hne
      | cons c t => rfl
    simp [digitsValue1, this]

theorem not_minus_of_digit {c : Char} (h : isDecimalDigit c = true) : c ≠ '-' := by
  intro hc
  subst hc
  exact absurd h (by decide)

theorem not_dot_of_digit {c : Char} (h : isDecimalDigit c = true) : (c != '.') = true := by
  rw [bne_iff_ne]
  intro hc
  subst hc
  exact absurd h (by decide)

theorem isDecimalNumber_parts (I T : List Char) (hne : I ≠ [])
    (hI : ∀ c ∈ I, isDecimalDigit c = true)
    (hT : T = [] ∨ ∃ F, T = '.' :: F ∧ ∀ c ∈ F, isDecimalDigit c = true) :
    isDecimalNumber (I ++ T) = true := by
  unfold isDecimalNumber
  have hbody : (match I ++ T with
      | '-' :: rest => rest
      | _ => I ++ T) = I ++ T := by
    cases I with
    | nil => exact absurd rfl hne
    | cons c t =>
      have hc := not_minus_of_digit (hI c (List.mem_cons_self c t))
      simp only [List.cons_append]
      split
      · rename_i heq
        simp only [List.cons.injEq] at heq
        exact absurd heq.1 hc
      · rfl
  simp only [hbody]
  rw [dropWhile_append_all _ _ _ hI]
  rcases hT with hT | ⟨F, hT, hF⟩
  · subst hT
    rfl
  · subst hT
    have hdot : isDecimalDigit '.' = false := by decide
    simp only [List.dropWhile_cons, hdot]
    simpa using hF

theorem splitDot_parts (I T : List Char) (hI : ∀ c ∈ I, isDecimalDigit c = true) :
    (T = [] → splitDot (I ++ T) = (I, none)) ∧
    (∀ F, T = '.' :: F → (∀ c ∈ F, isDecimalDigit c = true) →
      splitDot (I ++ T) = (I, some F)) := by
  have hI2 : ∀ c ∈ I, (fun c => c != '.') c = true := fun c hc => not_dot_of_digit (hI c hc)
  constructor
  · intro hT
    subst hT
    unfold splitDot
    rw [span_append_all _ _ _ hI2 (by rfl)]
  · intro F hT hF
    subst hT
    unfold splitDot
    rw [span_append_all _ _ _ hI2 (by simp)]
    simp only
    rw [takeWhile_all _ _ (fun c hc => not_dot_of_digit (hF c hc))]

theorem parseUnits_parts (roundNumber : String → Int) (I F : List Char) (v : Nat)
    (hI : ∀ c ∈ I, isDecimalDigit c = true) (hF : ∀ c ∈ F, isDecimalDigit c = true)
    (hlen : F.length = 18) (hv : digitsValue 10 (I ++ F) 0 = some v) :
    parseUnits roundNumber
      ⟨(if I.isEmpty then ['0'] else I) ++
        (if (stripTrailingZeros F).isEmpty then [] else '.' :: stripTrailingZeros F)⟩ 18
      = some (v : Int) := by
  -- the integer part as printed
  obtain ⟨J, hJdef, hJne, hJ, hJv⟩ : ∃ J, J = (if I.isEmpty then ['0'] else I) ∧ J ≠ [] ∧
      (∀ c ∈ J, isDecimalDigit c = true) ∧ digitsValue 10 (J ++ F) 0 = some v := by
    refine ⟨_, rfl, ?_, ?_, ?_⟩
    · cases I <;> simp
    · cases I with
      | nil => simp; decide
      | cons c t => simpa using hI
    · cases I with
      | nil =>
        simpa [digitsValue, show digitValue 10 '0' = some 0 by decide] using hv
      | cons c t => simpa using hv
  rw [← hJdef]
  -- the fraction as printed
  obtain ⟨G, hGdef, hG, hGpad, hGstrip⟩ : ∃ G, G = stripTrailingZeros F ∧
      (∀ c ∈ G, isDecimalDigit c = true) ∧ padEnd G 18 '0' = F ∧ stripTrailingZeros G = G := by
    refine ⟨_, rfl, ?_, ?_, ?_⟩
    · exact fun c hc => hF c (dropWhileEnd_mem _ _ c hc)
    · rw [← hlen]
      exact stripTrailingZeros_pad F
    · exact dropWhileEnd_idem _ _
  rw [← hGdef]
  have hGlen : G.length ≤ 18 := by
    have := congrArg List.length hGpad
    simp [padEnd] at this
    omega
  have hJhead : (J.head? == some '-') = false := by
    cases J with
    | nil => exact absurd rfl hJne
    | cons c t =>
      have := not_minus_of_digit (hJ c (List.mem_cons_self c t))
      simpa using this
  have hfinal : stringToBigInt ⟨J ++ F⟩ = some (v : Int) := by
    rw [stringToBigInt_digits (J ++ F) (by simp [hJne])
      (fun c hc => by
        rcases List.mem_append.1 hc with h | h
        · exact hJ c h
        · exact hF c h), hJv]
    rfl
  have hsplit := splitDot_parts J (if G.isEmpty then [] else '.' :: G) hJ
  by_cases hGe : G = []
  · subst hGe
    have hdec : isDecimalNumber (J ++ []) = true := isDecimalNumber_parts J [] hJne hJ (Or.inl rfl)
    have hsp : splitDot (J ++ []) = (J, none) := hsplit.1 rfl
    have hstrip0 : stripTrailingZeros ['0'] = [] := by decide
    have hpad0 : padEnd [] 18 '0' = F := hGpad
    simp only [parseUnits, List.isEmpty_nil, if_true, hdec, hsp, Option.getD_none, hstrip0,
      hJhead, hpad0]
    simpa using hfinal
  · have hGe2 : G.isEmpty = false := by
      cases G with
      | nil => exact absurd rfl hGe
      | cons c t => rfl
    simp only [hGe2, Bool.false_eq_true, if_false] at hsplit ⊢
    have hdec : isDecimalNumber (J ++ '.' :: G) = true :=
      isDecimalNumber_parts J ('.' :: G) hJne hJ (Or.inr ⟨G, rfl, hG⟩)
    have hsp : splitDot (J ++ '.' :: G) = (J, some G) := hsplit.2 G (by simp) hG
    have hnot : ¬ (G.length > 18) := by omega
    simp only [parseUnits, hdec, hsp, Option.getD_some, hGstrip, hJhead, hGpad]
    simpa [hnot] using hfinal

theorem padStart_digits (n : Nat) :
    (∀ c ∈ padStart (toDecimal n) 18 '0', isDecimalDigit c = true) ∧
    18 ≤ (padStart (toDecimal n) 18 '0').length ∧
    digitsValue 10 (padStart (toDecimal n) 18 '0') 0 = some n := by
  refine ⟨?_, ?_, ?_⟩
  · intro c hc
    rcases List.mem_append.1 hc with h | h
    · rw [(List.mem_replicate.1 h).2]
      decide
    · exact toDecimal_digits n c h
  · simp only [padStart, List.length_append, List.length_replicate]
    omega
  · simp only [padStart]
    rw [digitsValue_append, digitsValue_zeros]
    exact toDecimal_value n

/-- **C1.** For every wei amount `w` (in particular every `0 ≤ w < 2^256`), the display
string `formatEther(w)` of the job-status query parses back with `parseEther`, as job
creation parses an amount, to exactly `w`; the floating-point rounding inside
`parseEther` is never reached, whatever it does. -/
theorem parseEther_formatEther (roundNumber : String → Int) (w : Nat) :
    parseEther roundNumber (formatEther (w : Int)) = some (w : Int) := by
  obtain ⟨hdig, hlen, hval⟩ := padStart_digits w
  have hneg : decide ((w : Int) < 0) = false := by simp
  unfold parseEther formatEther formatUnits
  simp only [hneg, Int.natAbs_ofNat, Bool.false_eq_true, if_false, List.nil_append]
  apply parseUnits_parts
  · exact fun c hc => hdig c (List.mem_of_mem_take hc)
  · exact fun c hc => hdig c (List.mem_of_mem_drop hc)
  · rw [List.length_drop]
    omega
  · rw [List.take_append_drop]
    exact hval

/-! ## Lemmas on the calendar -/

theorem yearFromDay_spec (day : Int) :
    dayFromYear (yearFromDay day) ≤ day ∧ day < dayFromYear (yearFromDay day + 1) := by
  unfold yearFromDay
  simp only
  split_ifs with h1 h2
  · refine ⟨h1, ?_⟩
    unfold dayFromYear at h1 ⊢
    omega
  · exact ⟨h2, not_le.1 h1⟩
  · refine ⟨?_, by simpa using not_le.1 h2⟩
    unfold dayFromYear at h1 h2 ⊢
    omega

theorem dayFromYear_succ (y : Int) :
    dayFromYear (y + 1) = dayFromYear y + 365 + inLeapYear y := by
  unfold dayFromYear inLeapYear daysInYear
  split_ifs <;> simp <;> omega

theorem inLeapYear_le (y : Int) : inLeapYear y ≤ 1 := by
  unfold inLeapYear
  split_ifs <;> simp

theorem monthFromDay_cases (leap d : Nat) (h1 : d < 365 + leap) :
    (monthFromDay leap d = 0 ∧ d < 31) ∨
    (monthFromDay leap d = 1 ∧ 31 ≤ d ∧ d < 59 + leap) ∨
    (monthFromDay leap d = 2 ∧ 59 + leap ≤ d ∧ d < 90 + leap) ∨
    (monthFromDay leap d = 3 ∧ 90 + leap ≤ d ∧ d < 120 + leap) ∨
    (monthFromDay leap d = 4 ∧ 120 + leap ≤ d ∧ d < 151 + leap) ∨
    (monthFromDay leap d = 5 ∧ 151 + leap ≤ d ∧ d < 181 + leap) ∨
    (monthFromDay leap d = 6 ∧ 181 + leap ≤ d ∧ d < 212 + leap) ∨
    (monthFromDay leap d = 7 ∧ 212 + leap ≤ d ∧ d < 243 + leap) ∨
    (monthFromDay leap d = 8 ∧ 243 + leap ≤ d ∧ d < 273 + leap) ∨
    (monthFromDay leap d = 9 ∧ 273 + leap ≤ d ∧ d < 304 + leap) ∨
    (monthFromDay leap d = 10 ∧ 304 + leap ≤ d ∧ d < 334 + leap) ∨
    (monthFromDay leap d = 11 ∧ 334 + leap ≤ d ∧ d < 365 + leap) := by
  by_cases c0 : d < 31
  · exact Or.inl ⟨by simp only [monthFromDay, c0, if_true], c0⟩
  by_cases c1 : d < 59 + leap
  · exact Or.inr (Or.inl ⟨by simp only [monthFromDay, c0, c1, if_true, if_false], by omega⟩)
  by_cases c2 : d < 90 + leap
  · exact Or.inr (Or.inr (Or.inl ⟨by simp only [monthFromDay, c0, c1, c2, if_true, if_false], by omega⟩))
  by_cases c3 : d < 120 + leap
  · exact Or.inr (Or.inr (Or.inr (Or.inl ⟨by simp only [monthFromDay, c0, c1, c2, c3, if_true, if_false], by omega⟩)))
  by_cases c4 : d < 151 + leap
  · exact Or.inr (Or.inr (Or.inr (Or.inr (Or.inl ⟨by simp only [monthFromDay, c0, c1, c2, c3, c4, if_true, if_false], by omega⟩))))
  by_cases c5 : d < 181 + leap
  · exact Or.inr (Or.inr (Or.inr (Or.inr (Or.inr (Or.inl ⟨by simp only [monthFromDay, c0, c1, c2, c3, c4, c5, if_true, if_false], by omega⟩)))))
  by_cases c6 : d < 212 + leap
  · exact Or.inr (Or.inr (Or.inr (Or.inr (Or.inr (Or.inr (Or.inl ⟨by simp only [monthFromDay, c0, c1, c2, c3, c4, c5, c6, if_true, if_false], by omega⟩))))))
  by_cases c7 : d < 243 + leap
  · exact Or.inr (Or.inr (Or.inr (Or.inr (Or.inr (Or.inr (Or.inr (Or.inl ⟨by simp only [monthFromDay, c0, c1, c2, c3, c4, c5, c6, c7, if_true, if_false], by omega⟩)))))))
  by_cases c8 : d < 273 + leap
  · exact Or.inr (Or.inr (Or.inr (Or.inr (Or.inr (Or.inr (Or.inr (Or.inr (Or.inl ⟨by simp only [monthFromDay, c0, c1, c2, c3, c4, c5, c6, c7, c8, if_true, if_false], by omega⟩))))))))
  by_cases c9 : d < 304 + leap
  · exact Or.inr (Or.inr (Or.inr (Or.inr (Or.inr (Or.inr (Or.inr (Or.inr (Or.inr (Or.inl ⟨by simp only [monthFromDay, c0, c1, c2, c3, c4, c5, c6, c7, c8, c9, if_true, if_false], by omega⟩)))))))))
  by_cases c10 : d < 334 + leap
  · exact Or.inr (Or.inr (Or.inr (Or.inr (Or.inr (Or.inr (Or.inr (Or.inr (Or.inr (Or.inr (Or.inl ⟨by simp only [monthFromDay, c0, c1, c2, c3, c4, c5, c6, c7, c8, c9, c10, if_true, if_false], by omega⟩))))))))))
  exact Or.inr (Or.inr (Or.inr (Or.inr (Or.inr (Or.inr (Or.inr (Or.inr (Or.inr (Or.inr (Or.inr (⟨by simp only [monthFromDay, c0, c1, c2, c3, c4, c5, c6, c7, c8, c9, c10, if_false], by omega⟩)))))))))))

theorem monthFromDay_spec (leap d : Nat) (hl : leap ≤ 1) (h1 : d < 365 + leap) :
    monthFromDay leap d ≤ 11 ∧
    monthStart leap (monthFromDay leap d) ≤ d ∧
    d < monthStart leap (monthFromDay leap d + 1) ∧
    monthStart leap (monthFromDay leap d + 1) ≤ monthStart leap (monthFromDay leap d) + 31 := by
  rcases monthFromDay_cases leap d h1 with h | h | h | h | h | h | h | h | h | h | h | h <;>
    (rw [h.1] ; simp only [monthStart] ; omega)

theorem dateFields_spec (t : Int) :
    validFields (dateFields t) = true ∧ makeDate (dateFields t) = t ∧
    (dateFields t).ms < 1000 ∧ (dateFields t).date ≤ 31 := by
  have hms : msPerDay = 86400000 := rfl
  obtain ⟨hy1, hy2⟩ := yearFromDay_spec (t / msPerDay)
  rw [dayFromYear_succ] at hy2
  have hleap := inLeapYear_le (yearFromDay (t / msPerDay))
  have hdwy : ((t / msPerDay - dayFromYear (yearFromDay (t / msPerDay))).toNat : Int) =
      t / msPerDay - dayFromYear (yearFromDay (t / msPerDay)) := Int.toNat_of_nonneg (by omega)
  have hlt : (t / msPerDay - dayFromYear (yearFromDay (t / msPerDay))).toNat <
      365 + inLeapYear (yearFromDay (t / msPerDay)) := by omega
  obtain ⟨hm1, hm2, hm3, hm4⟩ := monthFromDay_spec _ _ hleap hlt
  have htid0 : 0 ≤ t % msPerDay := Int.emod_nonneg _ (by rw [hms]; decide)
  have htid1 : t % msPerDay < 86400000 := by
    have := Int.emod_lt_of_pos t (show (0 : Int) < msPerDay by rw [hms]; decide)
    rwa [hms] at this
  have htid : ((t % msPerDay).toNat : Int) = t % msPerDay := Int.toNat_of_nonneg htid0
  have hdiv : t = t / msPerDay * 86400000 + t % msPerDay := by
    have := Int.ediv_add_emod t msPerDay
    rw [hms] at this ⊢
    linarith
  refine ⟨?_, ?_, ?_, ?_⟩
  · simp only [validFields, dateFields, decide_eq_true_eq, Nat.add_sub_cancel]
    refine ⟨by omega, by omega, by omega, by omega, by omega, by omega, by omega⟩
  · simp only [makeDate, dateFields, Nat.add_sub_cancel]
    generalize t / msPerDay = day at *
    generalize t % msPerDay = rest at *
    rw [hms]
    omega
  · simp only [dateFields]
    omega
  · simp only [dateFields]
    omega

/-! ## Lemmas on the ISO string -/

theorem fixedDigits_length (width n : Nat) : (fixedDigits width n).length = width := by
  induction width generalizing n with
  | zero => rfl
  | succ w ih => simp [fixedDigits, ih]

theorem fixedDigits_value (width n : Nat) (h : n < 10 ^ width) :
    digitsValue 10 (fixedDigits width n) 0 = some n := by
  induction width generalizing n with
  | zero =>
    have : n = 0 := by simpa using h
    subst this
    rfl
  | succ w ih =>
    have hdiv : n / 10 < 10 ^ w := by
      rw [Nat.div_lt_iff_lt_mul (by decide)]
      rwa [pow_succ] at h
    simp only [fixedDigits]
    rw [digitsValue_append, ih _ hdiv]
    simp [digitsValue, digitValue_digitChar (n % 10) (Nat.mod_lt _ (by decide))]
    omega

theorem readDigits_fixedDigits (width n : Nat) (rest : List Char) (hw : 0 < width)
    (h : n < 10 ^ width) : readDigits width (fixedDigits width n ++ rest) = some (n, rest) := by
  have hlen := fixedDigits_length width n
  have hne : (fixedDigits width n).isEmpty = false := by
    cases hfd : fixedDigits width n with
    | nil => rw [hfd] at hlen; simp at hlen; omega
    | cons c t => rfl
  unfold readDigits
  have h1 : ¬ ((fixedDigits width n ++ rest).length < width) := by
    simp [hlen]
  rw [if_neg h1, List.take_left' hlen, List.drop_left' hlen]
  simp [digitsValue1, hne, fixedDigits_value width n h]

theorem expectChar_cons (c : Char) (cs : List Char) : expectChar c (c :: cs) = some cs := by
  simp [expectChar]

theorem readFormat_isoFormat (month date hours minutes seconds ms : Nat)
    (h1 : month < 100) (h2 : date < 100) (h3 : hours < 100) (h4 : minutes < 100)
    (h5 : seconds < 100) (h6 : ms < 1000) :
    readFormat isoFormat ('-' :: (fixedDigits 2 month ++ '-' :: (fixedDigits 2 date ++
      'T' :: (fixedDigits 2 hours ++ ':' :: (fixedDigits 2 minutes ++
      ':' :: (fixedDigits 2 seconds ++ '.' :: (fixedDigits 3 ms ++ ['Z']))))))) =
      some [month, date, hours, minutes, seconds, ms] := by
  simp only [isoFormat, readFormat, expectChar_cons, Option.some_bind,
    readDigits_fixedDigits 2 month _ (by decide) (by simpa using h1),
    readDigits_fixedDigits 2 date _ (by decide) (by simpa using h2),
    readDigits_fixedDigits 2 hours _ (by decide) (by simpa using h3),
    readDigits_fixedDigits 2 minutes _ (by decide) (by simpa using h4),
    readDigits_fixedDigits 2 seconds _ (by decide) (by simpa using h5),
    readDigits_fixedDigits 3 ms _ (by decide) (by simpa using h6),
    List.isEmpty_nil, if_true, Option.map_some']

theorem digitChar_ne_sign (d : Nat) : digitChar d ≠ '+' ∧ digitChar d ≠ '-' := by
  have h := isDecimalDigit_digitChar d
  constructor <;> (intro hc ; rw [hc] at h ; exact absurd h (by decide))

theorem readIsoYear_digits (n : Nat) (rest : List Char) (h : n < 10 ^ 4) :
    readIsoYear (fixedDigits 4 n ++ rest) = some ((n : Int), rest) := by
  have hr := readDigits_fixedDigits 4 n rest (by decide) h
  have hfd : fixedDigits 4 n = [digitChar (n / 10 / 10 / 10 % 10), digitChar (n / 10 / 10 % 10),
      digitChar (n / 10 % 10), digitChar (n % 10)] := rfl
  obtain ⟨hp, hm⟩ := digitChar_ne_sign (n / 10 / 10 / 10 % 10)
  rw [hfd] at hr ⊢
  simp only [List.cons_append] at hr ⊢
  unfold readIsoYear
  split
  · rename_i heq
    simp only [List.cons.injEq] at heq
    exact absurd heq.1 hp
  · rename_i heq
    simp only [List.cons.injEq] at heq
    exact absurd heq.1 hm
  · rw [hr]
    rfl

theorem readIsoYear_isoYear (y : Int) (rest : List Char) (h : y.natAbs < 10 ^ 6) :
    readIsoYear (isoYear y ++ rest) = some (y, rest) := by
  unfold isoYear
  split_ifs with h1 h2
  · obtain ⟨n, rfl⟩ := Int.eq_ofNat_of_zero_le h1.1
    have hn : n < 10 ^ 4 := by omega
    simpa using readIsoYear_digits n rest hn
  · obtain ⟨n, rfl⟩ := Int.exists_eq_neg_ofNat (le_of_lt h2)
    have hnat : (-(n : Int)).natAbs = n := by simp
    rw [hnat] at h ⊢
    have hr := readDigits_fixedDigits 6 n rest (by decide) h
    have hne : n ≠ 0 := by omega
    simp only [List.cons_append, readIsoYear, hr, Option.some_bind, hne, if_false]
    rfl
  · have h0 : 0 ≤ y := by omega
    obtain ⟨n, rfl⟩ := Int.eq_ofNat_of_zero_le h0
    have hnat : ((n : Int)).natAbs = n := by simp
    rw [hnat] at h ⊢
    have hr := readDigits_fixedDigits 6 n rest (by decide) h
    simp only [List.cons_append, readIsoYear, hr, Option.map_some']
    rfl

theorem year_bound (t : Int) (ht : t.natAbs ≤ maxTimeValue.natAbs) :
    (dateFields t).year.natAbs < 10 ^ 6 := by
  have hmax : maxTimeValue.natAbs = 8640000000000000 := rfl
  have hdiv : t = t / msPerDay * 86400000 + t % msPerDay := by
    have := Int.ediv_add_emod t msPerDay
    rw [show msPerDay = 86400000 from rfl] at this ⊢
    linarith
  have h0 : 0 ≤ t % msPerDay := Int.emod_nonneg _ (by decide)
  have h1 : t % msPerDay < 86400000 := Int.emod_lt_of_pos t (by decide)
  obtain ⟨hy1, hy2⟩ := yearFromDay_spec (t / msPerDay)
  show (yearFromDay (t / msPerDay)).natAbs < 10 ^ 6
  generalize yearFromDay (t / msPerDay) = y at *
  generalize t / msPerDay = day at *
  generalize t % msPerDay = rest at *
  unfold dayFromYear at hy1 hy2
  omega

theorem isoString_data (f : DateFields) :
    (isoString f).data = isoYear f.year ++ ('-' :: (fixedDigits 2 f.month ++
      '-' :: (fixedDigits 2 f.date ++ 'T' :: (fixedDigits 2 f.hours ++
      ':' :: (fixedDigits 2 f.minutes ++ ':' :: (fixedDigits 2 f.seconds ++
      '.' :: (fixedDigits 3 f.ms ++ ['Z']))))))) := by
  simp [isoString]

/-- Round trip of the ISO string: parsing the string `toISOString` writes for a valid
time value gives the time value back, whatever the engine does with other text. -/
theorem dateParse_isoString (parseOther : String → Option Int) (t : Int)
    (ht : t.natAbs ≤ maxTimeValue.natAbs) :
    dateParse parseOther (isoString (dateFields t)) = some t := by
  obtain ⟨hv, hmk, hms, hdate⟩ := dateFields_spec t
  have hyear := year_bound t ht
  have hvalid := hv
  simp only [validFields, decide_eq_true_eq] at hvalid
  obtain ⟨_, hmonth, _, _, hhours, hmin, hsec⟩ := hvalid
  have hread : readIsoFields (isoString (dateFields t)).data = some (dateFields t) := by
    rw [isoString_data]
    unfold readIsoFields
    rw [readIsoYear_isoYear _ _ hyear]
    simp only [Option.some_bind]
    rw [readFormat_isoFormat _ _ _ _ _ _ (by omega) (by omega) (by omega) (by omega)
      (by omega) hms]
  unfold dateParse
  rw [hread]
  simp only [hv, if_true, hmk, timeClip]
  rw [if_neg (by omega)]

/-! ## Lemmas on running a handler -/

theorem bind_run {σ α β : Type} (m : Eff σ α) (f : α → Eff σ β) (s : σ) :
    (m >>= f) s = Eff.bind m f s := rfl

theorem pure_run {σ α : Type} (a : α) (s : σ) : (pure a : Eff σ α) s = ⟨.ok a, s, []⟩ := rfl

theorem submit_outcome {σ ρ : Type} (L : Ledger σ) (s : σ) (call : ContractCall)
    (onError : JsError → ρ) (onReceipt : String → Receipt → Except JsError ρ) :
    SubmitOutcome L s call onError onReceipt
      (tryCatch (writeContract L call >>= fun hash =>
        waitForTransactionReceipt L hash >>= fun receipt =>
        Eff.ofExcept (onReceipt hash receipt)) onError s) := by
  rcases hw : L.writeContract s call with ⟨rw, s1⟩
  cases rw with
  | error e =>
    refine Or.inl ⟨e, s1, hw, ?_⟩
    simp [tryCatch, bind_run, Eff.bind, writeContract, hw]
  | ok hash =>
    rcases hq : L.waitForTransactionReceipt s1 hash with ⟨rq, s2⟩
    cases rq with
    | error e =>
      refine Or.inr (Or.inl ⟨hash, s1, e, s2, hw, hq, ?_⟩)
      simp [tryCatch, bind_run, Eff.bind, writeContract, hw, waitForTransactionReceipt, hq]
    | ok receipt =>
      refine Or.inr (Or.inr ⟨hash, s1, receipt, s2, hw, hq, ?_⟩)
      cases hk : onReceipt hash receipt <;>
        simp [tryCatch, bind_run, Eff.bind, writeContract, hw, waitForTransactionReceipt, hq,
          Eff.ofExcept, hk]

theorem tryCatch_throw {σ α ρ : Type} (e : JsError) (f : α → Eff σ ρ)
    (onError : JsError → ρ) (s : σ) :
    tryCatch (Eff.ofExcept (.error e) >>= f) onError s = ⟨onError e, s, []⟩ := by
  simp [tryCatch, bind_run, Eff.bind, Eff.ofExcept]

theorem tryCatch_step {σ α ρ : Type} (a : α) (f : α → Eff σ ρ)
    (onError : JsError → ρ) (s : σ) :
    tryCatch (Eff.ofExcept (.ok a) >>= f) onError s = tryCatch (f a) onError s := by
  simp only [tryCatch, bind_run, Eff.bind, Eff.ofExcept]
  rcases f a s with ⟨r, s1, t⟩
  cases r <;> simp

theorem ofExcept_bind_pure {σ α ρ : Type} (x : Except JsError α) (g : α → ρ) :
    (Eff.ofExcept x >>= fun a => (pure (g a) : Eff σ ρ)) = Eff.ofExcept (x.map g) := by
  funext s
  cases x <;> simp [bind_run, Eff.bind, Eff.ofExcept, Eff.pure, Except.map]

theorem ofOption_some {σ α : Type} (e : JsError) (a : α) :
    (Eff.ofOption e (some a) : Eff σ α) = Eff.ofExcept (.ok a) := rfl

theorem ofOption_none {σ α : Type} (e : JsError) :
    (Eff.ofOption e (none : Option α) : Eff σ α) = Eff.ofExcept (.error e) := rfl

theorem tryCatch_pure {σ ρ : Type} (r : ρ) (onError : JsError → ρ) (s : σ) :
    tryCatch (pure r : Eff σ ρ) onError s = ⟨r, s, []⟩ := rfl

/-- The four REST handlers that take a job only (`approve`, `cancel`, `dispute`,
`resolve`) differ in the function name alone: a job id that is not an integer is
answered 500 without a call, any other id leads to the submission. -/
theorem rest_simple_outcome {σ : Type} (L : Ledger σ) (fn id : String) (s : σ) :
    (∃ e, toBigInt (JsVal.str id) = .error e ∧
      tryCatch (do
        let jobId ← Eff.ofExcept (toBigInt (JsVal.str id))
        let hash ← writeContract L ⟨fn, [JsVal.bigint jobId], none⟩
        let _ ← waitForTransactionReceipt L hash
        pure (⟨200, Body.json (jsonProperties (successObject hash))⟩ : HttpResponse))
        internalError s = ⟨internalError e, s, []⟩) ∨
    (∃ jobId, toBigInt (JsVal.str id) = .ok jobId ∧
      SubmitOutcome L s ⟨fn, [JsVal.bigint jobId], none⟩ internalError
        (fun hash _ => .ok ⟨200, Body.json (jsonProperties (successObject hash))⟩)
        (tryCatch (do
          let jobId ← Eff.ofExcept (toBigInt (JsVal.str id))
          let hash ← writeContract L ⟨fn, [JsVal.bigint jobId], none⟩
          let _ ← waitForTransactionReceipt L hash
          pure (⟨200, Body.json (jsonProperties (successObject hash))⟩ : HttpResponse))
          internalError s)) := by
  cases hid : toBigInt (JsVal.str id) with
  | error e => exact Or.inl ⟨e, rfl, tryCatch_throw e _ _ s⟩
  | ok jobId =>
    refine Or.inr ⟨jobId, rfl, ?_⟩
    rw [tryCatch_step]
    exact submit_outcome L s _ internalError _

theorem postJobSubmit_outcome {σ : Type} (L : Ledger σ) (id : String) (body : Option JsObject)
    (s : σ) :
    (∃ e, toBigInt (JsVal.str id) = .error e ∧
      postJobSubmit L id body s = ⟨internalError e, s, []⟩) ∨
    (∃ jobId, toBigInt (JsVal.str id) = .ok jobId ∧ body = none ∧
      postJobSubmit L id body s = ⟨internalError JsError.typeError, s, []⟩) ∨
    (∃ jobId fields, toBigInt (JsVal.str id) = .ok jobId ∧ body = some fields ∧
      truthy (fields.get "deliverable") = false ∧
      postJobSubmit L id body s =
        ⟨⟨400, Body.json [("error", JsVal.str "Missing deliverable")]⟩, s, []⟩) ∨
    (∃ jobId fields, toBigInt (JsVal.str id) = .ok jobId ∧ body = some fields ∧
      truthy (fields.get "deliverable") = true ∧
      SubmitOutcome L s ⟨"submitWork", [JsVal.bigint jobId, fields.get "deliverable"], none⟩
        internalError (fun hash _ => .ok ⟨200, Body.json (jsonProperties (successObject hash))⟩)
        (postJobSubmit L id body s)) := by
  unfold postJobSubmit
  cases hid : toBigInt (JsVal.str id) with
  | error e => exact Or.inl ⟨e, rfl, tryCatch_throw e _ _ s⟩
  | ok jobId =>
    rw [tryCatch_step]
    cases body with
    | none =>
      refine Or.inr (Or.inl ⟨jobId, rfl, rfl, ?_⟩)
      rw [ofOption_none]
      exact tryCatch_throw _ _ _ s
    | some fields =>
      rw [ofOption_some, tryCatch_step]
      cases hd : truthy (fields.get "deliverable") with
      | false =>
        refine Or.inr (Or.inr (Or.inl ⟨jobId, fields, rfl, rfl, hd, ?_⟩))
        simp only [hd, Bool.not_false, if_true]
        rfl
      | true =>
        refine Or.inr (Or.inr (Or.inr ⟨jobId, fields, rfl, rfl, hd, ?_⟩))
        simp only [hd, Bool.not_true, Bool.false_eq_true, if_false]
        exact submit_outcome L s _ internalError _

/-- The outcomes of `POST /job/create`: a request without a parsed body is answered
500, a missing field 400, a deadline or amount that does not convert 500, all without
a call; else the submission follows. -/
theorem postJobCreate_outcome {σ : Type} (R : Runtime) (L : Ledger σ) (body : Option JsObject)
    (s : σ) :
    (body = none ∧ postJobCreate R L body s = ⟨internalError JsError.typeError, s, []⟩) ∨
    (∃ fields, body = some fields ∧
      (((truthy (fields.get "worker") && truthy (fields.get "deadline") &&
          truthy (fields.get "amount")) = false ∧
        postJobCreate R L body s = ⟨⟨400, Body.json
          [("error", JsVal.str "Missing required fields: worker, deadline, amount")]⟩, s, []⟩) ∨
      ((truthy (fields.get "worker") && truthy (fields.get "deadline") &&
          truthy (fields.get "amount")) = true ∧
        ((∃ e, (deadlineTimestamp R.parseOther (fields.get "deadline") = .error e ∨
            (∃ t, deadlineTimestamp R.parseOther (fields.get "deadline") = .ok t) ∧
              (jsToString R.numberToString (fields.get "amount")).bind
                (parseEther R.roundNumber) = none) ∧
            postJobCreate R L body s = ⟨internalError e, s, []⟩) ∨
         (∃ t wei, deadlineTimestamp R.parseOther (fields.get "deadline") = .ok t ∧
            (jsToString R.numberToString (fields.get "amount")).bind
              (parseEther R.roundNumber) = some wei ∧
            SubmitOutcome L s ⟨"createJob", [fields.get "worker", JsVal.bigint t], some wei⟩
              internalError (fun hash receipt => (createdJobId receipt).map (fun jobId =>
                ⟨200, Body.json (jsonProperties
                  [("success", JsVal.bool true), ("jobId", jobId), ("txHash", JsVal.str hash),
                   ("explorer", JsVal.str (explorer hash))])⟩))
              (postJobCreate R L body s)))))) := by
  unfold postJobCreate
  cases body with
  | none =>
    refine Or.inl ⟨rfl, ?_⟩
    rw [ofOption_none]
    exact tryCatch_throw _ _ _ s
  | some fields =>
    refine Or.inr ⟨fields, rfl, ?_⟩
    rw [ofOption_some, tryCatch_step]
    simp only []
    cases hc : (truthy (fields.get "worker") && truthy (fields.get "deadline") &&
        truthy (fields.get "amount")) with
    | false =>
      refine Or.inl ⟨rfl, ?_⟩
      have hcond : (!truthy (fields.get "worker") || !truthy (fields.get "deadline") ||
          !truthy (fields.get "amount")) = true := by
        revert hc
        cases truthy (fields.get "worker") <;> cases truthy (fields.get "deadline") <;>
          cases truthy (fields.get "amount") <;> simp
      rw [if_pos hcond]
      rfl
    | true =>
      refine Or.inr ⟨rfl, ?_⟩
      have hcond : ¬ (!truthy (fields.get "worker") || !truthy (fields.get "deadline") ||
          !truthy (fields.get "amount")) = true := by
        revert hc
        cases truthy (fields.get "worker") <;> cases truthy (fields.get "deadline") <;>
          cases truthy (fields.get "amount") <;> simp
      rw [if_neg hcond]
      cases hd : deadlineTimestamp R.parseOther (fields.get "deadline") with
      | error e => exact Or.inl ⟨e, Or.inl rfl, tryCatch_throw e _ _ s⟩
      | ok t =>
        rw [tryCatch_step]
        cases ht : jsToString R.numberToString (fields.get "amount") with
        | none =>
          refine Or.inl ⟨JsError.typeError, Or.inr ⟨⟨t, rfl⟩, by simp⟩, ?_⟩
          rw [ofOption_none]
          exact tryCatch_throw _ _ _ s
        | some text =>
          rw [ofOption_some, tryCatch_step]
          cases hp : parseEther R.roundNumber text with
          | none =>
            refine Or.inl ⟨JsError.invalidDecimalNumber, Or.inr ⟨⟨t, rfl⟩, by simp [hp]⟩, ?_⟩
            rw [ofOption_none]
            exact tryCatch_throw _ _ _ s
          | some wei =>
            refine Or.inr ⟨t, wei, rfl, by simp [hp], ?_⟩
            rw [ofOption_some, tryCatch_step]
            simp only [ofExcept_bind_pure]
            exact submit_outcome L s _ internalError _

/-- The four tools that take a job only (`approve_work`, `cancel_job`, `dispute_job`,
`resolve_dispute`) differ in the function name and the status text alone: a job id
that `BigInt` does not convert is answered with an error without a call, any other id
leads to the submission. -/
theorem tool_simple_outcome {σ : Type} (L : Ledger σ) (fn status : String) (args : JobArgs)
    (s : σ) :
    (∃ e, toBigInt args.job_id = .error e ∧
      tryCatch (do
        let jobId ← Eff.ofExcept (toBigInt args.job_id)
        let hash ← writeContract L ⟨fn, [JsVal.bigint jobId], none⟩
        let _ ← waitForTransactionReceipt L hash
        pure (toolSuccess args status hash)) toolError s = ⟨toolError e, s, []⟩) ∨
    (∃ jobId, toBigInt args.job_id = .ok jobId ∧
      SubmitOutcome L s ⟨fn, [JsVal.bigint jobId], none⟩ toolError
        (fun hash _ => .ok (toolSuccess args status hash))
        (tryCatch (do
          let jobId ← Eff.ofExcept (toBigInt args.job_id)
          let hash ← writeContract L ⟨fn, [JsVal.bigint jobId], none⟩
          let _ ← waitForTransactionReceipt L hash
          pure (toolSuccess args status hash)) toolError s)) := by
  cases hid : toBigInt args.job_id with
  | error e => exact Or.inl ⟨e, rfl, tryCatch_throw e _ _ s⟩
  | ok jobId =>
    refine Or.inr ⟨jobId, rfl, ?_⟩
    rw [tryCatch_step]
    exact submit_outcome L s _ toolError _

theorem submit_work_outcome {σ : Type} (L : Ledger σ) (args : SubmitWorkArgs) (s : σ) :
    (∃ e, toBigInt args.job_id = .error e ∧
      tryCatch (submit_work L args) toolError s = ⟨toolError e, s, []⟩) ∨
    (∃ jobId, toBigInt args.job_id = .ok jobId ∧
      SubmitOutcome L s ⟨"submitWork", [JsVal.bigint jobId, args.deliverable], none⟩ toolError
        (fun hash _ => .ok (submitWorkSuccess args hash))
        (tryCatch (submit_work L args) toolError s)) := by
  unfold submit_work
  cases hid : toBigInt args.job_id with
  | error e => exact Or.inl ⟨e, rfl, tryCatch_throw e _ _ s⟩
  | ok jobId =>
    refine Or.inr ⟨jobId, rfl, ?_⟩
    rw [tryCatch_step]
    exact submit_outcome L s _ toolError _

theorem tryCatch_simulate {σ ρ : Type} (L : Ledger σ) (call : ContractCall)
    (f : ContractCall → Eff σ ρ) (onError : JsError → ρ) (s : σ) :
    (∃ e s1, L.simulateContract s call = (.error e, s1) ∧
      tryCatch (simulateContract L call >>= f) onError s =
        ⟨onError e, s1, [Event.simulate call (.error e)]⟩) ∨
    (∃ request s1, L.simulateContract s call = (.ok request, s1) ∧
      tryCatch (simulateContract L call >>= f) onError s =
        ⟨(tryCatch (f request) onError s1).response, (tryCatch (f request) onError s1).state,
          Event.simulate call (.ok request) :: (tryCatch (f request) onError s1).trace⟩) := by
  rcases hsim : L.simulateContract s call with ⟨r, s1⟩
  cases r with
  | error e =>
    refine Or.inl ⟨e, s1, rfl, ?_⟩
    simp [tryCatch, bind_run, Eff.bind, simulateContract, hsim]
  | ok request =>
    refine Or.inr ⟨request, s1, rfl, ?_⟩
    simp only [tryCatch, bind_run, Eff.bind, simulateContract, hsim]
    rcases f request s1 with ⟨r2, s2, t2⟩
    cases r2 <;> simp

/-- The outcomes of `create_escrow`: a deadline or an amount that does not convert is
answered with an error without a call; else the simulation runs, and after it the
submission of the request the simulation returned. -/
theorem create_escrow_outcome {σ : Type} (R : Runtime) (now : Nat) (L : Ledger σ)
    (args : CreateEscrowArgs) (s : σ) :
    (∃ e, (deadlineOfHours R now args.deadline_hours = .error e ∨
        (∃ deadline, deadlineOfHours R now args.deadline_hours = .ok deadline) ∧
          parseEtherValue R args.amount_eth = .error e) ∧
      tryCatch (create_escrow R now L args) toolError s = ⟨toolError e, s, []⟩) ∨
    (∃ deadline value, deadlineOfHours R now args.deadline_hours = .ok deadline ∧
      parseEtherValue R args.amount_eth = .ok value ∧
      ((∃ e s1, L.simulateContract s
            ⟨"createJob", [args.worker_address, JsVal.bigint deadline], some value⟩ =
            (.error e, s1) ∧
          tryCatch (create_escrow R now L args) toolError s =
            ⟨toolError e, s1, [Event.simulate
              ⟨"createJob", [args.worker_address, JsVal.bigint deadline], some value⟩
              (.error e)]⟩) ∨
       (∃ request s1 o, L.simulateContract s
            ⟨"createJob", [args.worker_address, JsVal.bigint deadline], some value⟩ =
            (.ok request, s1) ∧
          SubmitOutcome L s1 request toolError (createEscrowAnswer R args deadline) o ∧
          tryCatch (create_escrow R now L args) toolError s =
            ⟨o.response, o.state, Event.simulate
              ⟨"createJob", [args.worker_address, JsVal.bigint deadline], some value⟩
              (.ok request) :: o.trace⟩))) := by
  unfold create_escrow
  cases hd : deadlineOfHours R now args.deadline_hours with
  | error e => exact Or.inl ⟨e, Or.inl rfl, tryCatch_throw e _ _ s⟩
  | ok deadline =>
    rw [tryCatch_step]
    cases hp : parseEtherValue R args.amount_eth with
    | error e => exact Or.inl ⟨e, Or.inr ⟨⟨deadline, rfl⟩, rfl⟩, tryCatch_throw e _ _ s⟩
    | ok value =>
      refine Or.inr ⟨deadline, value, rfl, rfl, ?_⟩
      rw [tryCatch_step]
      have hanswer : ∀ (hash : String) (receipt : Receipt),
          (Eff.ofOption JsError.typeError (coerceToString R.numberToString args.amount_eth) >>=
            fun amount => Eff.ofExcept (isoOfSeconds deadline) >>= fun deadlineText =>
              (pure ⟨Body.json (jsonProperties
                [("success", JsVal.bool true), ("job_id", escrowJobId R receipt),
                 ("tx_hash", JsVal.str hash), ("worker", args.worker_address),
                 ("amount", JsVal.str (amount ++ " ETH")),
                 ("deadline", JsVal.str deadlineText),
                 ("explorer", JsVal.str (explorer hash))]), false⟩ : Eff σ ToolResult)) =
          Eff.ofExcept (createEscrowAnswer R args deadline hash receipt) := by
        intro hash receipt
        funext s0
        unfold createEscrowAnswer
        cases hc : coerceToString R.numberToString args.amount_eth with
        | none => simp [bind_run, Eff.bind, Eff.ofOption, Eff.ofExcept]
        | some amount =>
          cases hi : isoOfSeconds deadline <;>
            simp [bind_run, Eff.bind, Eff.ofOption, Eff.ofExcept, Eff.pure, Except.map,
              pure_run]
      simp only [hanswer]
      rcases tryCatch_simulate L _ _ toolError s with ⟨e, s1, hsim, ho⟩ | ⟨request, s1, hsim, ho⟩
      · exact Or.inl ⟨e, s1, hsim, ho⟩
      · exact Or.inr ⟨request, s1, _, hsim, submit_outcome L s1 request toolError _, ho⟩

theorem getJob_outcome {σ : Type} (L : Ledger σ) (id : String) (s : σ) :
    (∃ e, toBigInt (JsVal.str id) = .error e ∧ getJob L id s = ⟨internalError e, s, []⟩) ∨
    (∃ jobId, toBigInt (JsVal.str id) = .ok jobId ∧
      ((∃ e s1, L.readJob s ⟨"jobs", [JsVal.bigint jobId], none⟩ = (.error e, s1) ∧
          getJob L id s =
            ⟨internalError e, s1, [Event.read ⟨"jobs", [JsVal.bigint jobId], none⟩]⟩) ∨
       (∃ job s1, L.readJob s ⟨"jobs", [JsVal.bigint jobId], none⟩ = (.ok job, s1) ∧
          getJob L id s =
            ⟨(match getJobObject jobId job with
              | .ok object => ⟨200, Body.json (jsonProperties object)⟩
              | .error e => internalError e), s1,
             [Event.read ⟨"jobs", [JsVal.bigint jobId], none⟩]⟩))) := by
  unfold getJob
  cases hid : toBigInt (JsVal.str id) with
  | error e => exact Or.inl ⟨e, rfl, tryCatch_throw e _ _ s⟩
  | ok jobId =>
    refine Or.inr ⟨jobId, rfl, ?_⟩
    rw [tryCatch_step]
    rcases hr : L.readJob s ⟨"jobs", [JsVal.bigint jobId], none⟩ with ⟨r, s1⟩
    cases r with
    | error e =>
      refine Or.inl ⟨e, s1, rfl, ?_⟩
      simp [tryCatch, bind_run, Eff.bind, readJob, hr]
    | ok job =>
      refine Or.inr ⟨job, s1, rfl, ?_⟩
      cases ho : getJobObject jobId job <;>
        simp [tryCatch, bind_run, Eff.bind, readJob, hr, Eff.ofExcept, ho, Eff.pure]

/-- The object of `get_job_status` cannot be built: `job[2]` is `undefined`, and
`formatEther` throws on it. -/
theorem jobStatusObject_throws (args : JobArgs) (job : RawJob) :
    jobStatusObject args job = .error JsError.typeError := rfl

/-- The outcomes of `get_job_status`: every one is the answer to a caught exception,
thrown by the conversion of the job id, by the read, or by `formatEther(job[2])` once
the read has returned. -/
theorem get_job_status_outcome {σ : Type} (L : Ledger σ) (args : JobArgs) (s : σ) :
    (∃ e, toBigInt args.job_id = .error e ∧
      tryCatch (get_job_status L args) toolError s = ⟨toolError e, s, []⟩) ∨
    (∃ jobId, toBigInt args.job_id = .ok jobId ∧
      ((∃ e s1, L.readJob s ⟨"getJob", [JsVal.bigint jobId], none⟩ = (.error e, s1) ∧
          tryCatch (get_job_status L args) toolError s =
            ⟨toolError e, s1, [Event.read ⟨"getJob", [JsVal.bigint jobId], none⟩]⟩) ∨
       (∃ job s1, L.readJob s ⟨"getJob", [JsVal.bigint jobId], none⟩ = (.ok job, s1) ∧
          tryCatch (get_job_status L args) toolError s =
            ⟨toolError JsError.typeError, s1,
             [Event.read ⟨"getJob", [JsVal.bigint jobId], none⟩]⟩))) := by
  unfold get_job_status
  cases hid : toBigInt args.job_id with
  | error e => exact Or.inl ⟨e, rfl, tryCatch_throw e _ _ s⟩
  | ok jobId =>
    refine Or.inr ⟨jobId, rfl, ?_⟩
    rw [tryCatch_step]
    rcases hr : L.readJob s ⟨"getJob", [JsVal.bigint jobId], none⟩ with ⟨r, s1⟩
    cases r with
    | error e =>
      refine Or.inl ⟨e, s1, rfl, ?_⟩
      simp [tryCatch, bind_run, Eff.bind, readJob, hr]
    | ok job =>
      refine Or.inr ⟨job, s1, rfl, ?_⟩
      simp [tryCatch, bind_run, Eff.bind, readJob, hr, Eff.ofExcept, jobStatusObject_throws]

theorem getJobsCount_outcome {σ : Type} (L : Ledger σ) (s : σ) :
    (∃ e s1, getJobsCount L s = ⟨internalError e, s1, [Event.read ⟨"jobCount", [], none⟩]⟩) ∨
    (∃ count s1, getJobsCount L s =
      ⟨⟨200, Body.json (jsonProperties [("count", JsVal.str (bigIntToString count))])⟩, s1,
       [Event.read ⟨"jobCount", [], none⟩]⟩) := by
  unfold getJobsCount
  rcases hr : L.readCount s ⟨"jobCount", [], none⟩ with ⟨r, s1⟩
  cases r with
  | error e =>
    refine Or.inl ⟨e, s1, ?_⟩
    simp [tryCatch, bind_run, Eff.bind, readCount, hr]
  | ok count =>
    refine Or.inr ⟨count, s1, ?_⟩
    simp [tryCatch, bind_run, Eff.bind, readCount, hr, Eff.pure]

/-! ## The status tables (C2) and the job-status projection (C3, C4) -/

/-- **C2.** The REST table `statusMap` and the tool-server table `STATUS_NAMES` give
codes 0, 1 and 2 the same names (Created, WorkSubmitted, Completed); `statusMap` maps 3
to Cancelled and 4 to Disputed while `STATUS_NAMES` maps 3 to Disputed and 4 to
Cancelled; and the two tables agree on a code in 0..4 exactly when it is below 3. -/
theorem status_tables_swapped :
    statusMapAt 0 = JsVal.str "Created" ∧ statusNamesAt 0 = JsVal.str "Created" ∧
    statusMapAt 1 = JsVal.str "WorkSubmitted" ∧ statusNamesAt 1 = JsVal.str "WorkSubmitted" ∧
    statusMapAt 2 = JsVal.str "Completed" ∧ statusNamesAt 2 = JsVal.str "Completed" ∧
    statusMapAt 3 = JsVal.str "Cancelled" ∧ statusNamesAt 3 = JsVal.str "Disputed" ∧
    statusMapAt 4 = JsVal.str "Disputed" ∧ statusNamesAt 4 = JsVal.str "Cancelled" ∧
    ∀ code : Fin 5, (statusMapAt code.val = statusNamesAt code.val ↔ code.val < 3) := by
  decide

/-- **C3, at the failing input.** For a job whose status code is 5, `GET /job/:id`
answers 200 with a body that has no `status` property at all: `statusMap[5]` is
`undefined`, which `res.json` leaves out. -/
theorem getJob_unknown_status_absent :
    (restServer strictRuntime (fixedLedger ReceiptStatus.success) (RestRequest.job "1")
      ({ freshJob with status := 5 }, 0)).response =
      ⟨200, Body.json
        [("jobId", JsVal.str "1"),
         ("employer", JsVal.str "0x1111111111111111111111111111111111111111"),
         ("worker", JsVal.str "0x2222222222222222222222222222222222222222"),
         ("amount", JsVal.str "0.01"),
         ("deadline", JsVal.str "2033-05-18T03:33:20.000Z"),
         ("deliverable", JsVal.str ""),
         ("disputeTime", JsVal.null)]⟩ ∧
    (restServer strictRuntime (fixedLedger ReceiptStatus.success) (RestRequest.job "1")
      ({ freshJob with status := 5 }, 0)).response.body.property "status" =
        JsVal.undefined := by
  decide

theorem isoOfSeconds_ok (seconds : Int) (h : seconds.natAbs ≤ 8640000000000) :
    isoOfSeconds seconds = .ok (isoString (dateFields (seconds * 1000))) := by
  have hclip : timeClip (seconds * 1000) = some (seconds * 1000) := by
    unfold timeClip
    rw [if_neg]
    have : maxTimeValue.natAbs = 8640000000000000 := rfl
    omega
  simp [isoOfSeconds, toISOString, hclip]

/-- **C4, counterexample.** For the job `freshJob` (status code 0, empty deliverable)
`get_job_status` answers with `isError` and neither a status nor a deliverable, although
the ledger returned the job; and for such a job whose deadline lies beyond the range of
`Date`, `GET /job/:id` answers 500 with no status at all. -/
theorem fresh_job_query_fails :
    freshJob.status = 0 ∧ freshJob.deliverable = "" ∧
    (callTool strictRuntime 0 (fixedLedger ReceiptStatus.success)
      (ToolCall.get_job_status ⟨JsVal.num 1⟩) (freshJob, 0)).response =
        ⟨Body.caught JsError.typeError, true⟩ ∧
    (callTool strictRuntime 0 (fixedLedger ReceiptStatus.success)
      (ToolCall.get_job_status ⟨JsVal.num 1⟩) (freshJob, 0)).trace =
        [Event.read ⟨"getJob", [JsVal.bigint 1], none⟩] ∧
    (callTool strictRuntime 0 (fixedLedger ReceiptStatus.success)
      (ToolCall.get_job_status ⟨JsVal.num 1⟩) (freshJob, 0)).response.payload.property
        "status" = JsVal.undefined ∧
    (restServer strictRuntime (fixedLedger ReceiptStatus.success) (RestRequest.job "1")
      ({ freshJob with deadline := 8640000000001 }, 0)).response =
        ⟨500, Body.caught JsError.rangeError⟩ := by
  decide

/-- **C4, amended.** For every raw ledger snapshot whose status code is 0, whose
deliverable is the empty string and whose two timestamps are within the range of
`Date` (at most 8 640 000 000 000 seconds), `GET /job/:id` answers 200 with status
`Created` and deliverable `""`. -/
theorem fresh_job_query {σ : Type} (R : Runtime) (L : Ledger σ) (s s1 : σ)
    (id : String) (jobId : Int) (job : RawJob)
    (hid : toBigInt (JsVal.str id) = .ok jobId)
    (hrest : L.readJob s ⟨"jobs", [JsVal.bigint jobId], none⟩ = (.ok job, s1))
    (hstatus : job.status = 0) (hdeliverable : job.deliverable = "")
    (hdeadline : job.deadline ≤ 8640000000000) (hdispute : job.disputeTime ≤ 8640000000000) :
    (restServer R L (RestRequest.job id) s).response.status = 200 ∧
    (restServer R L (RestRequest.job id) s).response.body.property "status" =
      JsVal.str "Created" ∧
    (restServer R L (RestRequest.job id) s).response.body.property "deliverable" =
      JsVal.str "" := by
  have hd1 := isoOfSeconds_ok (job.deadline : Int) (by omega)
  have hd2 := isoOfSeconds_ok (job.disputeTime : Int) (by omega)
  have hrestObj : ∃ dispute, dispute ≠ JsVal.undefined ∧ getJobObject jobId job = .ok
      [("jobId", JsVal.str (bigIntToString jobId)), ("employer", JsVal.str job.employer),
       ("worker", JsVal.str job.worker), ("amount", JsVal.str (formatEther job.amount)),
       ("deadline", JsVal.str (isoString (dateFields ((job.deadline : Int) * 1000)))),
       ("status", JsVal.str "Created"), ("deliverable", JsVal.str ""),
       ("disputeTime", dispute)] := by
    unfold getJobObject
    rw [hd1, hstatus, hdeliverable]
    by_cases hpos : job.disputeTime > 0
    · refine ⟨JsVal.str (isoString (dateFields ((job.disputeTime : Int) * 1000))), by simp, ?_⟩
      simp only [hpos, if_true, hd2]
      rfl
    · refine ⟨JsVal.null, by simp, ?_⟩
      simp only [hpos, if_false]
      rfl
  obtain ⟨dispute, hdne, hobj⟩ := hrestObj
  have hR : (restServer R L (RestRequest.job id) s).response = ⟨200, Body.json (jsonProperties
      [("jobId", JsVal.str (bigIntToString jobId)), ("employer", JsVal.str job.employer),
       ("worker", JsVal.str job.worker), ("amount", JsVal.str (formatEther job.amount)),
       ("deadline", JsVal.str (isoString (dateFields ((job.deadline : Int) * 1000)))),
       ("status", JsVal.str "Created"), ("deliverable", JsVal.str ""),
       ("disputeTime", dispute)])⟩ := by
    show (getJob L id s).response = _
    rcases getJob_outcome L id s with ⟨e, he, _⟩ | ⟨j, hj, ⟨e, s3, he, _⟩ | ⟨job3, s3, hj3, ho⟩⟩
    · rw [hid] at he
      cases he
    · rw [hid] at hj
      cases hj
      rw [hrest] at he
      cases he
    · rw [hid] at hj
      cases hj
      rw [hrest] at hj3
      cases hj3
      rw [ho, hobj]
  rw [hR]
  have hdne2 : (dispute != JsVal.undefined) = true := by simpa using hdne
  refine ⟨rfl, ?_, ?_⟩ <;>
    simp [Body.property, JsObject.get, jsonProperties, List.filter, List.lookup, hdne2]

/-- Witness of `fresh_job_query`: the job `freshJob` on the ledger `fixedLedger`. -/
theorem fresh_job_query_witness :
    (restServer strictRuntime (fixedLedger ReceiptStatus.success) (RestRequest.job "1")
      (freshJob, 0)).response.status = 200 ∧
    (restServer strictRuntime (fixedLedger ReceiptStatus.success) (RestRequest.job "1")
      (freshJob, 0)).response.body.property "status" = JsVal.str "Created" ∧
    (restServer strictRuntime (fixedLedger ReceiptStatus.success) (RestRequest.job "1")
      (freshJob, 0)).response.body.property "deliverable" = JsVal.str "" :=
  fresh_job_query strictRuntime (fixedLedger ReceiptStatus.success) (freshJob, 0)
    (freshJob, 0) "1" 1 freshJob (by decide) rfl rfl rfl (by decide) (by decide)

/-! ## Timestamps (C5) -/

/-- **C5, counterexample.** The timestamp 8 640 000 000 001, an unsigned 256-bit count
of seconds, is one second beyond the range of `Date`: the projection
`new Date(Number(s) * 1000).toISOString()` throws a `RangeError` for it. -/
theorem timestamp_beyond_date_range :
    (8640000000001 : Nat) < 2 ^ 256 ∧
    isoOfSeconds ((8640000000001 : Nat) : Int) = .error JsError.rangeError := by
  constructor
  · norm_num
  · decide

/-- **C5, amended.** For every raw ledger timestamp `s` of at most 8 640 000 000 000
seconds (the range of `Date`), the projection `new Date(Number(s) * 1000).toISOString()`
does not throw, and converting its ISO string back as job creation does,
`BigInt(Math.floor(new Date(iso).getTime() / 1000))`, yields exactly `s`. -/
theorem timestamp_roundtrip (parseOther : String → Option Int) (s : Nat)
    (h : s ≤ 8640000000000) :
    ∃ iso, isoOfSeconds (s : Int) = .ok iso ∧
      deadlineTimestamp parseOther (JsVal.str iso) = .ok (s : Int) := by
  refine ⟨isoString (dateFields ((s : Int) * 1000)), isoOfSeconds_ok _ (by omega), ?_⟩
  have hmax : maxTimeValue.natAbs = 8640000000000000 := rfl
  have hparse := dateParse_isoString parseOther ((s : Int) * 1000) (by omega)
  simp only [deadlineTimestamp, newDate, hparse]
  congr 1
  omega

/-- Witness of `timestamp_roundtrip`: the deadline of `freshJob`, 2 000 000 000. -/
theorem timestamp_roundtrip_witness :
    ∃ iso, isoOfSeconds ((2000000000 : Nat) : Int) = .ok iso ∧
      deadlineTimestamp strictRuntime.parseOther (JsVal.str iso) =
        .ok ((2000000000 : Nat) : Int) :=
  timestamp_roundtrip strictRuntime.parseOther 2000000000 (by decide)

/-! ## Submissions and confirmations (C6, C10) -/

theorem submitOutcome_submissions {σ ρ : Type} {L : Ledger σ} {s : σ} {call : ContractCall}
    {onError : JsError → ρ} {onReceipt : String → Receipt → Except JsError ρ}
    {o : Outcome σ ρ} (h : SubmitOutcome L s call onError onReceipt o) :
    submissions o.trace = 1 ∧ ∃ reply, o.trace.head? = some (Event.write call reply) := by
  rcases h with ⟨e, s1, _, rfl⟩ | ⟨hash, s1, e, s2, _, _, rfl⟩ | ⟨hash, s1, r, s2, _, _, rfl⟩
  · exact ⟨by simp [submissions], _, rfl⟩
  · exact ⟨by simp [submissions], _, rfl⟩
  · exact ⟨by simp [submissions], _, rfl⟩

theorem submitOutcome_response {σ ρ : Type} {L : Ledger σ} {s : σ} {call : ContractCall}
    {onError : JsError → ρ} {onReceipt : String → Receipt → Except JsError ρ}
    {o : Outcome σ ρ} (h : SubmitOutcome L s call onError onReceipt o) :
    (∃ e, o.response = onError e) ∨
    (∃ hash s1 receipt s2, L.writeContract s call = (.ok hash, s1) ∧
      L.waitForTransactionReceipt s1 hash = (.ok receipt, s2) ∧
      onReceipt hash receipt = .ok o.response ∧
      o.trace = [Event.write call (.ok hash), Event.wait hash (.ok receipt)]) := by
  rcases h with ⟨e, s1, _, rfl⟩ | ⟨hash, s1, e, s2, _, _, rfl⟩ | ⟨hash, s1, r, s2, hw, hq, rfl⟩
  · exact Or.inl ⟨e, rfl⟩
  · exact Or.inl ⟨e, rfl⟩
  · cases hk : onReceipt hash r with
    | error e => exact Or.inl ⟨e, rfl⟩
    | ok x => exact Or.inr ⟨hash, s1, r, s2, hw, hq, by simp [hk], rfl⟩

theorem submitOutcome_of_receipt {σ ρ : Type} {L : Ledger σ} {s : σ} {call : ContractCall}
    {onError : JsError → ρ} {onReceipt : String → Receipt → Except JsError ρ}
    {o : Outcome σ ρ} (h : SubmitOutcome L s call onError onReceipt o)
    {hash : String} {s1 : σ} {receipt : Receipt} {s2 : σ} {r : ρ}
    (hw : L.writeContract s call = (.ok hash, s1))
    (hq : L.waitForTransactionReceipt s1 hash = (.ok receipt, s2))
    (hr : onReceipt hash receipt = .ok r) : o.response = r := by
  rcases h with ⟨e, s3, hw2, _⟩ | ⟨h2, s3, e, s4, hw2, hq2, _⟩ | ⟨h2, s3, r2, s4, hw2, hq2, rfl⟩
  · rw [hw] at hw2
    cases hw2
  · rw [hw] at hw2
    cases hw2
    rw [hq] at hq2
    cases hq2
  · rw [hw] at hw2
    cases hw2
    rw [hq] at hq2
    cases hq2
    simp [hr]

theorem confirmed_of_trace {trace : List Event} {call : ContractCall} {hash : String}
    {receipt : Receipt}
    (h : trace = [Event.write call (.ok hash), Event.wait hash (.ok receipt)]) :
    Confirmed trace :=
  ⟨call, hash, receipt, by simp [h], by simp [h]⟩

theorem confirmed_cons {trace : List Event} (e : Event) (h : Confirmed trace) :
    Confirmed (e :: trace) := by
  obtain ⟨call, hash, receipt, h1, h2⟩ := h
  exact ⟨call, hash, receipt, List.mem_cons_of_mem _ h1, List.mem_cons_of_mem _ h2⟩

theorem internalError_not_success (e : JsError) :
    (internalError e).body.reportsSuccess = false := rfl

theorem toolError_not_success (e : JsError) :
    (toolError e).payload.reportsSuccess = false := rfl

theorem successObject_success (hash : String) :
    (Body.json (jsonProperties (successObject hash))).reportsSuccess = true := by
  simp [Body.reportsSuccess, Body.property, JsObject.get, jsonProperties, successObject,
    List.filter, List.lookup]

theorem toolSuccess_success (args : JobArgs) (status hash : String) :
    (toolSuccess args status hash).payload.reportsSuccess = true := by
  simp [toolSuccess, Body.reportsSuccess, Body.property, JsObject.get, jsonProperties,
    List.filter, List.lookup]

/-- A REST handler that submits reports success only after a receipt. -/
theorem rest_submit_confirmed {σ : Type} {L : Ledger σ} {s : σ} {call : ContractCall}
    {onReceipt : String → Receipt → Except JsError HttpResponse}
    {o : Outcome σ HttpResponse} (h : SubmitOutcome L s call internalError onReceipt o)
    (hs : o.response.body.reportsSuccess = true) : Confirmed o.trace := by
  rcases submitOutcome_response h with ⟨e, he⟩ | ⟨hash, s1, receipt, s2, _, _, _, ht⟩
  · rw [he, internalError_not_success] at hs
    cases hs
  · exact confirmed_of_trace ht

/-- A tool that submits reports success only after a receipt. -/
theorem tool_submit_confirmed {σ : Type} {L : Ledger σ} {s : σ} {call : ContractCall}
    {onReceipt : String → Receipt → Except JsError ToolResult}
    {o : Outcome σ ToolResult} (h : SubmitOutcome L s call toolError onReceipt o)
    (hs : o.response.payload.reportsSuccess = true) : Confirmed o.trace := by
  rcases submitOutcome_response h with ⟨e, he⟩ | ⟨hash, s1, receipt, s2, _, _, _, ht⟩
  · rw [he, toolError_not_success] at hs
    cases hs
  · exact confirmed_of_trace ht

theorem toBigInt_str_ok {id : String} {jobId : Int} (h : toBigInt (JsVal.str id) = .ok jobId) :
    stringToBigInt id = some jobId := by
  unfold toBigInt at h
  cases hs : stringToBigInt id with
  | none => simp [hs] at h
  | some v =>
    simp only [hs, Except.ok.injEq] at h
    rw [h]

theorem toBigInt_str_error {id : String} {e : JsError}
    (h : toBigInt (JsVal.str id) = .error e) :
    stringToBigInt id = none ∧ e = JsError.syntaxError := by
  unfold toBigInt at h
  cases hs : stringToBigInt id with
  | none =>
    simp only [hs, Except.error.injEq] at h
    exact ⟨rfl, h.symm⟩
  | some v => simp [hs] at h

theorem getJobObject_not_success (jobId : Int) (job : RawJob) (object : JsObject)
    (h : getJobObject jobId job = .ok object) :
    (Body.json (jsonProperties object)).reportsSuccess = false := by
  unfold getJobObject at h
  cases hd : isoOfSeconds job.deadline with
  | error e => simp [hd, bind, Except.bind] at h
  | ok deadline =>
    by_cases hpos : job.disputeTime > 0
    · cases hq : isoOfSeconds job.disputeTime with
      | error e => simp [hd, hq, hpos, bind, Except.bind, Except.map] at h
      | ok dispute =>
        simp [hd, hq, hpos, bind, Except.bind, Except.map, pure, Except.pure] at h
        subst h
        cases hst : statusMapAt job.status <;>
          simp [Body.reportsSuccess, Body.property, JsObject.get, jsonProperties,
            List.filter, List.lookup, hst]
    · simp [hd, hpos, bind, Except.bind, pure, Except.pure] at h
      subst h
      cases hst : statusMapAt job.status <;>
        simp [Body.reportsSuccess, Body.property, JsObject.get, jsonProperties,
          List.filter, List.lookup, hst]

theorem submitWorkSuccess_success (args : SubmitWorkArgs) (hash : String) :
    (submitWorkSuccess args hash).payload.reportsSuccess = true := by
  simp [submitWorkSuccess, Body.reportsSuccess, Body.property, JsObject.get, jsonProperties,
    List.filter, List.lookup]

theorem caught_cases {σ : Type} (e : JsError) (s1 : σ) (t : List Event)
    (ht : submissions t = 0) :
    submissions (Outcome.mk (internalError e) s1 t).trace = 0 ∧
    (Outcome.mk (internalError e) s1 t).response.body.reportsSuccess = false ∧
    (Outcome.mk (internalError e) s1 t).response.CaughtOrOk :=
  ⟨ht, rfl, Or.inl ⟨e, rfl⟩⟩

theorem simple_receipt_ok (hash : String) (receipt : Receipt) (r : HttpResponse)
    (h : (fun (hash : String) (_ : Receipt) => (Except.ok
      ⟨200, Body.json (jsonProperties (successObject hash))⟩ : Except JsError HttpResponse))
      hash receipt = .ok r) :
    r.status = 200 ∧ ∃ p, r.body = Body.json p := by
  simp only [Except.ok.injEq] at h
  subst h
  exact ⟨rfl, _, rfl⟩

/-- Every request to the REST front door either makes no submission and does not
report success (answering 400 exactly for a missing field, else 500 for a caught
exception or 200), or has no field missing and goes on to one submission. -/
theorem rest_request_cases {σ : Type} (R : Runtime) (L : Ledger σ) (req : RestRequest) (s : σ) :
    (submissions (restServer R L req s).trace = 0 ∧
      (restServer R L req s).response.body.reportsSuccess = false ∧
      ((req.missingField = true ∧ (restServer R L req s).response.status = 400 ∧
          ∃ p, (restServer R L req s).response.body = Body.json p) ∨
       (req.missingField = false ∧ (restServer R L req s).response.CaughtOrOk))) ∨
    (req.missingField = false ∧ ∃ call onReceipt,
      SubmitOutcome L s call internalError onReceipt (restServer R L req s) ∧
      ∀ hash receipt r, onReceipt hash receipt = .ok r →
        r.status = 200 ∧ ∃ p, r.body = Body.json p) := by
  cases req with
  | health =>
    exact Or.inl ⟨rfl, rfl, Or.inr ⟨rfl, Or.inr ⟨rfl, _, rfl⟩⟩⟩
  | job id =>
    show (_ ∧ (getJob L id s).response.body.reportsSuccess = false ∧ _) ∨ _
    rcases getJob_outcome L id s with ⟨e, _, ho⟩ | ⟨j, _, ⟨e, s1, _, ho⟩ | ⟨job, s1, _, ho⟩⟩
    · have hc := caught_cases e s []  rfl
      exact Or.inl ⟨by rw [show restServer R L (RestRequest.job id) s = getJob L id s from rfl, ho]; exact hc.1,
        by rw [ho]; exact hc.2.1,
        Or.inr ⟨rfl, by rw [show restServer R L (RestRequest.job id) s = getJob L id s from rfl, ho]; exact hc.2.2⟩⟩
    · have hc := caught_cases e s1 [Event.read ⟨"jobs", [JsVal.bigint j], none⟩] rfl
      exact Or.inl ⟨by rw [show restServer R L (RestRequest.job id) s = getJob L id s from rfl, ho]; exact hc.1,
        by rw [ho]; exact hc.2.1,
        Or.inr ⟨rfl, by rw [show restServer R L (RestRequest.job id) s = getJob L id s from rfl, ho]; exact hc.2.2⟩⟩
    · rw [show restServer R L (RestRequest.job id) s = getJob L id s from rfl, ho]
      cases hobj : getJobObject j job with
      | error e =>
        exact Or.inl (by
          have hc := caught_cases e s1 [Event.read ⟨"jobs", [JsVal.bigint j], none⟩] rfl
          exact ⟨hc.1, hc.2.1, Or.inr ⟨rfl, hc.2.2⟩⟩)
      | ok object =>
        exact Or.inl ⟨rfl, getJobObject_not_success j job object hobj,
          Or.inr ⟨rfl, Or.inr ⟨rfl, _, rfl⟩⟩⟩
  | jobsCount =>
    rw [show restServer R L RestRequest.jobsCount s = getJobsCount L s from rfl]
    rcases getJobsCount_outcome L s with ⟨e, s1, ho⟩ | ⟨count, s1, ho⟩
    · rw [ho]
      have hc := caught_cases e s1 [Event.read ⟨"jobCount", [], none⟩] rfl
      exact Or.inl ⟨hc.1, hc.2.1, Or.inr ⟨rfl, hc.2.2⟩⟩
    · rw [ho]
      refine Or.inl ⟨rfl, ?_, Or.inr ⟨rfl, Or.inr ⟨rfl, _, rfl⟩⟩⟩
      simp [Body.reportsSuccess, Body.property, JsObject.get, jsonProperties, List.filter,
        List.lookup]
  | create body =>
    rw [show restServer R L (RestRequest.create body) s = postJobCreate R L body s from rfl]
    rcases postJobCreate_outcome R L body s with ⟨hb, ho⟩ |
      ⟨fields, hb, ⟨hm, ho⟩ | ⟨hm, ⟨e, _, ho⟩ | ⟨t, wei, _, _, ho⟩⟩⟩
    · rw [ho, hb]
      have hc := caught_cases JsError.typeError s [] rfl
      exact Or.inl ⟨hc.1, hc.2.1, Or.inr ⟨rfl, hc.2.2⟩⟩
    · rw [ho, hb]
      exact Or.inl ⟨rfl, rfl,
        Or.inl ⟨by simp [RestRequest.missingField, hm], rfl, _, rfl⟩⟩
    · rw [ho, hb]
      have hc := caught_cases e s [] rfl
      exact Or.inl ⟨hc.1, hc.2.1, Or.inr ⟨by simp [RestRequest.missingField, hm], hc.2.2⟩⟩
    · refine Or.inr ⟨by simp [hb, RestRequest.missingField, hm], _, _, ho, ?_⟩
      intro hash receipt r hr
      cases hj : createdJobId receipt with
      | error e => simp [hj, Except.map] at hr
      | ok jobId =>
        simp only [hj, Except.map, Except.ok.injEq] at hr
        subst hr
        exact ⟨rfl, _, rfl⟩
  | submit id body =>
    rw [show restServer R L (RestRequest.submit id body) s = postJobSubmit L id body s from rfl]
    rcases postJobSubmit_outcome L id body s with ⟨e, hid, ho⟩ | ⟨j, hid, hb, ho⟩ |
      ⟨j, fields, hid, hb, hd, ho⟩ | ⟨j, fields, hid, hb, hd, ho⟩
    · rw [ho]
      have hc := caught_cases e s [] rfl
      refine Or.inl ⟨hc.1, hc.2.1, Or.inr ⟨?_, hc.2.2⟩⟩
      cases body <;> simp [RestRequest.missingField, (toBigInt_str_error hid).1]
    · rw [ho, hb]
      have hc := caught_cases JsError.typeError s [] rfl
      exact Or.inl ⟨hc.1, hc.2.1, Or.inr ⟨rfl, hc.2.2⟩⟩
    · rw [ho, hb]
      exact Or.inl ⟨rfl, rfl,
        Or.inl ⟨by simp [RestRequest.missingField, toBigInt_str_ok hid, hd], rfl, _, rfl⟩⟩
    · exact Or.inr ⟨by simp [hb, RestRequest.missingField, hd], _, _, ho, simple_receipt_ok⟩
  | approve id =>
    rcases rest_simple_outcome L "approveWork" id s with ⟨e, _, ho⟩ | ⟨j, _, ho⟩
    · have hc := caught_cases e s [] rfl
      rw [← ho] at hc
      exact Or.inl ⟨hc.1, hc.2.1, Or.inr ⟨rfl, hc.2.2⟩⟩
    · exact Or.inr ⟨rfl, _, _, ho, simple_receipt_ok⟩
  | cancel id =>
    rcases rest_simple_outcome L "cancelJob" id s with ⟨e, _, ho⟩ | ⟨j, _, ho⟩
    · have hc := caught_cases e s [] rfl
      rw [← ho] at hc
      exact Or.inl ⟨hc.1, hc.2.1, Or.inr ⟨rfl, hc.2.2⟩⟩
    · exact Or.inr ⟨rfl, _, _, ho, simple_receipt_ok⟩
  | dispute id =>
    rcases rest_simple_outcome L "disputeJob" id s with ⟨e, _, ho⟩ | ⟨j, _, ho⟩
    · have hc := caught_cases e s [] rfl
      rw [← ho] at hc
      exact Or.inl ⟨hc.1, hc.2.1, Or.inr ⟨rfl, hc.2.2⟩⟩
    · exact Or.inr ⟨rfl, _, _, ho, simple_receipt_ok⟩
  | resolve id =>
    rcases rest_simple_outcome L "resolveDispute" id s with ⟨e, _, ho⟩ | ⟨j, _, ho⟩
    · have hc := caught_cases e s [] rfl
      rw [← ho] at hc
      exact Or.inl ⟨hc.1, hc.2.1, Or.inr ⟨rfl, hc.2.2⟩⟩
    · exact Or.inr ⟨rfl, _, _, ho, simple_receipt_ok⟩

/-- Every tool call either makes no submission and does not report success, or goes on
to one submission, which for `create_escrow` follows the simulation. -/
theorem tool_call_cases {σ : Type} (R : Runtime) (now : Nat) (L : Ledger σ) (call : ToolCall)
    (s : σ) :
    (submissions (callTool R now L call s).trace = 0 ∧
      (callTool R now L call s).response.payload.reportsSuccess = false) ∨
    (∃ c onReceipt, SubmitOutcome L s c toolError onReceipt (callTool R now L call s)) ∨
    (∃ c reply s1 c2 onReceipt o, SubmitOutcome L s1 c2 toolError onReceipt o ∧
      callTool R now L call s = ⟨o.response, o.state, Event.simulate c reply :: o.trace⟩) := by
  cases call with
  | create_escrow args =>
    rw [show callTool R now L (ToolCall.create_escrow args) s =
      tryCatch (create_escrow R now L args) toolError s from rfl]
    rcases create_escrow_outcome R now L args s with ⟨e, _, ho⟩ |
      ⟨deadline, value, _, _, ⟨e, s1, _, ho⟩ | ⟨request, s1, o, _, hsub, ho⟩⟩
    · rw [ho]
      exact Or.inl ⟨rfl, rfl⟩
    · rw [ho]
      exact Or.inl ⟨rfl, rfl⟩
    · exact Or.inr (Or.inr ⟨_, _, s1, request, _, o, hsub, ho⟩)
  | submit_work args =>
    rw [show callTool R now L (ToolCall.submit_work args) s =
      tryCatch (submit_work L args) toolError s from rfl]
    rcases submit_work_outcome L args s with ⟨e, _, ho⟩ | ⟨j, _, ho⟩
    · rw [ho]
      exact Or.inl ⟨rfl, rfl⟩
    · exact Or.inr (Or.inl ⟨_, _, ho⟩)
  | approve_work args =>
    rcases tool_simple_outcome L "approveWork" "Payment released to worker" args s with
      ⟨e, _, ho⟩ | ⟨j, _, ho⟩
    · rw [show callTool R now L (ToolCall.approve_work args) s = _ from ho]
      exact Or.inl ⟨rfl, rfl⟩
    · exact Or.inr (Or.inl ⟨_, _, ho⟩)
  | cancel_job args =>
    rcases tool_simple_outcome L "cancelJob" "Job cancelled, refund issued" args s with
      ⟨e, _, ho⟩ | ⟨j, _, ho⟩
    · rw [show callTool R now L (ToolCall.cancel_job args) s = _ from ho]
      exact Or.inl ⟨rfl, rfl⟩
    · exact Or.inr (Or.inl ⟨_, _, ho⟩)
  | dispute_job args =>
    rcases tool_simple_outcome L "dispute" "Dispute raised - 7 day resolution period started"
      args s with ⟨e, _, ho⟩ | ⟨j, _, ho⟩
    · rw [show callTool R now L (ToolCall.dispute_job args) s = _ from ho]
      exact Or.inl ⟨rfl, rfl⟩
    · exact Or.inr (Or.inl ⟨_, _, ho⟩)
  | resolve_dispute args =>
    rcases tool_simple_outcome L "resolveDisputedJob"
      "Dispute resolved, funds returned to employer" args s with ⟨e, _, ho⟩ | ⟨j, _, ho⟩
    · rw [show callTool R now L (ToolCall.resolve_dispute args) s = _ from ho]
      exact Or.inl ⟨rfl, rfl⟩
    · exact Or.inr (Or.inl ⟨_, _, ho⟩)
  | get_job_status args =>
    rw [show callTool R now L (ToolCall.get_job_status args) s =
      tryCatch (get_job_status L args) toolError s from rfl]
    rcases get_job_status_outcome L args s with ⟨e, _, ho⟩ |
      ⟨j, _, ⟨e, s1, _, ho⟩ | ⟨job, s1, _, ho⟩⟩
    · rw [ho]
      exact Or.inl ⟨rfl, rfl⟩
    · rw [ho]
      exact Or.inl ⟨rfl, rfl⟩
    · rw [ho]
      exact Or.inl ⟨rfl, rfl⟩
  | other name => exact Or.inl ⟨rfl, rfl⟩

/-- **C10.** For every request, every tool call and every behaviour of the ledger
(the submission resolves or throws, the wait for the receipt resolves or throws), a
handler of either front door calls the submit operation `writeContract` at most once:
nothing is resubmitted. -/
theorem submit_at_most_once {σ : Type} (R : Runtime) (now : Nat) (L : Ledger σ) (s : σ) :
    (∀ req : RestRequest, submissions (restServer R L req s).trace ≤ 1) ∧
    (∀ call : ToolCall, submissions (callTool R now L call s).trace ≤ 1) := by
  constructor
  · intro req
    rcases rest_request_cases R L req s with ⟨h0, _⟩ | ⟨_, c, k, ho, _⟩
    · omega
    · exact le_of_eq (submitOutcome_submissions ho).1
  · intro call
    rcases tool_call_cases R now L call s with ⟨h0, _⟩ | ⟨c, k, ho⟩ |
      ⟨c, reply, s1, c2, k, o, ho, heq⟩
    · omega
    · exact le_of_eq (submitOutcome_submissions ho).1
    · rw [heq]
      have := (submitOutcome_submissions ho).1
      simpa [submissions] using le_of_eq this

/-- **C6, counterexample.** On a ledger that accepts the submission and whose receipt
reports the transaction as reverted, `POST /job/1/approve` and `approve_work` both
answer with `success: true`. -/
theorem reverted_receipt_reports_success :
    (restServer strictRuntime (fixedLedger ReceiptStatus.reverted) (RestRequest.approve "1")
      (freshJob, 0)).response.body.reportsSuccess = true ∧
    (restServer strictRuntime (fixedLedger ReceiptStatus.reverted) (RestRequest.approve "1")
      (freshJob, 0)).trace =
      [Event.write ⟨"approveWork", [JsVal.bigint 1], none⟩ (.ok "0xabc"),
       Event.wait "0xabc" (.ok ⟨ReceiptStatus.reverted, []⟩)] ∧
    (callTool strictRuntime 0 (fixedLedger ReceiptStatus.reverted)
      (ToolCall.approve_work ⟨JsVal.num 1⟩) (freshJob, 0)).response.payload.reportsSuccess =
        true ∧
    (callTool strictRuntime 0 (fixedLedger ReceiptStatus.reverted)
      (ToolCall.approve_work ⟨JsVal.num 1⟩) (freshJob, 0)).trace =
      [Event.write ⟨"approveWork", [JsVal.bigint 1], none⟩ (.ok "0xabc"),
       Event.wait "0xabc" (.ok ⟨ReceiptStatus.reverted, []⟩)] := by
  decide

/-- **C6, amended.** For every request and tool call and every answer of the ledger,
the response reports `success: true` only when the submission returned a transaction
hash and the wait for its receipt returned a receipt.  The status of the receipt is
not read: approve, on either front door, reports success exactly when the job id
converts to an integer, the submission returns a hash and the wait returns a receipt,
whatever that receipt says. -/
theorem success_only_after_receipt {σ : Type} (R : Runtime) (now : Nat) (L : Ledger σ) (s : σ) :
    (∀ req : RestRequest, (restServer R L req s).response.body.reportsSuccess = true →
      Confirmed (restServer R L req s).trace) ∧
    (∀ call : ToolCall, (callTool R now L call s).response.payload.reportsSuccess = true →
      Confirmed (callTool R now L call s).trace) ∧
    (∀ id : String,
      (restServer R L (RestRequest.approve id) s).response.body.reportsSuccess = true ↔
      ∃ jobId hash s1 receipt s2, toBigInt (JsVal.str id) = .ok jobId ∧
        L.writeContract s ⟨"approveWork", [JsVal.bigint jobId], none⟩ = (.ok hash, s1) ∧
        L.waitForTransactionReceipt s1 hash = (.ok receipt, s2)) ∧
    (∀ args : JobArgs,
      (callTool R now L (ToolCall.approve_work args) s).response.payload.reportsSuccess = true ↔
      ∃ jobId hash s1 receipt s2, toBigInt args.job_id = .ok jobId ∧
        L.writeContract s ⟨"approveWork", [JsVal.bigint jobId], none⟩ = (.ok hash, s1) ∧
        L.waitForTransactionReceipt s1 hash = (.ok receipt, s2)) := by
  refine ⟨?_, ?_, ?_, ?_⟩
  · intro req hs
    rcases rest_request_cases R L req s with ⟨_, hf, _⟩ | ⟨_, c, k, ho, _⟩
    · rw [hf] at hs
      cases hs
    · exact rest_submit_confirmed ho hs
  · intro call hs
    rcases tool_call_cases R now L call s with ⟨_, hf⟩ | ⟨c, k, ho⟩ |
      ⟨c, reply, s1, c2, k, o, ho, heq⟩
    · rw [hf] at hs
      cases hs
    · exact tool_submit_confirmed ho hs
    · rw [heq] at hs ⊢
      exact confirmed_cons _ (tool_submit_confirmed ho hs)
  · intro id
    constructor
    · intro hs
      rcases rest_simple_outcome L "approveWork" id s with ⟨e, _, ho⟩ | ⟨j, hj, ho⟩
      · rw [show restServer R L (RestRequest.approve id) s = _ from ho] at hs
        cases hs
      · rcases submitOutcome_response ho with ⟨e, he⟩ | ⟨hash, s1, receipt, s2, hw, hq, _, _⟩
        · rw [show (restServer R L (RestRequest.approve id) s).response = _ from he] at hs
          cases hs
        · exact ⟨j, hash, s1, receipt, s2, hj, hw, hq⟩
    · rintro ⟨j, hash, s1, receipt, s2, hj, hw, hq⟩
      rcases rest_simple_outcome L "approveWork" id s with ⟨e, he, _⟩ | ⟨j2, hj2, ho⟩
      · rw [hj] at he
        cases he
      · rw [hj] at hj2
        cases hj2
        rw [show (restServer R L (RestRequest.approve id) s).response = _ from
          submitOutcome_of_receipt ho hw hq rfl]
        exact successObject_success hash
  · intro args
    constructor
    · intro hs
      rcases tool_simple_outcome L "approveWork" "Payment released to worker" args s with
        ⟨e, _, ho⟩ | ⟨j, hj, ho⟩
      · rw [show callTool R now L (ToolCall.approve_work args) s = _ from ho] at hs
        cases hs
      · rcases submitOutcome_response ho with ⟨e, he⟩ | ⟨hash, s1, receipt, s2, hw, hq, _, _⟩
        · rw [show (callTool R now L (ToolCall.approve_work args) s).response = _ from he] at hs
          cases hs
        · exact ⟨j, hash, s1, receipt, s2, hj, hw, hq⟩
    · rintro ⟨j, hash, s1, receipt, s2, hj, hw, hq⟩
      rcases tool_simple_outcome L "approveWork" "Payment released to worker" args s with
        ⟨e, he, _⟩ | ⟨j2, hj2, ho⟩
      · rw [hj] at he
        cases he
      · rw [hj] at hj2
        cases hj2
        rw [show (callTool R now L (ToolCall.approve_work args) s).response = _ from
          submitOutcome_of_receipt ho hw hq rfl]
        exact toolSuccess_success args _ hash

/-! ## Cancelling a job (C7) -/

theorem submitOutcome_no_read {σ ρ : Type} {L : Ledger σ} {s : σ} {call : ContractCall}
    {onError : JsError → ρ} {onReceipt : String → Receipt → Except JsError ρ}
    {o : Outcome σ ρ} (h : SubmitOutcome L s call onError onReceipt o) (c : ContractCall) :
    Event.read c ∉ o.trace := by
  rcases h with ⟨e, s1, _, rfl⟩ | ⟨hash, s1, e, s2, _, _, rfl⟩ | ⟨hash, s1, r, s2, _, _, rfl⟩ <;>
    simp

/-- **C7, counterexample.** One second before the deadline of the job `freshJob`, whose
status is Created, `POST /job/1/cancel` and `cancel_job` both submit `cancelJob(1)` to
the ledger without reading the job or the clock, and on a ledger whose receipt reports
the transaction as reverted both answer with `success: true`. -/
theorem cancel_before_deadline_submits :
    freshJob.status = 0 ∧ 1999999999 + 1 = freshJob.deadline ∧
    (restServer strictRuntime (fixedLedger ReceiptStatus.reverted) (RestRequest.cancel "1")
      (freshJob, 1999999999)).response.body.reportsSuccess = true ∧
    (restServer strictRuntime (fixedLedger ReceiptStatus.reverted) (RestRequest.cancel "1")
      (freshJob, 1999999999)).trace =
      [Event.write ⟨"cancelJob", [JsVal.bigint 1], none⟩ (.ok "0xabc"),
       Event.wait "0xabc" (.ok ⟨ReceiptStatus.reverted, []⟩)] ∧
    (callTool strictRuntime 1999999999000 (fixedLedger ReceiptStatus.reverted)
      (ToolCall.cancel_job ⟨JsVal.num 1⟩) (freshJob, 1999999999)).response.payload.reportsSuccess
        = true ∧
    (callTool strictRuntime 1999999999000 (fixedLedger ReceiptStatus.reverted)
      (ToolCall.cancel_job ⟨JsVal.num 1⟩) (freshJob, 1999999999)).trace =
      [Event.write ⟨"cancelJob", [JsVal.bigint 1], none⟩ (.ok "0xabc"),
       Event.wait "0xabc" (.ok ⟨ReceiptStatus.reverted, []⟩)] := by
  decide

/-- **C7, amended.** For every job, every current time and every ledger, the cancel
operation of either front door reads neither the job nor the clock before it submits:
it submits exactly when its job id converts to an integer (`BigInt` of the path
segment, of the argument `job_id`), and then once, and the call is `cancelJob(jobId)`.
It reports success only when that submission returned a hash and the wait for its
receipt returned a receipt; an answer that does not report success is the answer to a
caught exception.  Whether the deadline has passed and the job is Created is left to
the ledger. -/
theorem cancel_checks_nothing {σ : Type} (R : Runtime) (now : Nat) (L : Ledger σ) (s : σ) :
    (∀ id : String,
      (submissions (restServer R L (RestRequest.cancel id) s).trace = 1 ↔
        ∃ jobId, toBigInt (JsVal.str id) = .ok jobId) ∧
      (∀ jobId, toBigInt (JsVal.str id) = .ok jobId →
        ∃ reply, (restServer R L (RestRequest.cancel id) s).trace.head? =
          some (Event.write ⟨"cancelJob", [JsVal.bigint jobId], none⟩ reply)) ∧
      (∀ c, Event.read c ∉ (restServer R L (RestRequest.cancel id) s).trace) ∧
      ((restServer R L (RestRequest.cancel id) s).response.body.reportsSuccess = true →
        ∃ jobId hash s1 receipt s2, toBigInt (JsVal.str id) = .ok jobId ∧
          L.writeContract s ⟨"cancelJob", [JsVal.bigint jobId], none⟩ = (.ok hash, s1) ∧
          L.waitForTransactionReceipt s1 hash = (.ok receipt, s2)) ∧
      ((restServer R L (RestRequest.cancel id) s).response.body.reportsSuccess = true ∨
        ∃ e, (restServer R L (RestRequest.cancel id) s).response = internalError e)) ∧
    (∀ args : JobArgs,
      (submissions (callTool R now L (ToolCall.cancel_job args) s).trace = 1 ↔
        ∃ jobId, toBigInt args.job_id = .ok jobId) ∧
      (∀ jobId, toBigInt args.job_id = .ok jobId →
        ∃ reply, (callTool R now L (ToolCall.cancel_job args) s).trace.head? =
          some (Event.write ⟨"cancelJob", [JsVal.bigint jobId], none⟩ reply)) ∧
      (∀ c, Event.read c ∉ (callTool R now L (ToolCall.cancel_job args) s).trace) ∧
      ((callTool R now L (ToolCall.cancel_job args) s).response.payload.reportsSuccess = true →
        ∃ jobId hash s1 receipt s2, toBigInt args.job_id = .ok jobId ∧
          L.writeContract s ⟨"cancelJob", [JsVal.bigint jobId], none⟩ = (.ok hash, s1) ∧
          L.waitForTransactionReceipt s1 hash = (.ok receipt, s2)) ∧
      ((callTool R now L (ToolCall.cancel_job args) s).response.payload.reportsSuccess = true ∨
        ∃ e, (callTool R now L (ToolCall.cancel_job args) s).response = toolError e)) := by
  constructor
  · intro id
    rcases rest_simple_outcome L "cancelJob" id s with ⟨e, he, ho⟩ | ⟨j, hj, ho⟩
    · have ho2 : restServer R L (RestRequest.cancel id) s = ⟨internalError e, s, []⟩ := ho
      rw [ho2]
      have hfalse : (Outcome.mk (internalError e) s ([] : List Event)).response.body.reportsSuccess
          = false := rfl
      have hzero : submissions (Outcome.mk (internalError e) s ([] : List Event)).trace = 0 := rfl
      refine ⟨⟨?_, ?_⟩, ?_, by simp, ?_, Or.inr ⟨e, rfl⟩⟩
      · intro h
        rw [hzero] at h
        cases h
      · rintro ⟨j, hj⟩
        rw [he] at hj
        cases hj
      · intro j hj
        rw [he] at hj
        cases hj
      · intro h
        rw [hfalse] at h
        cases h
    · have ho2 : SubmitOutcome L s ⟨"cancelJob", [JsVal.bigint j], none⟩ internalError _
        (restServer R L (RestRequest.cancel id) s) := ho
      refine ⟨⟨fun _ => ⟨j, hj⟩, fun _ => (submitOutcome_submissions ho2).1⟩, ?_,
        submitOutcome_no_read ho2, ?_, ?_⟩
      · intro j2 hj2
        rw [hj] at hj2
        cases hj2
        exact (submitOutcome_submissions ho2).2
      · intro hs
        rcases submitOutcome_response ho2 with ⟨e, he⟩ | ⟨hash, s1, receipt, s2, hw, hq, _, _⟩
        · rw [he] at hs
          cases hs
        · exact ⟨j, hash, s1, receipt, s2, hj, hw, hq⟩
      · rcases submitOutcome_response ho2 with ⟨e, he⟩ | ⟨hash, s1, receipt, s2, _, _, hr, _⟩
        · exact Or.inr ⟨e, he⟩
        · left
          simp only [Except.ok.injEq] at hr
          rw [← hr]
          exact successObject_success hash
  · intro args
    rcases tool_simple_outcome L "cancelJob" "Job cancelled, refund issued" args s with
      ⟨e, he, ho⟩ | ⟨j, hj, ho⟩
    · have ho2 : callTool R now L (ToolCall.cancel_job args) s = ⟨toolError e, s, []⟩ := ho
      rw [ho2]
      have hfalse : (Outcome.mk (toolError e) s ([] : List Event)).response.payload.reportsSuccess
          = false := rfl
      have hzero : submissions (Outcome.mk (toolError e) s ([] : List Event)).trace = 0 := rfl
      refine ⟨⟨?_, ?_⟩, ?_, by simp, ?_, Or.inr ⟨e, rfl⟩⟩
      · intro h
        rw [hzero] at h
        cases h
      · rintro ⟨j, hj⟩
        rw [he] at hj
        cases hj
      · intro j hj
        rw [he] at hj
        cases hj
      · intro h
        rw [hfalse] at h
        cases h
    · have ho2 : SubmitOutcome L s ⟨"cancelJob", [JsVal.bigint j], none⟩ toolError _
        (callTool R now L (ToolCall.cancel_job args) s) := ho
      refine ⟨⟨fun _ => ⟨j, hj⟩, fun _ => (submitOutcome_submissions ho2).1⟩, ?_,
        submitOutcome_no_read ho2, ?_, ?_⟩
      · intro j2 hj2
        rw [hj] at hj2
        cases hj2
        exact (submitOutcome_submissions ho2).2
      · intro hs
        rcases submitOutcome_response ho2 with ⟨e, he⟩ | ⟨hash, s1, receipt, s2, hw, hq, _, _⟩
        · rw [he] at hs
          cases hs
        · exact ⟨j, hash, s1, receipt, s2, hj, hw, hq⟩
      · rcases submitOutcome_response ho2 with ⟨e, he⟩ | ⟨hash, s1, receipt, s2, _, _, hr, _⟩
        · exact Or.inr ⟨e, he⟩
        · left
          simp only [Except.ok.injEq] at hr
          rw [← hr]
          exact toolSuccess_success args _ hash

/-! ## Creating a job (C8) -/

/-- **C8, counterexample.** `POST /job/create` with amount `"0"` and a deadline of
2 January 1970 submits `createJob` with value 0 and deadline 86400, and `create_escrow`
with amount `"0"` and `deadline_hours` −1 submits `createJob` with value 0 and a
deadline one hour before the current time: neither is rejected. -/
theorem create_zero_amount_past_deadline_submits :
    (restServer strictRuntime (fixedLedger ReceiptStatus.success)
      (RestRequest.create (some
        [("worker", JsVal.str "0x2222222222222222222222222222222222222222"),
         ("deadline", JsVal.str "1970-01-02T00:00:00.000Z"), ("amount", JsVal.str "0")]))
      (freshJob, 1762290000)).trace =
      [Event.write ⟨"createJob", [JsVal.str "0x2222222222222222222222222222222222222222",
          JsVal.bigint 86400], some 0⟩ (.ok "0xabc"),
       Event.wait "0xabc" (.ok ⟨ReceiptStatus.success, []⟩)] ∧
    (callTool strictRuntime 1762290000000 (fixedLedger ReceiptStatus.success)
      (ToolCall.create_escrow ⟨JsVal.str "0x2222222222222222222222222222222222222222",
        JsVal.str "0", JsVal.num (-1)⟩)
      (freshJob, 1762290000)).trace =
      [Event.simulate ⟨"createJob", [JsVal.str "0x2222222222222222222222222222222222222222",
          JsVal.bigint 1762286400], some 0⟩
          (.ok ⟨"createJob", [JsVal.str "0x2222222222222222222222222222222222222222",
            JsVal.bigint 1762286400], some 0⟩),
       Event.write ⟨"createJob", [JsVal.str "0x2222222222222222222222222222222222222222",
          JsVal.bigint 1762286400], some 0⟩ (.ok "0xabc"),
       Event.wait "0xabc" (.ok ⟨ReceiptStatus.success, []⟩)] ∧
    (1762286400 : Int) < 1762290000 := by
  decide

/-- **C8, amended.** `POST /job/create` submits exactly when its body was parsed,
`worker`, `deadline` and `amount` are all present and truthy, the deadline converts to
a time and the text of the amount is a decimal number; the call it submits is then
`createJob(worker, deadline)` with that amount as value, whatever they are.
`create_escrow` submits exactly when `deadline_hours` gives an integral deadline,
`amount_eth` is a string that is a decimal number and the simulation of
`createJob(worker_address, deadline)` with that value returns a request; the call it
submits is then that request.  Neither compares the amount with 0 or the deadline with
the current time. -/
theorem create_submits_unchecked {σ : Type} (R : Runtime) (now : Nat) (L : Ledger σ) (s : σ) :
    (∀ body : Option JsObject,
      (submissions (restServer R L (RestRequest.create body) s).trace = 1 ↔
        ∃ fields t wei, body = some fields ∧
          (truthy (fields.get "worker") && truthy (fields.get "deadline") &&
            truthy (fields.get "amount")) = true ∧
          deadlineTimestamp R.parseOther (fields.get "deadline") = .ok t ∧
          (jsToString R.numberToString (fields.get "amount")).bind
            (parseEther R.roundNumber) = some wei) ∧
      (∀ fields t wei, body = some fields →
        (truthy (fields.get "worker") && truthy (fields.get "deadline") &&
          truthy (fields.get "amount")) = true →
        deadlineTimestamp R.parseOther (fields.get "deadline") = .ok t →
        (jsToString R.numberToString (fields.get "amount")).bind
          (parseEther R.roundNumber) = some wei →
        ∃ reply, (restServer R L (RestRequest.create body) s).trace.head? = some
          (Event.write ⟨"createJob", [fields.get "worker", JsVal.bigint t], some wei⟩ reply))) ∧
    (∀ args : CreateEscrowArgs,
      (submissions (callTool R now L (ToolCall.create_escrow args) s).trace = 1 ↔
        ∃ deadline value request s1,
          deadlineOfHours R now args.deadline_hours = .ok deadline ∧
          parseEtherValue R args.amount_eth = .ok value ∧
          L.simulateContract s
            ⟨"createJob", [args.worker_address, JsVal.bigint deadline], some value⟩ =
            (.ok request, s1)) ∧
      (∀ deadline value request s1,
        deadlineOfHours R now args.deadline_hours = .ok deadline →
        parseEtherValue R args.amount_eth = .ok value →
        L.simulateContract s
          ⟨"createJob", [args.worker_address, JsVal.bigint deadline], some value⟩ =
          (.ok request, s1) →
        ∃ reply rest, (callTool R now L (ToolCall.create_escrow args) s).trace =
          Event.simulate
            ⟨"createJob", [args.worker_address, JsVal.bigint deadline], some value⟩
            (.ok request) :: Event.write request reply :: rest)) := by
  constructor
  · intro body
    rw [show restServer R L (RestRequest.create body) s = postJobCreate R L body s from rfl]
    rcases postJobCreate_outcome R L body s with ⟨hb, ho⟩ |
      ⟨fields, hb, ⟨hm, ho⟩ | ⟨hm, ⟨e, hbad, ho⟩ | ⟨t, wei, ht, hw, ho⟩⟩⟩
    · rw [ho]
      refine ⟨⟨?_, ?_⟩, ?_⟩
      · intro h
        simp [submissions] at h
      · rintro ⟨fields, _, _, hb2, _⟩
        rw [hb] at hb2
        cases hb2
      · intro fields _ _ hb2
        rw [hb] at hb2
        cases hb2
    · rw [ho]
      refine ⟨⟨?_, ?_⟩, ?_⟩
      · intro h
        simp [submissions] at h
      · rintro ⟨fields2, _, _, hb2, hm2, _⟩
        rw [hb] at hb2
        cases hb2
        rw [hm] at hm2
        cases hm2
      · intro fields2 _ _ hb2 hm2
        rw [hb] at hb2
        cases hb2
        rw [hm] at hm2
        cases hm2
    · rw [ho]
      refine ⟨⟨?_, ?_⟩, ?_⟩
      · intro h
        simp [submissions] at h
      · rintro ⟨fields2, t, wei, hb2, _, ht, hw⟩
        rw [hb] at hb2
        cases hb2
        rcases hbad with hbad | ⟨_, hbad⟩
        · rw [ht] at hbad
          cases hbad
        · rw [hw] at hbad
          cases hbad
      · intro fields2 t wei hb2 _ ht hw
        rw [hb] at hb2
        cases hb2
        rcases hbad with hbad | ⟨_, hbad⟩
        · rw [ht] at hbad
          cases hbad
        · rw [hw] at hbad
          cases hbad
    · obtain ⟨h1, reply, hhead⟩ := submitOutcome_submissions ho
      refine ⟨⟨fun _ => ⟨fields, t, wei, hb, hm, ht, hw⟩, fun _ => h1⟩, ?_⟩
      intro fields2 t2 wei2 hb2 _ ht2 hw2
      rw [hb] at hb2
      cases hb2
      rw [ht] at ht2
      cases ht2
      rw [hw] at hw2
      cases hw2
      exact ⟨reply, hhead⟩
  · intro args
    rw [show callTool R now L (ToolCall.create_escrow args) s =
      tryCatch (create_escrow R now L args) toolError s from rfl]
    rcases create_escrow_outcome R now L args s with ⟨e, hbad, ho⟩ |
      ⟨deadline, value, hd, hp, ⟨e, s1, hsim, ho⟩ | ⟨request, s1, o, hsim, hsub, ho⟩⟩
    · rw [ho]
      refine ⟨⟨?_, ?_⟩, ?_⟩
      · intro h
        simp [submissions] at h
      · rintro ⟨deadline, value, _, _, hd, hp, _⟩
        rcases hbad with hbad | ⟨_, hbad⟩
        · rw [hd] at hbad
          cases hbad
        · rw [hp] at hbad
          cases hbad
      · intro deadline value _ _ hd hp _
        rcases hbad with hbad | ⟨_, hbad⟩
        · rw [hd] at hbad
          cases hbad
        · rw [hp] at hbad
          cases hbad
    · rw [ho]
      refine ⟨⟨?_, ?_⟩, ?_⟩
      · intro h
        simp [submissions] at h
      · rintro ⟨deadline2, value2, request, s2, hd2, hp2, hsim2⟩
        rw [hd] at hd2
        cases hd2
        rw [hp] at hp2
        cases hp2
        rw [hsim] at hsim2
        cases hsim2
      · intro deadline2 value2 request s2 hd2 hp2 hsim2
        rw [hd] at hd2
        cases hd2
        rw [hp] at hp2
        cases hp2
        rw [hsim] at hsim2
        cases hsim2
    · rw [ho]
      obtain ⟨h1, reply, hhead⟩ := submitOutcome_submissions hsub
      refine ⟨⟨fun _ => ⟨deadline, value, request, s1, hd, hp, hsim⟩, fun _ => ?_⟩, ?_⟩
      · simpa [submissions] using h1
      · intro deadline2 value2 request2 s2 hd2 hp2 hsim2
        rw [hd] at hd2
        cases hd2
        rw [hp] at hp2
        cases hp2
        rw [hsim] at hsim2
        cases hsim2
        cases ht : o.trace with
        | nil => simp [ht] at hhead
        | cons ev rest =>
          simp only [ht, List.head?_cons, Option.some.injEq] at hhead
          exact ⟨reply, rest, by rw [hhead]⟩

/-! ## The HTTP status of a failure (C9) -/

/-- **C9, counterexample.** `GET /job/abc`, whose job id is not an integer, is answered
with status 500, not 400; so is `POST /job/create` with the amount `abc`. -/
theorem malformed_request_answers_500 :
    stringToBigInt "abc" = none ∧
    (restServer strictRuntime (fixedLedger ReceiptStatus.success) (RestRequest.job "abc")
      (freshJob, 0)).response = ⟨500, Body.caught JsError.syntaxError⟩ ∧
    (restServer strictRuntime (fixedLedger ReceiptStatus.success)
      (RestRequest.create (some
        [("worker", JsVal.str "0x2222222222222222222222222222222222222222"),
         ("deadline", JsVal.str "2033-05-18T03:33:20.000Z"), ("amount", JsVal.str "abc")]))
      (freshJob, 0)).response = ⟨500, Body.caught JsError.invalidDecimalNumber⟩ := by
  decide

theorem rest_response_kinds {σ : Type} (R : Runtime) (L : Ledger σ) (req : RestRequest) (s : σ) :
    (req.missingField = true ∧ (restServer R L req s).response.status = 400 ∧
      ∃ p, (restServer R L req s).response.body = Body.json p) ∨
    (req.missingField = false ∧ (restServer R L req s).response.CaughtOrOk) := by
  rcases rest_request_cases R L req s with ⟨_, _, h⟩ | ⟨hm, c, k, ho, hk⟩
  · exact h
  · refine Or.inr ⟨hm, ?_⟩
    rcases submitOutcome_response ho with ⟨e, he⟩ | ⟨hash, s1, receipt, s2, _, _, hr, _⟩
    · exact Or.inl ⟨e, he⟩
    · exact Or.inr (hk hash receipt _ hr)

theorem rest_bad_id {σ : Type} (R : Runtime) (L : Ledger σ) (req : RestRequest) (s : σ)
    (id : String) (hreq : req.jobId = some id) (hid : stringToBigInt id = none) :
    (restServer R L req s).response = internalError JsError.syntaxError := by
  have hbad : ∀ j, toBigInt (JsVal.str id) ≠ .ok j := by
    intro j hj
    rw [toBigInt_str_ok hj] at hid
    cases hid
  cases req with
  | health => cases hreq
  | jobsCount => cases hreq
  | create body => cases hreq
  | job id2 =>
    cases hreq
    rcases getJob_outcome L id s with ⟨e, he, ho⟩ | ⟨j, hj, _⟩
    · rw [show restServer R L (RestRequest.job id) s = getJob L id s from rfl, ho,
        (toBigInt_str_error he).2]
    · exact absurd hj (hbad j)
  | submit id2 body =>
    cases hreq
    rcases postJobSubmit_outcome L id body s with ⟨e, he, ho⟩ | ⟨j, hj, _⟩ |
      ⟨j, _, hj, _⟩ | ⟨j, _, hj, _⟩
    · rw [show restServer R L (RestRequest.submit id body) s = postJobSubmit L id body s
        from rfl, ho, (toBigInt_str_error he).2]
    · exact absurd hj (hbad j)
    · exact absurd hj (hbad j)
    · exact absurd hj (hbad j)
  | approve id2 =>
    cases hreq
    rcases rest_simple_outcome L "approveWork" id s with ⟨e, he, ho⟩ | ⟨j, hj, _⟩
    · rw [show restServer R L (RestRequest.approve id) s = _ from ho,
        (toBigInt_str_error he).2]
    · exact absurd hj (hbad j)
  | cancel id2 =>
    cases hreq
    rcases rest_simple_outcome L "cancelJob" id s with ⟨e, he, ho⟩ | ⟨j, hj, _⟩
    · rw [show restServer R L (RestRequest.cancel id) s = _ from ho,
        (toBigInt_str_error he).2]
    · exact absurd hj (hbad j)
  | dispute id2 =>
    cases hreq
    rcases rest_simple_outcome L "disputeJob" id s with ⟨e, he, ho⟩ | ⟨j, hj, _⟩
    · rw [show restServer R L (RestRequest.dispute id) s = _ from ho,
        (toBigInt_str_error he).2]
    · exact absurd hj (hbad j)
  | resolve id2 =>
    cases hreq
    rcases rest_simple_outcome L "resolveDispute" id s with ⟨e, he, ho⟩ | ⟨j, hj, _⟩
    · rw [show restServer R L (RestRequest.resolve id) s = _ from ho,
        (toBigInt_str_error he).2]
    · exact absurd hj (hbad j)

theorem rest_unparsed_body {σ : Type} (R : Runtime) (L : Ledger σ) (s : σ) :
    (restServer R L (RestRequest.create none) s).response =
      internalError JsError.typeError ∧
    ∀ id, (stringToBigInt id).isSome = true →
      (restServer R L (RestRequest.submit id none) s).response =
        internalError JsError.typeError := by
  constructor
  · rcases postJobCreate_outcome R L none s with ⟨_, ho⟩ | ⟨fields, hb, _⟩
    · rw [show restServer R L (RestRequest.create none) s = postJobCreate R L none s from rfl,
        ho]
    · cases hb
  · intro id hid
    rcases postJobSubmit_outcome L id none s with ⟨e, he, _⟩ | ⟨j, _, _, ho⟩ |
      ⟨j, fields, _, hb, _⟩ | ⟨j, fields, _, hb, _⟩
    · rw [(toBigInt_str_error he).1] at hid
      cases hid
    · rw [show restServer R L (RestRequest.submit id none) s = postJobSubmit L id none s
        from rfl, ho]
    · cases hb
    · cases hb

/-- **C9, amended.** For every request that reaches a handler of the REST front door,
the response has status 200, 400 or 500, never 404, 502 or 504.  The status is 400
exactly when the body was parsed and a required field of it is missing or falsy
(`worker`, `deadline` or `amount` of create; `deliverable` of submit, once the job id
has been converted), and 500 exactly when an exception was caught, which is every other
failure: a job id that is not an integer is answered 500, and so is a create or submit
request whose body was not parsed, whose `req.body` cannot be destructured. -/
theorem rest_failure_status {σ : Type} (R : Runtime) (L : Ledger σ) (s : σ)
    (req : RestRequest) :
    ((restServer R L req s).response.status = 200 ∨
      (restServer R L req s).response.status = 400 ∨
      (restServer R L req s).response.status = 500) ∧
    ((restServer R L req s).response.status = 500 ↔
      ∃ e, (restServer R L req s).response.body = Body.caught e) ∧
    ((restServer R L req s).response.status = 400 ↔ req.missingField = true) ∧
    (∀ id, req.jobId = some id → stringToBigInt id = none →
      (restServer R L req s).response = internalError JsError.syntaxError) ∧
    (req = RestRequest.create none →
      (restServer R L req s).response = internalError JsError.typeError) ∧
    (∀ id, req = RestRequest.submit id none → (stringToBigInt id).isSome = true →
      (restServer R L req s).response = internalError JsError.typeError) := by
  refine ⟨?_, ?_, ?_, fun id h1 h2 => rest_bad_id R L req s id h1 h2, ?_, ?_⟩
  · rcases rest_response_kinds R L req s with ⟨_, h400, _⟩ | ⟨_, ⟨e, he⟩ | ⟨h200, _⟩⟩
    · exact Or.inr (Or.inl h400)
    · exact Or.inr (Or.inr (by rw [he]; rfl))
    · exact Or.inl h200
  · rcases rest_response_kinds R L req s with ⟨_, h400, p, hp⟩ | ⟨_, ⟨e, he⟩ | ⟨h200, p, hp⟩⟩
    · constructor
      · intro h
        rw [h400] at h
        cases h
      · rintro ⟨e, he⟩
        rw [hp] at he
        cases he
    · rw [he]
      exact ⟨fun _ => ⟨e, rfl⟩, fun _ => rfl⟩
    · constructor
      · intro h
        rw [h200] at h
        cases h
      · rintro ⟨e, he⟩
        rw [hp] at he
        cases he
  · rcases rest_response_kinds R L req s with ⟨hm, h400, _⟩ | ⟨hm, ⟨e, he⟩ | ⟨h200, _⟩⟩
    · exact ⟨fun _ => hm, fun _ => h400⟩
    · rw [he, hm]
      constructor
      · intro h
        cases h
      · intro h
        cases h
    · rw [h200, hm]
      constructor
      · intro h
        cases h
      · intro h
        cases h
  · intro hreq
    rw [hreq]
    exact (rest_unparsed_body R L s).1
  · intro id hreq hid
    rw [hreq]
    exact (rest_unparsed_body R L s).2 id hid

/-! ## The calls the two front doors submit (C12) -/

/-- **C12, at the failing input.** For job 1, the two front doors submit the same call
for approve, cancel and submit (`approveWork(1)`, `cancelJob(1)`,
`submitWork(1, "ipfs://abc")`), but for dispute the REST front door submits
`disputeJob(1)` and the tool server `dispute(1)`, and for resolve the REST front door
submits `resolveDispute(1)` and the tool server `resolveDisputedJob(1)`: the function
names differ. -/
theorem dispute_and_resolve_names_differ :
    ((restServer strictRuntime (fixedLedger ReceiptStatus.success) (RestRequest.approve "1")
        (freshJob, 0)).trace.head? =
      (callTool strictRuntime 0 (fixedLedger ReceiptStatus.success)
        (ToolCall.approve_work ⟨JsVal.num 1⟩) (freshJob, 0)).trace.head?) ∧
    ((restServer strictRuntime (fixedLedger ReceiptStatus.success) (RestRequest.cancel "1")
        (freshJob, 0)).trace.head? =
      (callTool strictRuntime 0 (fixedLedger ReceiptStatus.success)
        (ToolCall.cancel_job ⟨JsVal.num 1⟩) (freshJob, 0)).trace.head?) ∧
    ((restServer strictRuntime (fixedLedger ReceiptStatus.success)
        (RestRequest.submit "1" (some [("deliverable", JsVal.str "ipfs://abc")]))
        (freshJob, 0)).trace.head? =
      (callTool strictRuntime 0 (fixedLedger ReceiptStatus.success)
        (ToolCall.submit_work ⟨JsVal.num 1, JsVal.str "ipfs://abc"⟩)
        (freshJob, 0)).trace.head?) ∧
    (restServer strictRuntime (fixedLedger ReceiptStatus.success) (RestRequest.dispute "1")
        (freshJob, 0)).trace.head? =
      some (Event.write ⟨"disputeJob", [JsVal.bigint 1], none⟩ (.ok "0xabc")) ∧
    (callTool strictRuntime 0 (fixedLedger ReceiptStatus.success)
        (ToolCall.dispute_job ⟨JsVal.num 1⟩) (freshJob, 0)).trace.head? =
      some (Event.write ⟨"dispute", [JsVal.bigint 1], none⟩ (.ok "0xabc")) ∧
    (restServer strictRuntime (fixedLedger ReceiptStatus.success) (RestRequest.resolve "1")
        (freshJob, 0)).trace.head? =
      some (Event.write ⟨"resolveDispute", [JsVal.bigint 1], none⟩ (.ok "0xabc")) ∧
    (callTool strictRuntime 0 (fixedLedger ReceiptStatus.success)
        (ToolCall.resolve_dispute ⟨JsVal.num 1⟩) (freshJob, 0)).trace.head? =
      some (Event.write ⟨"resolveDisputedJob", [JsVal.bigint 1], none⟩ (.ok "0xabc")) := by
  decide

/-! ## Processes and handlers: run alone, a process is its handler -/

theorem toEff_pure {σ α : Type} (L : Ledger σ) (a : α) :
    Async.toEff L (pure a : Async α) = (pure a : Eff σ α) := rfl

theorem toEff_ofExcept {σ α : Type} (L : Ledger σ) (r : Except JsError α) :
    Async.toEff L (Async.ofExcept r) = (Eff.ofExcept r : Eff σ α) := rfl

theorem toEff_ofOption {σ α : Type} (L : Ledger σ) (e : JsError) (r : Option α) :
    Async.toEff L (Async.ofOption e r) = (Eff.ofOption e r : Eff σ α) := rfl

theorem toEff_readJob {σ : Type} (L : Ledger σ) (call : ContractCall) :
    Async.toEff L (Async.readJob call) = readJob L call := rfl

theorem toEff_readCount {σ : Type} (L : Ledger σ) (call : ContractCall) :
    Async.toEff L (Async.readCount call) = readCount L call := rfl

theorem toEff_simulateContract {σ : Type} (L : Ledger σ) (call : ContractCall) :
    Async.toEff L (Async.simulateContract call) = simulateContract L call := rfl

theorem toEff_writeContract {σ : Type} (L : Ledger σ) (call : ContractCall) :
    Async.toEff L (Async.writeContract call) = writeContract L call := rfl

theorem toEff_waitForTransactionReceipt {σ : Type} (L : Ledger σ) (hash : String) :
    Async.toEff L (Async.waitForTransactionReceipt hash) = waitForTransactionReceipt L hash :=
  rfl

theorem bind_cons {σ α β : Type} (ev : Event) (o : Outcome σ (Except JsError α))
    (o2 : Outcome σ (Except JsError β)) (g : α → Eff σ β) (s0 : σ)
    (h : (⟨o2.response, o2.state, o2.trace⟩ : Run σ β) =
      Eff.bind (fun _ => ⟨o.response, o.state, o.trace⟩) g s0) :
    (⟨o2.response, o2.state, ev :: o2.trace⟩ : Run σ β) =
      Eff.bind (fun _ => ⟨o.response, o.state, ev :: o.trace⟩) g s0 := by
  rcases o with ⟨r, s1, t1⟩
  rcases o2 with ⟨r2, s2, t2⟩
  cases r with
  | error e =>
    simp only [Eff.bind, Run.mk.injEq] at h ⊢
    exact ⟨h.1, h.2.1, by rw [h.2.2]⟩
  | ok a =>
    simp only [Eff.bind, Run.mk.injEq] at h ⊢
    exact ⟨h.1, h.2.1, by rw [h.2.2]; rfl⟩

theorem run_andThen {σ α β : Type} (L : Ledger σ) (f : α → Proc (Except JsError β))
    (p : Proc (Except JsError α)) (s : σ) :
    Async.toEff L (Proc.andThen f p) s =
      Eff.bind (Async.toEff L p) (fun a => Async.toEff L (f a)) s := by
  induction p generalizing s with
  | done r =>
    cases r with
    | error e => rfl
    | ok a => rfl
  | readJob call resume ih =>
    exact bind_cons (Event.read call) (Proc.run L (resume (L.readJob s call).1) (L.readJob s call).2)
      (Proc.run L (Proc.andThen f (resume (L.readJob s call).1)) (L.readJob s call).2)
      (fun a => Async.toEff L (f a)) (L.readJob s call).2 (ih (L.readJob s call).1 (L.readJob s call).2)
  | readCount call resume ih =>
    exact bind_cons (Event.read call) (Proc.run L (resume (L.readCount s call).1) (L.readCount s call).2)
      (Proc.run L (Proc.andThen f (resume (L.readCount s call).1)) (L.readCount s call).2)
      (fun a => Async.toEff L (f a)) (L.readCount s call).2 (ih (L.readCount s call).1 (L.readCount s call).2)
  | simulate call resume ih =>
    exact bind_cons (Event.simulate call (L.simulateContract s call).1) (Proc.run L (resume (L.simulateContract s call).1) (L.simulateContract s call).2)
      (Proc.run L (Proc.andThen f (resume (L.simulateContract s call).1)) (L.simulateContract s call).2)
      (fun a => Async.toEff L (f a)) (L.simulateContract s call).2 (ih (L.simulateContract s call).1 (L.simulateContract s call).2)
  | write call resume ih =>
    exact bind_cons (Event.write call (L.writeContract s call).1) (Proc.run L (resume (L.writeContract s call).1) (L.writeContract s call).2)
      (Proc.run L (Proc.andThen f (resume (L.writeContract s call).1)) (L.writeContract s call).2)
      (fun a => Async.toEff L (f a)) (L.writeContract s call).2 (ih (L.writeContract s call).1 (L.writeContract s call).2)
  | wait hash resume ih =>
    exact bind_cons (Event.wait hash (L.waitForTransactionReceipt s hash).1) (Proc.run L (resume (L.waitForTransactionReceipt s hash).1) (L.waitForTransactionReceipt s hash).2)
      (Proc.run L (Proc.andThen f (resume (L.waitForTransactionReceipt s hash).1)) (L.waitForTransactionReceipt s hash).2)
      (fun a => Async.toEff L (f a)) (L.waitForTransactionReceipt s hash).2 (ih (L.waitForTransactionReceipt s hash).1 (L.waitForTransactionReceipt s hash).2)

theorem toEff_bind {σ α β : Type} (L : Ledger σ) (p : Async α) (f : α → Async β) :
    Async.toEff L (p >>= f) = (Async.toEff L p >>= fun a => Async.toEff L (f a)) := by
  funext s
  exact run_andThen L f p s

theorem run_map {σ α β : Type} (L : Ledger σ) (f : α → β) (p : Proc α) (s : σ) :
    Proc.run L (Proc.map f p) s =
      ⟨f (Proc.run L p s).response, (Proc.run L p s).state, (Proc.run L p s).trace⟩ := by
  induction p generalizing s with
  | done a => rfl
  | readJob call resume ih =>
    simp only [Proc.map, Proc.run, ih]
  | readCount call resume ih =>
    simp only [Proc.map, Proc.run, ih]
  | simulate call resume ih =>
    simp only [Proc.map, Proc.run, ih]
  | write call resume ih =>
    simp only [Proc.map, Proc.run, ih]
  | wait hash resume ih =>
    simp only [Proc.map, Proc.run, ih]

theorem run_tryCatch {σ ρ : Type} (L : Ledger σ) (p : Async ρ) (onError : JsError → ρ)
    (s : σ) :
    Proc.run L (Async.tryCatch p onError) s = tryCatch (Async.toEff L p) onError s := by
  unfold Async.tryCatch
  rw [run_map]
  simp only [tryCatch, Async.toEff]
  rcases Proc.run L p s with ⟨r, s1, t⟩
  cases r <;> rfl

theorem toEff_ite {σ α : Type} (L : Ledger σ) (c : Prop) [Decidable c] (p q : Async α) :
    Async.toEff L (if c then p else q) = if c then Async.toEff L p else Async.toEff L q := by
  split <;> rfl

/-- Run alone, the process of a REST request is the handler of the request: the same
response, the same state of the ledger and the same calls. -/
theorem restProcess_run {σ : Type} (R : Runtime) (L : Ledger σ) (req : RestRequest) (s : σ) :
    Proc.run L (restProcess R req) s = restServer R L req s := by
  cases req with
  | health => rfl
  | job id =>
    show Proc.run L (getJobProcess id) s = getJob L id s
    unfold getJobProcess getJob
    rw [run_tryCatch]
    simp only [toEff_bind, toEff_pure, toEff_ofExcept, toEff_readJob]
  | jobsCount =>
    show Proc.run L getJobsCountProcess s = getJobsCount L s
    unfold getJobsCountProcess getJobsCount
    rw [run_tryCatch]
    simp only [toEff_bind, toEff_pure, toEff_readCount]
  | create body =>
    show Proc.run L (postJobCreateProcess R body) s = postJobCreate R L body s
    unfold postJobCreateProcess postJobCreate
    rw [run_tryCatch]
    simp only [toEff_ite, toEff_bind, toEff_pure, toEff_ofExcept, toEff_ofOption,
      toEff_writeContract, toEff_waitForTransactionReceipt]
  | submit id body =>
    show Proc.run L (postJobSubmitProcess id body) s = postJobSubmit L id body s
    unfold postJobSubmitProcess postJobSubmit
    rw [run_tryCatch]
    simp only [toEff_ite, toEff_bind, toEff_pure, toEff_ofExcept, toEff_ofOption,
      toEff_writeContract, toEff_waitForTransactionReceipt]
  | approve id =>
    show Proc.run L (postJobActionProcess "approveWork" id) s = postJobApprove L id s
    unfold postJobActionProcess postJobApprove
    rw [run_tryCatch]
    simp only [toEff_bind, toEff_pure, toEff_ofExcept,
      toEff_writeContract, toEff_waitForTransactionReceipt]
  | cancel id =>
    show Proc.run L (postJobActionProcess "cancelJob" id) s = postJobCancel L id s
    unfold postJobActionProcess postJobCancel
    rw [run_tryCatch]
    simp only [toEff_bind, toEff_pure, toEff_ofExcept,
      toEff_writeContract, toEff_waitForTransactionReceipt]
  | dispute id =>
    show Proc.run L (postJobActionProcess "disputeJob" id) s = postJobDispute L id s
    unfold postJobActionProcess postJobDispute
    rw [run_tryCatch]
    simp only [toEff_bind, toEff_pure, toEff_ofExcept,
      toEff_writeContract, toEff_waitForTransactionReceipt]
  | resolve id =>
    show Proc.run L (postJobActionProcess "resolveDispute" id) s = postJobResolve L id s
    unfold postJobActionProcess postJobResolve
    rw [run_tryCatch]
    simp only [toEff_bind, toEff_pure, toEff_ofExcept,
      toEff_writeContract, toEff_waitForTransactionReceipt]

/-- Run alone, the process of a tool call is the handler of the call. -/
theorem toolProcess_run {σ : Type} (R : Runtime) (now : Nat) (L : Ledger σ) (call : ToolCall)
    (s : σ) :
    Proc.run L (toolProcess R now call) s = callTool R now L call s := by
  unfold toolProcess callTool
  rw [run_tryCatch]
  cases call with
  | create_escrow args =>
    simp only [createEscrowAsync, create_escrow, toEff_bind, toEff_pure, toEff_ofExcept,
      toEff_ofOption, toEff_simulateContract, toEff_writeContract,
      toEff_waitForTransactionReceipt]
  | submit_work args =>
    simp only [submitWorkAsync, submit_work, toEff_bind, toEff_pure, toEff_ofExcept,
      toEff_writeContract, toEff_waitForTransactionReceipt]
  | approve_work args =>
    simp only [toolActionAsync, approve_work, toEff_bind, toEff_pure, toEff_ofExcept,
      toEff_writeContract, toEff_waitForTransactionReceipt]
  | cancel_job args =>
    simp only [toolActionAsync, cancel_job, toEff_bind, toEff_pure, toEff_ofExcept,
      toEff_writeContract, toEff_waitForTransactionReceipt]
  | dispute_job args =>
    simp only [toolActionAsync, dispute_job, toEff_bind, toEff_pure, toEff_ofExcept,
      toEff_writeContract, toEff_waitForTransactionReceipt]
  | resolve_dispute args =>
    simp only [toolActionAsync, resolve_dispute, toEff_bind, toEff_pure, toEff_ofExcept,
      toEff_writeContract, toEff_waitForTransactionReceipt]
  | get_job_status args =>
    simp only [getJobStatusAsync, get_job_status, toEff_bind, toEff_pure, toEff_ofExcept,
      toEff_readJob]
  | other name =>
    simp only [toEff_ofExcept]

/-! ## Concurrent requests (C11) -/

theorem async_ok_bind {α β : Type} (a : α) (f : α → Async β) :
    (Async.ofExcept (.ok a) >>= f) = f a := rfl

theorem async_some_bind {α β : Type} (e : JsError) (a : α) (f : α → Async β) :
    (Async.ofOption e (some a) >>= f) = f a := rfl

theorem restProcess_inFlight (R : Runtime) (req : RestRequest) :
    (restProcess R req).inFlight = req.submits R := by
  cases req with
  | health => rfl
  | job id =>
    show (getJobProcess id).inFlight = false
    unfold getJobProcess
    cases hid : toBigInt (JsVal.str id) <;> rfl
  | jobsCount => rfl
  | create body =>
    show (postJobCreateProcess R body).inFlight = _
    unfold postJobCreateProcess
    cases body with
    | none => rfl
    | some fields =>
      simp only [RestRequest.submits, async_some_bind]
      cases hw : truthy (fields.get "worker") <;> cases hd : truthy (fields.get "deadline") <;>
        cases ha : truthy (fields.get "amount") <;> try rfl
      cases hdl : deadlineTimestamp R.parseOther (fields.get "deadline") with
      | error e => rfl
      | ok t =>
        cases ht : jsToString R.numberToString (fields.get "amount") with
        | none => rfl
        | some text =>
          cases hp : parseEther R.roundNumber text with
          | none =>
            simp only [Option.some_bind, hp, async_ok_bind, async_some_bind]
            rfl
          | some wei =>
            simp only [Option.some_bind, hp, async_ok_bind, async_some_bind]
            rfl
  | submit id body =>
    show (postJobSubmitProcess id body).inFlight = _
    unfold postJobSubmitProcess
    cases hid : toBigInt (JsVal.str id) with
    | error e =>
      cases body <;> simp only [RestRequest.submits, (toBigInt_str_error hid).1] <;> rfl
    | ok j =>
      cases body with
      | none => rfl
      | some fields =>
        simp only [RestRequest.submits, toBigInt_str_ok hid, async_ok_bind, async_some_bind]
        cases hd : truthy (fields.get "deliverable") <;> rfl
  | approve id =>
    show (postJobActionProcess "approveWork" id).inFlight = (stringToBigInt id).isSome
    unfold postJobActionProcess
    cases hid : toBigInt (JsVal.str id) with
    | error e =>
      rw [(toBigInt_str_error hid).1]
      rfl
    | ok j =>
      rw [toBigInt_str_ok hid]
      rfl
  | cancel id =>
    show (postJobActionProcess "cancelJob" id).inFlight = (stringToBigInt id).isSome
    unfold postJobActionProcess
    cases hid : toBigInt (JsVal.str id) with
    | error e =>
      rw [(toBigInt_str_error hid).1]
      rfl
    | ok j =>
      rw [toBigInt_str_ok hid]
      rfl
  | dispute id =>
    show (postJobActionProcess "disputeJob" id).inFlight = (stringToBigInt id).isSome
    unfold postJobActionProcess
    cases hid : toBigInt (JsVal.str id) with
    | error e =>
      rw [(toBigInt_str_error hid).1]
      rfl
    | ok j =>
      rw [toBigInt_str_ok hid]
      rfl
  | resolve id =>
    show (postJobActionProcess "resolveDispute" id).inFlight = (stringToBigInt id).isSome
    unfold postJobActionProcess
    cases hid : toBigInt (JsVal.str id) with
    | error e =>
      rw [(toBigInt_str_error hid).1]
      rfl
    | ok j =>
      rw [toBigInt_str_ok hid]
      rfl

theorem toolProcess_inFlight (R : Runtime) (now : Nat) (call : ToolCall) :
    (toolProcess R now call).inFlight = call.submitsAtOnce := by
  cases call with
  | create_escrow args =>
    show (Async.tryCatch (createEscrowAsync R now args) toolError).inFlight = false
    unfold createEscrowAsync
    cases hd : deadlineOfHours R now args.deadline_hours with
    | error e => rfl
    | ok deadline => cases hp : parseEtherValue R args.amount_eth <;> rfl
  | submit_work args =>
    show (Async.tryCatch (submitWorkAsync args) toolError).inFlight = _
    unfold submitWorkAsync
    simp only [ToolCall.submitsAtOnce]
    cases hid : toBigInt args.job_id <;> rfl
  | approve_work args =>
    show (Async.tryCatch (toolActionAsync _ _ args) toolError).inFlight = _
    unfold toolActionAsync
    simp only [ToolCall.submitsAtOnce]
    cases hid : toBigInt args.job_id <;> rfl
  | cancel_job args =>
    show (Async.tryCatch (toolActionAsync _ _ args) toolError).inFlight = _
    unfold toolActionAsync
    simp only [ToolCall.submitsAtOnce]
    cases hid : toBigInt args.job_id <;> rfl
  | dispute_job args =>
    show (Async.tryCatch (toolActionAsync _ _ args) toolError).inFlight = _
    unfold toolActionAsync
    simp only [ToolCall.submitsAtOnce]
    cases hid : toBigInt args.job_id <;> rfl
  | resolve_dispute args =>
    show (Async.tryCatch (toolActionAsync _ _ args) toolError).inFlight = _
    unfold toolActionAsync
    simp only [ToolCall.submitsAtOnce]
    cases hid : toBigInt args.job_id <;> rfl
  | get_job_status args =>
    show (Async.tryCatch (getJobStatusAsync args) toolError).inFlight = false
    unfold getJobStatusAsync
    cases hid : toBigInt args.job_id <;> rfl
  | other name => rfl

theorem thread_step_ended {σ ρ : Type} (L : Ledger σ) (t : Thread ρ) (s : σ)
    (h : t.ended = true) : (t.step L s).1.ended = true ∧ (t.step L s).1.inFlight = false := by
  rcases t with ⟨started, proc⟩
  cases started with
  | false => simp [Thread.ended] at h
  | true =>
    cases proc with
    | done r => exact ⟨rfl, rfl⟩
    | readJob call resume => simp [Thread.ended] at h
    | readCount call resume => simp [Thread.ended] at h
    | simulate call resume => simp [Thread.ended] at h
    | write call resume => simp [Thread.ended] at h
    | wait hash resume => simp [Thread.ended] at h

theorem ended_not_inFlight {ρ : Type} (t : Thread ρ) (h : t.ended = true) :
    t.inFlight = false := by
  rcases t with ⟨started, proc⟩
  cases proc <;> simp [Thread.ended, Thread.inFlight, Proc.inFlight] at h ⊢

theorem run_first_ended {σ ρ₁ ρ₂ : Type} (L : Ledger σ) (schedule : List Bool)
    (c : Config σ ρ₁ ρ₂) (h : c.first.ended = true) :
    (Config.run L c schedule).first.ended = true := by
  induction schedule generalizing c with
  | nil => exact h
  | cons turn rest ih =>
    show (Config.run L (Config.step L c turn) rest).first.ended = true
    apply ih
    cases turn with
    | true => exact h
    | false => exact (thread_step_ended L c.first c.ledger h).1

/-- **C11, counterexample.** Two approve requests arrive at the REST front door; the
event loop runs the first, which submits and awaits, then the second, which submits
as well: both submissions are in flight, and the first request has not ended.  The
same holds when the second request is the tool call `cancel_job`. -/
theorem two_submissions_in_flight :
    (Config.run (fixedLedger ReceiptStatus.success)
      ⟨(freshJob, 0), Thread.arrived (restProcess strictRuntime (RestRequest.approve "1")),
        Thread.arrived (restProcess strictRuntime (RestRequest.approve "2"))⟩
      [false, true]).bothInFlight = true ∧
    (Config.run (fixedLedger ReceiptStatus.success)
      ⟨(freshJob, 0), Thread.arrived (restProcess strictRuntime (RestRequest.approve "1")),
        Thread.arrived (restProcess strictRuntime (RestRequest.approve "2"))⟩
      [false, true]).first.ended = false ∧
    (Config.run (fixedLedger ReceiptStatus.success)
      ⟨(freshJob, 0), Thread.arrived (restProcess strictRuntime (RestRequest.approve "1")),
        Thread.arrived (toolProcess strictRuntime 0 (ToolCall.cancel_job ⟨JsVal.num 2⟩))⟩
      [false, true]).bothInFlight = true := by
  decide

/-- **C11, amended.** Nothing serializes overlapping requests.  When the second of two
concurrent requests is run while the first has a submission in flight, it starts its
own submission at once, provided it is a mutating request that passes its own checks
(`create_escrow` starts it on its second turn, once its simulation has returned), and
both submissions are in flight.  Only when the first request has ended before the
second is run are there never two submissions in flight. -/
theorem requests_are_not_serialized {σ ρ : Type} (R : Runtime) (now : Nat) (L : Ledger σ)
    (s : σ) :
    (∀ (first : Thread ρ) (req : RestRequest), first.inFlight = true → req.submits R = true →
      (Config.step L ⟨s, first, Thread.arrived (restProcess R req)⟩ true).bothInFlight = true) ∧
    (∀ (first : Thread ρ) (call : ToolCall), first.inFlight = true →
      call.submitsAtOnce = true →
      (Config.step L ⟨s, first, Thread.arrived (toolProcess R now call)⟩ true).bothInFlight
        = true) ∧
    (∀ (first : Thread ρ) (args : CreateEscrowArgs) (deadline value : Int)
      (request : ContractCall) (s1 : σ), first.inFlight = true →
      deadlineOfHours R now args.deadline_hours = .ok deadline →
      parseEtherValue R args.amount_eth = .ok value →
      L.simulateContract s
        ⟨"createJob", [args.worker_address, JsVal.bigint deadline], some value⟩ =
        (.ok request, s1) →
      (Config.run L ⟨s, first, Thread.arrived (toolProcess R now (ToolCall.create_escrow args))⟩
        [true, true]).bothInFlight = true) ∧
    (∀ (first : Thread ρ) (second : Thread ToolResult) (schedule : List Bool),
      first.ended = true →
      (Config.run L ⟨s, first, second⟩ schedule).bothInFlight = false) ∧
    (∀ (first : Thread ρ) (second : Thread HttpResponse) (schedule : List Bool),
      first.ended = true →
      (Config.run L ⟨s, first, second⟩ schedule).bothInFlight = false) := by
  refine ⟨?_, ?_, ?_, ?_, ?_⟩
  · intro first req h1 h2
    have h3 : (restProcess R req).inFlight = true := by rw [restProcess_inFlight, h2]
    simp [Config.step, Config.bothInFlight, Thread.step, Thread.arrived, Thread.inFlight,
      h3] at h1 ⊢
    exact h1
  · intro first call h1 h2
    have h3 : (toolProcess R now call).inFlight = true := by rw [toolProcess_inFlight, h2]
    simp [Config.step, Config.bothInFlight, Thread.step, Thread.arrived, Thread.inFlight,
      h3] at h1 ⊢
    exact h1
  · intro first args deadline value request s1 h1 hd hp hsim
    have hproc : toolProcess R now (ToolCall.create_escrow args) =
        Proc.simulate ⟨"createJob", [args.worker_address, JsVal.bigint deadline], some value⟩
          (fun r => Async.tryCatch (Async.ofExcept r >>= fun txRequest => do
            let hash ← Async.writeContract txRequest
            let receipt ← Async.waitForTransactionReceipt hash
            let jobId := escrowJobId R receipt
            let amount ← Async.ofOption JsError.typeError
              (coerceToString R.numberToString args.amount_eth)
            let deadlineText ← Async.ofExcept (isoOfSeconds deadline)
            pure ⟨Body.json (jsonProperties
              [("success", JsVal.bool true), ("job_id", jobId), ("tx_hash", JsVal.str hash),
               ("worker", args.worker_address),
               ("amount", JsVal.str (amount ++ " ETH")),
               ("deadline", JsVal.str deadlineText),
               ("explorer", JsVal.str (explorer hash))]), false⟩) toolError) := by
      show Async.tryCatch (createEscrowAsync R now args) toolError = _
      unfold createEscrowAsync
      simp only [hd, hp, async_ok_bind]
      rfl
    rw [hproc]
    simp only [Config.run, List.foldl, Config.step, Thread.step, Thread.arrived, if_true,
      Bool.not_false, Bool.not_true, Bool.false_eq_true, if_false, hsim,
      Config.bothInFlight, h1, Bool.true_and]
    rfl
  · intro first second schedule h
    have := ended_not_inFlight _ (run_first_ended L schedule ⟨s, first, second⟩ h)
    simp [Config.bothInFlight, this]
  · intro first second schedule h
    have := ended_not_inFlight _ (run_first_ended L schedule ⟨s, first, second⟩ h)
    simp [Config.bothInFlight, this]

end AgentEscrow
